import Mathlib

/-!
# gtirb-pprinter: the printing engine of `PrettyPrinter.cpp` and `DisasmData.cpp`

A shallow embedding of `PrettyPrinterBase` (src/src/PrettyPrinter.cpp) and of the
legacy query class `DisasmData` (src/src/DisasmData.cpp).

Conventions of the embedding.

* `gtirb::Addr` and every `uint64_t` are natural numbers; where the C++ arithmetic
  can wrap, the result is taken modulo `2 ^ 64` explicitly.
* A routine `void f(std::ostream& os, args)` becomes a function returning the text it
  writes to `os`. The stream is always in decimal mode between two writes (every
  `std::hex` in the source is paired with a `std::dec`).
* A routine that can abort the process (`exit`, a failed `assert`) or whose behaviour
  is undefined (dereferencing an empty `std::optional`, a null pointer) returns an
  `Option`: `none` stands for "no result".
* Routines that are pure virtual or defined by a syntax backend, the keyword table
  `syntax[...]`, the skip sets and the instruction decoder are fields of the printer.
-/

namespace gtirb_pprint

/-! ## Program model (the part of GTIRB the printer queries) -/

abbrev Addr := Nat
abbrev UUID := Nat

/-- Wrap-around of 64-bit unsigned arithmetic. -/
def wrap64 (n : Nat) : Nat := n % 2 ^ 64

/-- Text of `os << std::hex << x << std::dec` for an unsigned integer: lower-case
hexadecimal digits, no prefix. -/
def hex (x : Nat) : String := String.mk (Nat.toDigits 16 x)

/-- Text of `os << x` for an unsigned integer (decimal mode). -/
def dec (x : Nat) : String := String.mk (Nat.toDigits 10 x)

/-- Text of `os << x` for an `int64_t` (decimal mode): a leading `-` for negatives. -/
def decInt (x : Int) : String :=
  match x with
  | Int.ofNat n => dec n
  | Int.negSucc n => "-" ++ dec (n + 1)

structure Symbol where
  uuid : UUID
  name : String
  address : Option Addr
deriving DecidableEq, Repr

structure Section where
  uuid : UUID
  name : String
  address : Addr
  size : Nat
deriving DecidableEq, Repr

/-- Modelled from the spec: a code block `{id, address, size, raw bytes}`; `bytes` is
what `getBytes(module.getImageByteMap(), block)` returns. -/
structure Block where
  uuid : UUID
  address : Addr
  size : Nat
  bytes : List Nat
deriving DecidableEq, Repr

/-- Modelled from the spec: a data object `{id, address, size, raw bytes}`; `bytes` is
what `getBytes(module.getImageByteMap(), dataObject)` returns (empty when the object
has no backing content). -/
structure DataObject where
  uuid : UUID
  address : Addr
  size : Nat
  bytes : List Nat
deriving DecidableEq, Repr

/-- Modelled from the spec: `gtirb::SymbolicExpression`, a tagged variant that is an
address constant (`SymAddrConst{Offset, Sym}`) or an address difference
(`SymAddrAddr{Sym1, Sym2}`). -/
inductive SymbolicExpression where
  | SymAddrConst (Offset : Int) (Sym : Symbol)
  | SymAddrAddr (Sym1 : Symbol) (Sym2 : Symbol)
deriving DecidableEq, Repr

/-- Key of the per-byte metadata maps, `gtirb::Offset{ElementId, Displacement}`. -/
structure Offset where
  ElementId : UUID
  Displacement : Nat
deriving DecidableEq, Repr

/-- Strict order of `gtirb::Offset` keys inside a `std::map`: lexicographic on
`(ElementId, Displacement)`. -/
def Offset.lt (a b : Offset) : Bool :=
  decide (a.ElementId < b.ElementId) ||
    (decide (a.ElementId = b.ElementId) && decide (a.Displacement < b.Displacement))

/-- One entry of the `cfiDirectives` table: `(name, operands, symbol id)`. -/
structure CFIDirective where
  name : String
  operands : List Int
  symbol : UUID
deriving DecidableEq, Repr

/-- A node the allocation context can return for a UUID. -/
inductive Node where
  | symbol (s : Symbol)
  | block (b : Block)
  | dataObject (d : DataObject)
  | sect (s : Section)
deriving DecidableEq, Repr

def Node.uuid : Node → UUID
  | Node.symbol s => s.uuid
  | Node.block b => b.uuid
  | Node.dataObject d => d.uuid
  | Node.sect s => s.uuid

/-- The allocation context `gtirb::Context`: the nodes that can be found by UUID. -/
abbrev Context := List Node

/-- Lookup `gtirb::Node::getByUUID(C, id)`; `none` is the null pointer. -/
def getByUUID (C : Context) (id : UUID) : Option Node :=
  C.find? (fun n => n.uuid == id)

/-- The first module of the IR, `*ir.modules().begin()`, with the auxiliary tables the
printer reads. Every table is optional; a `std::map` is the list of its entries in key
order. -/
structure Module where
  symbols : List Symbol
  sections : List Section
  /-- Blocks in the order `gtirb::blocks(module.getCFG())` yields them. -/
  blocks : List Block
  /-- Data objects in the order `module.data_begin() .. module.data_end()` yields them;
  `print` relies on this being address order and does not sort them. -/
  data : List DataObject
  symbolicExprs : List (Addr × SymbolicExpression)
  /-- Table `functionEntries` (function id to the ids of its entry blocks), read by the
  constructor of `PrettyPrinterBase`. -/
  functionEntries : Option (List (UUID × List UUID))
  /-- Table `functionEntry` (entry addresses), read by the constructor of `DisasmData`. -/
  functionEntry : Option (List Addr)
  symbolForwarding : Option (List (UUID × UUID))
  encodings : Option (List (UUID × String))
  comments : Option (List (Offset × String))
  cfiDirectives : Option (List (Offset × List CFIDirective))

/-- Range `module.findSymbols(ea)`: the symbols whose address is `ea`. -/
def Module.findSymbolsAt (m : Module) (ea : Addr) : List Symbol :=
  m.symbols.filter (fun s => s.address == some ea)

/-- Range `module.findSymbols(name)`: the symbols with exactly that name. -/
def Module.findSymbolsNamed (m : Module) (name : String) : List Symbol :=
  m.symbols.filter (fun s => s.name == name)

/-- Modelled from the spec: a section is a name with an address range; it contains
`addr` when `address ≤ addr < address + size`. -/
def Section.containsAddr (s : Section) (addr : Addr) : Bool :=
  decide (s.address ≤ addr) && decide (addr < s.address + s.size)

/-- Range `module.findSection(addr)`: the sections containing `addr`. -/
def Module.findSection (m : Module) (addr : Addr) : List Section :=
  m.sections.filter (fun s => s.containsAddr addr)

/-- Lookup `module.findSymbolicExpression(addr)`; `none` is `symbolic_expr_end()`. -/
def Module.findSymbolicExpression (m : Module) (addr : Addr) : Option SymbolicExpression :=
  m.symbolicExprs.lookup addr

/-! ## Decoded instructions (the part of Capstone the printer reads) -/

inductive x86_op_type where
  | X86_OP_INVALID
  | X86_OP_REG
  | X86_OP_IMM
  | X86_OP_MEM
deriving DecidableEq, Repr

/-- An operand descriptor; `payload` stands for the register, immediate or memory
fields, which only the backend reads. -/
structure cs_x86_op where
  type : x86_op_type
  payload : Nat
deriving DecidableEq, Repr

/-- The instruction identifiers the printer tests for; every other one is `other`. -/
inductive x86_insn where
  | X86_INS_NOP
  | X86_INS_MOVSB
  | X86_INS_MOVSW
  | X86_INS_MOVSD
  | X86_INS_MOVSQ
  | other (id : Nat)
deriving DecidableEq, Repr

/-- The instruction groups the printer tests for; every other one is `other`. -/
inductive x86_insn_group where
  | X86_GRP_SSE2
  | other (id : Nat)
deriving DecidableEq, Repr

/-- A decoded instruction `cs_insn` with the fields of `detail->x86` the printer uses. -/
structure cs_insn where
  id : x86_insn
  address : Nat
  size : Nat
  mnemonic : String
  op_count : Nat
  operands : List cs_x86_op
  imm_offset : Nat
  disp_offset : Nat
  groups : List x86_insn_group
deriving DecidableEq, Repr

/-! ## The printer -/

/-- The keyword table `syntax[...]` of the backend. -/
structure Syntax where
  Comment : String
  Tab : String
  SectionText : String
  SectionData : String
  SectionBSS : String
  DirectiveText : String
  DirectiveData : String
  DirectiveBSS : String
  DirectiveAlign : String
  DirectiveNOP : String

/-- What a concrete printer (a subclass of `PrettyPrinterBase`) provides: the keyword
table, the skip sets it fills in, the pure virtual rendering routines, and the decoder
call `cs_disasm(csHandle, bytes, size, address, 0, &insn)`. -/
structure Backend where
  syn : Syntax
  skip_sects : List String
  skip_funcs : List String
  skip_data : List String
  cs_disasm : List Nat → Addr → List cs_insn
  printHeader : String
  printFooter : String
  printFunctionHeader : Addr → String
  printSectionHeaderDirective : Section → String
  printSectionProperties : Section → String
  printSectionFooterDirective : Section → String
  printOpRegdirect : cs_insn → cs_x86_op → String
  printOpImmediate : Option SymbolicExpression → cs_insn → Nat → String
  printOpIndirect : Option SymbolicExpression → cs_insn → Nat → String
  printByte : Nat → String

/-- State of a `PrettyPrinterBase`: the members set by its constructor, and the
backend. -/
structure PrettyPrinterBase where
  debug : Bool
  context : Context
  module : Module
  functionEntry : List Addr
  backend : Backend

/-- Whether a pretty printer should include debugging messages in its output. -/
inductive DebugStyle where
  | NoDebug
  | DebugMessages
deriving DecidableEq, Repr

/-- Addresses of the entry blocks named by the `functionEntries` table, in table order;
`none` when an entry is not the UUID of a block (`block->getAddress()` on a null
pointer). -/
def entryAddresses (context : Context) : List UUID → Option (List Addr)
  | [] => some []
  | id :: ids =>
    match getByUUID context id with
    | some (Node.block b) => (entryAddresses context ids).map (fun r => b.address :: r)
    | _ => none

/-- Constructor `PrettyPrinterBase::PrettyPrinterBase(context, ir, dbg)`: collects the
address of every entry block and sorts the list (`std::sort`). -/
def PrettyPrinterBase.new (context : Context) (module : Module) (dbg : DebugStyle)
    (backend : Backend) : Option PrettyPrinterBase :=
  match module.functionEntries with
  | some functionEntries =>
    (entryAddresses context (functionEntries.flatMap (fun f => f.2))).map fun addrs =>
      { debug := decide (dbg = DebugStyle.DebugMessages), context := context,
        module := module, functionEntry := addrs.insertionSort (· ≤ ·),
        backend := backend }
  | none =>
    some { debug := decide (dbg = DebugStyle.DebugMessages), context := context,
           module := module, functionEntry := [], backend := backend }

/-- State of the legacy query class `DisasmData`. -/
structure DisasmData where
  context : Context
  module : Module
  functionEntry : List Addr

/-- Constructor `DisasmData::DisasmData(context, ir)`: copies the `functionEntry`
auxiliary vector (when present) and sorts it. -/
def DisasmData.new (context : Context) (module : Module) : DisasmData :=
  { context := context, module := module,
    functionEntry := (module.functionEntry.getD []).insertionSort (· ≤ ·) }

/-! ## Standard-library algorithms used on `functionEntry` -/

/-- Algorithm `std::lower_bound` on the index range `[first, first + len)` of `v`:
the first index whose element is not less than `x` (when the range is sorted). -/
def lower_bound (v : List Addr) (x : Addr) (first len : Nat) : Nat :=
  if 0 < len then
    if v.getD (first + len / 2) 0 < x then
      lower_bound v x (first + len / 2 + 1) (len - len / 2 - 1)
    else
      lower_bound v x first (len / 2)
  else first
termination_by len
decreasing_by all_goals omega

/-- Algorithm `std::upper_bound` on the index range `[first, first + len)` of `v`:
the first index whose element is greater than `x` (when the range is sorted). -/
def upper_bound (v : List Addr) (x : Addr) (first len : Nat) : Nat :=
  if 0 < len then
    if x < v.getD (first + len / 2) 0 then
      upper_bound v x first (len / 2)
    else
      upper_bound v x (first + len / 2 + 1) (len - len / 2 - 1)
  else first
termination_by len
decreasing_by all_goals omega

/-- Algorithm `std::binary_search(v.begin(), v.end(), x)`. -/
def binary_search (v : List Addr) (x : Addr) : Bool :=
  let i := lower_bound v x 0 v.length
  decide (i ≠ v.length) && !decide (x < v.getD i 0)

/-! ## Symbol resolution -/

/-- Routine `PrettyPrinterBase::isAmbiguousSymbol`: are there several symbols with this
name? -/
def PrettyPrinterBase.isAmbiguousSymbol (p : PrettyPrinterBase) (name : String) : Bool :=
  decide ((p.module.findSymbolsNamed name).length > 1)

/-- Routine `PrettyPrinterBase::GetSymbolToPrint`. -/
def GetSymbolToPrint (x : Addr) : String := ".L_" ++ hex x

/-- Routine `PrettyPrinterBase::AvoidRegNameConflicts`. -/
def AvoidRegNameConflicts (x : String) : String :=
  let adapt := ["FS", "MOD", "DIV", "NOT", "mod", "div", "not", "and", "or", "shr", "Si"]
  if x ∈ adapt then x ++ "_renamed" else x

/-- Routine `PrettyPrinterBase::getFunctionName`. -/
def PrettyPrinterBase.getFunctionName (p : PrettyPrinterBase) (x : Addr) : String :=
  let entry_point := binary_search p.functionEntry x
  if entry_point then
    match p.module.findSymbolsAt x with
    | s :: _ => if p.isAmbiguousSymbol s.name then s.name ++ "_" ++ hex x else s.name
    | [] => "unknown_function_" ++ hex x
  else ""

/-- Routine `PrettyPrinterBase::getContainerFunctionName`. -/
def PrettyPrinterBase.getContainerFunctionName (p : PrettyPrinterBase) (x : Addr) :
    Option String :=
  let it := upper_bound p.functionEntry x 0 p.functionEntry.length
  if it = 0 then none
  else some (p.getFunctionName (p.functionEntry.getD (it - 1) 0))

/-- Routine `PrettyPrinterBase::getContainerSection`: the first section containing the
address. -/
def PrettyPrinterBase.getContainerSection (p : PrettyPrinterBase) (addr : Addr) :
    Option Section :=
  (p.module.findSection addr).head?

/-- Routine `PrettyPrinterBase::isInSkippedSection`. -/
def PrettyPrinterBase.isInSkippedSection (p : PrettyPrinterBase) (addr : Addr) : Bool :=
  if p.debug then false
  else
    match p.getContainerSection addr with
    | some s => decide (s.name ∈ p.backend.skip_sects)
    | none => false

/-- Routine `PrettyPrinterBase::isInSkippedFunction`. -/
def PrettyPrinterBase.isInSkippedFunction (p : PrettyPrinterBase) (x : Addr) : Bool :=
  match p.getContainerFunctionName x with
  | none => false
  | some xFunctionName => decide (xFunctionName ∈ p.backend.skip_funcs)

/-- Routine `PrettyPrinterBase::skipEA`. -/
def PrettyPrinterBase.skipEA (p : PrettyPrinterBase) (x : Addr) : Bool :=
  !p.debug && (p.isInSkippedSection x || p.isInSkippedFunction x)

/-- Routine `PrettyPrinterBase::getForwardedSymbolEnding`. -/
def PrettyPrinterBase.getForwardedSymbolEnding (p : PrettyPrinterBase) (symbol : Symbol)
    (isAbsolute : Bool) : String :=
  match symbol.address with
  | some addr =>
    match p.module.findSection addr with
    | [] => ""
    | s :: _ =>
      let section_name := s.name
      if !isAbsolute && (section_name == ".plt" || section_name == ".plt.got") then "@PLT"
      else if section_name == ".got" || section_name == ".got.plt" then "@GOTPCREL"
      else ""
  | none => ""

/-- Routine `PrettyPrinterBase::getForwardedSymbolName`. The outer `Option` is `none`
when the destination UUID is not a symbol of the context (`cast<gtirb::Symbol>` of a
null or foreign node); the inner one is the `std::optional` of the source. -/
def PrettyPrinterBase.getForwardedSymbolName (p : PrettyPrinterBase) (symbol : Symbol)
    (isAbsolute : Bool) : Option (Option String) :=
  match p.module.symbolForwarding with
  | some symbolForwarding =>
    match symbolForwarding.lookup symbol.uuid with
    | some found =>
      match getByUUID p.context found with
      | some (Node.symbol destSymbol) =>
        some (some (destSymbol.name ++ p.getForwardedSymbolEnding symbol isAbsolute))
      | _ => none
    | none => some none
  | none => some none

/-- Routine `PrettyPrinterBase::printSymbolReference`. An ambiguous symbol without an
address has no result (`*symbol->getAddress()` on an empty optional). -/
def PrettyPrinterBase.printSymbolReference (p : PrettyPrinterBase) (symbol : Symbol)
    (isAbsolute : Bool) : Option String :=
  match p.getForwardedSymbolName symbol isAbsolute with
  | none => none
  | some (some forwardedName) => some forwardedName
  | some none =>
    match symbol.address with
    | some a =>
      if p.skipEA a then some (dec a)
      else if p.isAmbiguousSymbol symbol.name then some (GetSymbolToPrint a)
      else some (AvoidRegNameConflicts symbol.name)
    | none =>
      if p.isAmbiguousSymbol symbol.name then none
      else some (AvoidRegNameConflicts symbol.name)

/-- Routine `PrettyPrinterBase::printSymbolDefinitionsAtAddress`. Every symbol found at
`ea` carries the address `ea`, which is the one the local label is built from. -/
def PrettyPrinterBase.printSymbolDefinitionsAtAddress (p : PrettyPrinterBase) (ea : Addr) :
    String :=
  String.join ((p.module.findSymbolsAt ea).map fun symbol =>
    if p.isAmbiguousSymbol symbol.name then GetSymbolToPrint ea ++ ":\n"
    else AvoidRegNameConflicts symbol.name ++ ":\n")

/-! ## Sections and alignment -/

/-- Routine `PrettyPrinterBase::printBar` (both branches write the same line). -/
def PrettyPrinterBase.printBar (p : PrettyPrinterBase) : String :=
  p.backend.syn.Comment ++ "===================================\n"

/-- Routine `PrettyPrinterBase::printAlignment`. -/
def PrettyPrinterBase.printAlignment (p : PrettyPrinterBase) (addr : Addr) : String :=
  let x := wrap64 addr
  if x % 16 = 0 then p.backend.syn.DirectiveAlign ++ " 16\n"
  else if x % 8 = 0 then p.backend.syn.DirectiveAlign ++ " 8\n"
  else if x % 4 = 0 then p.backend.syn.DirectiveAlign ++ " 4\n"
  else if x % 2 = 0 then p.backend.syn.DirectiveAlign ++ " 2\n"
  else ""

/-- Routine `PrettyPrinterBase::printSectionHeader`. -/
def PrettyPrinterBase.printSectionHeader (p : PrettyPrinterBase) (addr : Addr) : String :=
  match p.module.findSection addr with
  | [] => ""
  | found :: _ =>
    if found.address ≠ addr then ""
    else
      let sectionName := found.name
      if sectionName ∈ p.backend.skip_sects then ""
      else
        "\n" ++ p.printBar ++
        (if sectionName = p.backend.syn.SectionText then p.backend.syn.DirectiveText ++ "\n"
         else if sectionName = p.backend.syn.SectionData then
           p.backend.syn.DirectiveData ++ "\n"
         else if sectionName = p.backend.syn.SectionBSS then
           p.backend.syn.DirectiveBSS ++ "\n"
         else
           p.backend.printSectionHeaderDirective found ++
             p.backend.printSectionProperties found ++ "\n") ++
        (if sectionName ∈ p.backend.skip_data then p.backend.syn.DirectiveAlign ++ " 8\n"
         else p.printAlignment addr) ++
        p.printBar ++ "\n"

/-- Routine `PrettyPrinterBase::printSectionFooter`; `last - 1` wraps at `last = 0`. -/
def PrettyPrinterBase.printSectionFooter (p : PrettyPrinterBase) (addr : Option Addr)
    (last : Addr) : String :=
  match p.getContainerSection (wrap64 (last + (2 ^ 64 - 1))) with
  | none => ""
  | some prev_section =>
    let section_name := prev_section.name
    if section_name ∈ p.backend.skip_sects then ""
    else
      let next_section :=
        match addr with
        | some a => p.getContainerSection a
        | none => none
      if next_section.isNone || !decide (next_section = some prev_section) then
        if section_name = p.backend.syn.SectionText then ""
        else if section_name = p.backend.syn.SectionData then ""
        else if section_name = p.backend.syn.SectionBSS then ""
        else
          p.printBar ++ p.backend.printSectionFooterDirective prev_section ++ "\n" ++
            p.printBar
      else ""

/-! ## Metadata: comments and call-frame directives -/

/-- Routine `PrettyPrinterBase::printComments`. The walk starts at
`comments->lower_bound(offset)` and stops at the first key not below `endOffset`. -/
def PrettyPrinterBase.printComments (p : PrettyPrinterBase) (offset : Offset)
    (range : Nat) : String :=
  if !p.debug then ""
  else
    match p.module.comments with
    | none => ""
    | some comments =>
      let endOffset : Offset := ⟨offset.ElementId, wrap64 (offset.Displacement + range)⟩
      String.join
        (((comments.dropWhile (fun e => e.1.lt offset)).takeWhile
            (fun e => e.1.lt endOffset)).map fun e =>
          p.backend.syn.Comment ++
          (if e.1.Displacement > offset.Displacement then
             "+" ++ dec (e.1.Displacement - offset.Displacement) ++ ":"
           else "") ++
          " " ++ e.2 ++ "\n")

/-- Operand list of a CFI directive: the numbers separated by `", "`. -/
def printCFIOperands : List Int → String
  | [] => ""
  | [x] => decInt x
  | x :: y :: rest => decInt x ++ ", " ++ printCFIOperands (y :: rest)

/-- Lookup `nodeFromUUID<gtirb::Symbol>(context, id)`: the symbol with that UUID, or
nothing when the node is missing or of another kind. -/
def symbolFromUUID (C : Context) (id : UUID) : Option Symbol :=
  match getByUUID C id with
  | some (Node.symbol s) => some s
  | _ => none

/-- One iteration of the loop of `printCFIDirectives`. -/
def PrettyPrinterBase.printCFIDirective (p : PrettyPrinterBase) (d : CFIDirective) :
    Option String :=
  match symbolFromUUID p.context d.symbol with
  | some symbol =>
    (p.printSymbolReference symbol true).map fun ref =>
      d.name ++ " " ++ printCFIOperands d.operands ++
        (if d.operands.length > 0 then ", " else "") ++ ref ++ "\n"
  | none => some (d.name ++ " " ++ printCFIOperands d.operands ++ "\n")

/-- Concatenation of the texts of a sequence of writes, the first failure aborting. -/
def concatOpt : List (Option String) → Option String
  | [] => some ""
  | x :: xs =>
    match x with
    | none => none
    | some a => (concatOpt xs).map fun r => a ++ r

/-- Routine `PrettyPrinterBase::printCFIDirectives`. -/
def PrettyPrinterBase.printCFIDirectives (p : PrettyPrinterBase) (offset : Offset) :
    Option String :=
  match p.module.cfiDirectives with
  | none => some ""
  | some cfiDirectives =>
    match cfiDirectives.lookup offset with
    | none => some ""
    | some entry => concatOpt (entry.map p.printCFIDirective)

/-! ## Instructions and blocks -/

/-- Routine `PrettyPrinterBase::printEA`. -/
def PrettyPrinterBase.printEA (p : PrettyPrinterBase) (ea : Addr) : String :=
  p.backend.syn.Tab ++ (if p.debug then hex ea ++ ": " else "")

/-- Routine `PrettyPrinterBase::printOperand`; an invalid operand exits the process. -/
def PrettyPrinterBase.printOperand (p : PrettyPrinterBase) (inst : cs_insn) (index : Nat) :
    Option String :=
  let ea := inst.address
  let op := inst.operands.getD index ⟨x86_op_type.X86_OP_INVALID, 0⟩
  match op.type with
  | x86_op_type.X86_OP_REG => some (p.backend.printOpRegdirect inst op)
  | x86_op_type.X86_OP_IMM =>
    some (p.backend.printOpImmediate
      (p.module.findSymbolicExpression (wrap64 (ea + inst.imm_offset))) inst index)
  | x86_op_type.X86_OP_MEM =>
    some (p.backend.printOpIndirect
      (if inst.disp_offset > 0 then
         p.module.findSymbolicExpression (wrap64 (ea + inst.disp_offset))
       else none) inst index)
  | x86_op_type.X86_OP_INVALID => none

/-- Routine `PrettyPrinterBase::printOperandList`. -/
def PrettyPrinterBase.printOperandList (p : PrettyPrinterBase) (inst : cs_insn) :
    Option String :=
  let opCount :=
    if (inst.id = x86_insn.X86_INS_MOVSB ∨ inst.id = x86_insn.X86_INS_MOVSW ∨
        inst.id = x86_insn.X86_INS_MOVSD ∨ inst.id = x86_insn.X86_INS_MOVSQ) ∧
       inst.groups.head? ≠ some x86_insn_group.X86_GRP_SSE2 then 0
    else inst.op_count
  concatOpt ((List.range opCount).map fun i =>
    (p.printOperand inst i).map fun t => (if i ≠ 0 then "," else "") ++ t)

/-- The loop of the no-op special case of `printInstruction`: `n` further mnemonics,
each on its own line with the next address. -/
def PrettyPrinterBase.printNopTail (p : PrettyPrinterBase) : Nat → Addr → String
  | 0, _ => ""
  | n + 1, ea =>
    "\n" ++ p.printEA (wrap64 (ea + 1)) ++ "  " ++ p.backend.syn.DirectiveNOP ++
      p.printNopTail n (wrap64 (ea + 1))

/-- Modelled from the spec: the helper `ascii_str_tolower` of string_utils.h, which
lower-cases the mnemonic (ASCII letters only). -/
def ascii_str_tolower (s : String) : String := s.map Char.toLower

/-- Routine `PrettyPrinterBase::printInstruction`. -/
def PrettyPrinterBase.printInstruction (p : PrettyPrinterBase) (inst : cs_insn)
    (offset : Offset) : Option String :=
  let ea := inst.address
  match p.printCFIDirectives offset with
  | none => none
  | some cfi =>
    let head := p.printSymbolDefinitionsAtAddress ea ++ p.printComments offset inst.size ++
      cfi ++ p.printEA ea
    if inst.id = x86_insn.X86_INS_NOP then
      some (head ++ "  " ++ p.backend.syn.DirectiveNOP ++ p.printNopTail (inst.size - 1) ea)
    else
      (p.printOperandList inst).map fun ops =>
        head ++ "  " ++ ascii_str_tolower inst.mnemonic ++ " " ++ ops

/-- The instruction loop of `printBlock` followed by the CFI directives at the end of
the block; `offset` is the running `gtirb::Offset`. -/
def PrettyPrinterBase.printInstructions (p : PrettyPrinterBase) :
    List cs_insn → Offset → Option String
  | [], offset => p.printCFIDirectives offset
  | inst :: rest, offset =>
    match p.printInstruction inst offset with
    | none => none
    | some t =>
      (p.printInstructions rest
        ⟨offset.ElementId, wrap64 (offset.Displacement + inst.size)⟩).map fun r =>
          t ++ "\n" ++ r

/-- Routine `PrettyPrinterBase::printBlock`. -/
def PrettyPrinterBase.printBlock (p : PrettyPrinterBase) (x : Block) : Option String :=
  if p.skipEA x.address then some ""
  else
    (p.printInstructions (p.backend.cs_disasm x.bytes x.address) ⟨x.uuid, 0⟩).map fun r =>
      p.backend.printFunctionHeader x.address ++ "\n" ++ r

/-! ## Data objects -/

/-- Routine `PrettyPrinterBase::printAddend` (`first` defaults to `false`). -/
def printAddend (number : Int) (first : Bool) : String :=
  if number < 0 ∨ first = true then decInt number
  else if number = 0 then ""
  else "+" ++ decInt number

/-- Routine `PrettyPrinterBase::printSymbolicExpression`, both overloads. -/
def PrettyPrinterBase.printSymbolicExpression (p : PrettyPrinterBase)
    (sexpr : SymbolicExpression) (inData : Bool) : Option String :=
  match sexpr with
  | SymbolicExpression.SymAddrConst Offset Sym =>
    (p.printSymbolReference Sym inData).map fun r => r ++ printAddend Offset false
  | SymbolicExpression.SymAddrAddr Sym1 Sym2 =>
    match p.printSymbolReference Sym1 inData with
    | none => none
    | some r1 => (p.printSymbolReference Sym2 inData).map fun r2 => r1 ++ "-" ++ r2

/-- Routine `PrettyPrinterBase::printDataObjectType`. The `default` label of the switch
holds `assert("...")`, whose argument is a non-null string literal: it never fails, and
nothing is written. -/
def PrettyPrinterBase.printDataObjectType (p : PrettyPrinterBase) (dataObject : DataObject) :
    String :=
  match (p.module.encodings.bind fun types => types.lookup dataObject.uuid) with
  | some foundType => "." ++ foundType
  | none =>
    if dataObject.size = 1 then ".byte"
    else if dataObject.size = 2 then ".word"
    else if dataObject.size = 4 then ".long"
    else if dataObject.size = 8 then ".quad"
    else ""

/-- Routine `PrettyPrinterBase::printSymbolicData`. -/
def PrettyPrinterBase.printSymbolicData (p : PrettyPrinterBase)
    (symbolic : SymbolicExpression) (dataObject : DataObject) : Option String :=
  (p.printSymbolicExpression symbolic true).map fun r =>
    p.printDataObjectType dataObject ++ " " ++ r

/-- Call `boost::replace_all_copy(s, pat, rep)` for a search string `pat` of one
character: every occurrence of the character is replaced by `rep`. -/
def replace_all_copy (s : String) (pat : Char) (rep : String) : String :=
  String.join (s.data.map fun c => if c = pat then rep else String.singleton c)

/-- The lambda `cleanByte` of `printString`: the byte as a one-character string, passed
through the nine replacements in source order. -/
def cleanByte (b : Nat) : String :=
  let cleaned := String.singleton (Char.ofNat (b % 256))
  let cleaned := replace_all_copy cleaned (Char.ofNat 92) "\\\\"
  let cleaned := replace_all_copy cleaned (Char.ofNat 34) "\\\""
  let cleaned := replace_all_copy cleaned (Char.ofNat 10) "\\n"
  let cleaned := replace_all_copy cleaned (Char.ofNat 9) "\\t"
  let cleaned := replace_all_copy cleaned (Char.ofNat 11) "\\v"
  let cleaned := replace_all_copy cleaned (Char.ofNat 8) "\\b"
  let cleaned := replace_all_copy cleaned (Char.ofNat 13) "\\r"
  let cleaned := replace_all_copy cleaned (Char.ofNat 7) "\\a"
  let cleaned := replace_all_copy cleaned (Char.ofNat 39) (String.mk [Char.ofNat 92, Char.ofNat 39])
  cleaned

/-- The byte loop of `printString`: zero bytes are passed over. -/
def printStringBytes : List Nat → String
  | [] => ""
  | b :: bs => (if b % 256 ≠ 0 then cleanByte b else "") ++ printStringBytes bs

/-- Routine `PrettyPrinterBase::printString`. -/
def printString (x : DataObject) : String :=
  ".string \"" ++ printStringBytes x.bytes ++ "\""

/-- Routine `PrettyPrinterBase::shouldExcludeDataElement`; no result when the target
symbol has no address (`*s->Sym->getAddress()` on an empty optional). -/
def PrettyPrinterBase.shouldExcludeDataElement (p : PrettyPrinterBase) (sect : Section)
    (dataObject : DataObject) : Option Bool :=
  if sect.name ∉ p.backend.skip_data then some false
  else
    match p.module.findSymbolicExpression dataObject.address with
    | some (SymbolicExpression.SymAddrConst _ Sym) => Sym.address.map fun a => p.skipEA a
    | _ => some false

/-- Routine `PrettyPrinterBase::printZeroDataObject`. -/
def printZeroDataObject (dataObject : DataObject) : String :=
  " .zero " ++ dec dataObject.size ++ "\n"

/-- Routine `PrettyPrinterBase::printNonZeroDataObject`. -/
def PrettyPrinterBase.printNonZeroDataObject (p : PrettyPrinterBase)
    (dataObject : DataObject) : Option String :=
  match p.module.findSymbolicExpression dataObject.address with
  | some foundSymbolic =>
    (p.printSymbolicData foundSymbolic dataObject).map fun r => r ++ "\n"
  | none =>
    if (p.module.encodings.bind fun types => types.lookup dataObject.uuid) = some "string"
    then some (printString dataObject ++ "\n")
    else some (String.join (dataObject.bytes.map p.backend.printByte))

/-- Routine `PrettyPrinterBase::printDataObject`; no result for a data object outside
all sections (`assert(section && ...)`). -/
def PrettyPrinterBase.printDataObject (p : PrettyPrinterBase) (dataObject : DataObject) :
    Option String :=
  let addr := dataObject.address
  if p.skipEA addr then some ""
  else
    let head := p.printComments ⟨dataObject.uuid, 0⟩ dataObject.size ++
      p.printSymbolDefinitionsAtAddress addr ++
      (if p.debug then hex addr ++ ":" else "")
    match p.getContainerSection addr with
    | none => none
    | some sect =>
      match p.shouldExcludeDataElement sect dataObject with
      | none => none
      | some true => some head
      | some false =>
        if dataObject.bytes.isEmpty then some (head ++ printZeroDataObject dataObject)
        else (p.printNonZeroDataObject dataObject).map fun r => head ++ r

/-! ## Layout traversal -/

/-- Routine `PrettyPrinterBase::printOverlapWarning`. -/
def PrettyPrinterBase.printOverlapWarning (p : PrettyPrinterBase) (addr : Addr) : String :=
  p.backend.syn.Comment ++ " WARNING: found overlapping element at address " ++
    hex addr ++ ": "

/-- A call issued by `print`, `printBlockOrWarning` or `printDataObjectOrWarning`,
with its arguments and the text it wrote. -/
inductive Call where
  | printHeader (text : String)
  | printOverlapWarning (addr : Addr) (text : String)
  | printSymbolDefinitionsAtAddress (ea : Addr) (text : String)
  | printSectionFooter (addr : Option Addr) (last : Addr) (text : String)
  | printSectionHeader (addr : Addr) (text : String)
  | printBlock (x : Block) (text : String)
  | printDataObject (x : DataObject) (text : String)
  | printFooter (text : String)
deriving DecidableEq, Repr

/-- Text written by a call. -/
def Call.text : Call → String
  | Call.printHeader t => t
  | Call.printOverlapWarning _ t => t
  | Call.printSymbolDefinitionsAtAddress _ t => t
  | Call.printSectionFooter _ _ t => t
  | Call.printSectionHeader _ t => t
  | Call.printBlock _ t => t
  | Call.printDataObject _ t => t
  | Call.printFooter t => t

/-- Routine `PrettyPrinterBase::printBlockOrWarning`: the calls it makes and the
address it returns. -/
def PrettyPrinterBase.printBlockOrWarning (p : PrettyPrinterBase) (block : Block)
    (last : Addr) : Option (List Call × Addr) :=
  let nextAddr := block.address
  if nextAddr < last then
    some ([Call.printOverlapWarning nextAddr (p.printOverlapWarning nextAddr)], last)
  else
    (p.printBlock block).map fun body =>
      ((if nextAddr > last then
          [Call.printSymbolDefinitionsAtAddress last (p.printSymbolDefinitionsAtAddress last)]
        else []) ++
       [Call.printSectionFooter (some nextAddr) last (p.printSectionFooter (some nextAddr) last),
        Call.printSectionHeader nextAddr (p.printSectionHeader nextAddr),
        Call.printBlock block body],
       wrap64 (block.address + block.size))

/-- Routine `PrettyPrinterBase::printDataObjectOrWarning`: the calls it makes and the
address it returns. -/
def PrettyPrinterBase.printDataObjectOrWarning (p : PrettyPrinterBase)
    (dataObject : DataObject) (last : Addr) : Option (List Call × Addr) :=
  let nextAddr := dataObject.address
  if nextAddr < last then
    some ([Call.printOverlapWarning nextAddr (p.printOverlapWarning nextAddr)], last)
  else
    (p.printDataObject dataObject).map fun body =>
      ((if nextAddr > last then
          [Call.printSymbolDefinitionsAtAddress last (p.printSymbolDefinitionsAtAddress last)]
        else []) ++
       [Call.printSectionFooter (some nextAddr) last (p.printSectionFooter (some nextAddr) last),
        Call.printSectionHeader nextAddr (p.printSectionHeader nextAddr),
        Call.printDataObject dataObject body],
       wrap64 (dataObject.address + dataObject.size))

/-- An element of the merged stream. -/
inductive Element where
  | block (b : Block)
  | dataObject (d : DataObject)
deriving DecidableEq, Repr

def Element.address : Element → Addr
  | Element.block b => b.address
  | Element.dataObject d => d.address

def Element.size : Element → Nat
  | Element.block b => b.size
  | Element.dataObject d => d.size

/-- One iteration of a loop of `print`: the element passed to `printBlockOrWarning` or
`printDataObjectOrWarning`, and the calls made for it. -/
structure Visit where
  element : Element
  calls : List Call
deriving DecidableEq, Repr

/-- Loop `for (; blockIt != blocks.end(); blockIt++)` of `print`. -/
def PrettyPrinterBase.printBlocks (p : PrettyPrinterBase) :
    List Block → Addr → Option (List Visit × Addr)
  | [], last => some ([], last)
  | b :: bs, last =>
    match p.printBlockOrWarning b last with
    | none => none
    | some (calls, last1) =>
      (p.printBlocks bs last1).map fun r => (⟨Element.block b, calls⟩ :: r.1, r.2)

/-- Loop `for (; dataIt != module.data_end(); dataIt++)` of `print`. -/
def PrettyPrinterBase.printDataObjects (p : PrettyPrinterBase) :
    List DataObject → Addr → Option (List Visit × Addr)
  | [], last => some ([], last)
  | d :: ds, last =>
    match p.printDataObjectOrWarning d last with
    | none => none
    | some (calls, last1) =>
      (p.printDataObjects ds last1).map fun r => (⟨Element.dataObject d, calls⟩ :: r.1, r.2)

/-- The three loops of `print` over the sorted block vector and the data objects:
the `while` loop that merges the two sequences, then the two `for` loops over what is
left. Returns the visits in order and the final value of `last`. -/
def PrettyPrinterBase.traverse (p : PrettyPrinterBase) (blocks : List Block)
    (data : List DataObject) (last : Addr) : Option (List Visit × Addr) :=
  match blocks, data with
  | b :: bs, d :: ds =>
    if b.address ≤ d.address then
      match p.printBlockOrWarning b last with
      | none => none
      | some (calls, last1) =>
        (p.traverse bs (d :: ds) last1).map fun r => (⟨Element.block b, calls⟩ :: r.1, r.2)
    else
      match p.printDataObjectOrWarning d last with
      | none => none
      | some (calls, last1) =>
        (p.traverse (b :: bs) ds last1).map fun r =>
          (⟨Element.dataObject d, calls⟩ :: r.1, r.2)
  | bs, ds =>
    match p.printBlocks bs last with
    | none => none
    | some (v1, last1) =>
      (p.printDataObjects ds last1).map fun r => (v1 ++ r.1, r.2)
termination_by blocks.length + data.length

/-- Comparator `address_order_block` of `print`. -/
def address_order_block (a b : Block) : Bool := decide (a.address < b.address)

/-- Postcondition of `std::sort` for two positions of its result: the later element
does not compare less than the earlier one. -/
def sortedBefore (a b : Block) : Prop := address_order_block b a = false

instance : DecidableRel sortedBefore := fun a b =>
  inferInstanceAs (Decidable (address_order_block b a = false))

instance : IsTotal Block sortedBefore :=
  ⟨fun a b => by
    simp only [sortedBefore, address_order_block, decide_eq_false_iff_not, Nat.not_lt]
    exact Nat.le_total a.address b.address⟩

instance : IsTrans Block sortedBefore :=
  ⟨fun a b c hab hbc => by
    simp only [sortedBefore, address_order_block, decide_eq_false_iff_not, Nat.not_lt] at *
    exact Nat.le_trans hab hbc⟩

/-- Call `std::sort(blocks.begin(), blocks.end(), address_order_block)`. Blocks of equal
address keep their relative order here; the standard leaves it open. -/
def sortBlocks (blocks : List Block) : List Block := blocks.insertionSort sortedBefore

/-- The loops of `PrettyPrinterBase::print` as it runs them: over the blocks of the
module sorted by address (`std::sort` with `address_order_block`), over the data objects
in module order, and with `last` starting at 0. -/
def PrettyPrinterBase.printPass (p : PrettyPrinterBase) : Option (List Visit × Addr) :=
  p.traverse (sortBlocks p.module.blocks) p.module.data 0

/-- Routine `PrettyPrinterBase::print`: every call it makes, in order. -/
def PrettyPrinterBase.printCalls (p : PrettyPrinterBase) : Option (List Call) :=
  p.printPass.map fun r =>
    [Call.printHeader p.backend.printHeader] ++
    r.1.flatMap Visit.calls ++
    [Call.printSymbolDefinitionsAtAddress r.2 (p.printSymbolDefinitionsAtAddress r.2),
     Call.printSectionFooter none r.2 (p.printSectionFooter none r.2),
     Call.printFooter p.backend.printFooter]

/-- Routine `PrettyPrinterBase::print`: the text written to the stream. -/
def PrettyPrinterBase.print (p : PrettyPrinterBase) : Option String :=
  p.printCalls.map fun calls => String.join (calls.map Call.text)

/-! ## The legacy query class -/

/-- Routine `DisasmData::isAmbiguousSymbol`. -/
def DisasmData.isAmbiguousSymbol (d : DisasmData) (name : String) : Bool :=
  decide ((d.module.findSymbolsNamed name).length > 1)

/-- Routine `DisasmData::getFunctionName`. -/
def DisasmData.getFunctionName (d : DisasmData) (x : Addr) : String :=
  let entry_point := binary_search d.functionEntry x
  if entry_point then
    match d.module.findSymbolsAt x with
    | s :: _ => if d.isAmbiguousSymbol s.name then s.name ++ "_" ++ hex x else s.name
    | [] => "unknown_function_" ++ hex x
  else ""

/-- Routine `DisasmData::getForwardedSymbolEnding`. -/
def DisasmData.getForwardedSymbolEnding (d : DisasmData) (symbol : Symbol)
    (isAbsolute : Bool) : String :=
  match symbol.address with
  | some addr =>
    match d.module.findSection addr with
    | [] => ""
    | s :: _ =>
      let section_name := s.name
      if !isAbsolute && (section_name == ".plt" || section_name == ".plt.got") then "@PLT"
      else if section_name == ".got" || section_name == ".got.plt" then "@GOTPCREL"
      else ""
  | none => ""

/-- Routine `DisasmData::getForwardedSymbolName`; the outer `Option` is `none` when the
destination UUID is not a symbol of the context, as for the printer. -/
def DisasmData.getForwardedSymbolName (d : DisasmData) (symbol : Symbol)
    (isAbsolute : Bool) : Option (Option String) :=
  match d.module.symbolForwarding with
  | some symbolForwarding =>
    match symbolForwarding.lookup symbol.uuid with
    | some found =>
      match getByUUID d.context found with
      | some (Node.symbol destSymbol) =>
        some (some (destSymbol.name ++ d.getForwardedSymbolEnding symbol isAbsolute))
      | _ => none
    | none => some none
  | none => some none

/-- Routine `DisasmData::AvoidRegNameConflicts`. -/
def DisasmData.AvoidRegNameConflicts (x : String) : String :=
  let adapt := ["FS", "MOD", "DIV", "NOT", "mod", "div", "not", "and", "or"]
  if x ∈ adapt then x ++ "_renamed" else x

/-! ## The registry of printer factories -/

/-- A target `(format, syntax)`, the key of the registry. -/
abbrev Target := String × String

/-- The map returned by `getFactories()`: its entries, each key once. A factory is a
value of type `F`, or nothing for an empty `std::function`. The order of the entries is
not modelled. -/
abbrev Factories (F : Type) := List (Target × Option F)

/-- Assignment `getFactories()[key] = f` on the `std::map`: the value of an existing
key is replaced, a new key is added. -/
def Factories.assign {F : Type} : Factories F → Target → Option F → Factories F
  | [], key, f => [(key, f)]
  | (k, v) :: rest, key, f =>
    if k = key then (key, f) :: rest else (k, v) :: Factories.assign rest key f

/-- Routine `registerPrinter`, on the registry passed explicitly: the new registry and
the value returned. No result when one of the three assertions fails. -/
def registerPrinter {F : Type} (factories : Factories F) (formats syntaxes : List String)
    (f : Option F) : Option (Factories F × Bool) :=
  if f.isNone then none
  else if formats.length = 0 then none
  else if syntaxes.length = 0 then none
  else
    some (formats.foldl (fun m format =>
      syntaxes.foldl (fun m1 syn => Factories.assign m1 (format, syn) f) m) factories, true)

/-- Routine `getRegisteredTargets`: the set of the keys of the registry. -/
def getRegisteredTargets {F : Type} (factories : Factories F) : List Target :=
  (factories.map Prod.fst).dedup

/-! ## Vocabulary of the statements -/

/-- Reference escaping of one character, in the words of the specification: backslash,
double quote, newline, tab, vertical tab, backspace, carriage return, bell and single
quote become a backslash followed by their escape letter; every other character is
unchanged. -/
def escapeSpec (c : Char) : String :=
  if c = Char.ofNat 92 then String.mk [Char.ofNat 92, Char.ofNat 92]
  else if c = Char.ofNat 34 then String.mk [Char.ofNat 92, Char.ofNat 34]
  else if c = Char.ofNat 10 then String.mk [Char.ofNat 92, 'n']
  else if c = Char.ofNat 9 then String.mk [Char.ofNat 92, 't']
  else if c = Char.ofNat 11 then String.mk [Char.ofNat 92, 'v']
  else if c = Char.ofNat 8 then String.mk [Char.ofNat 92, 'b']
  else if c = Char.ofNat 13 then String.mk [Char.ofNat 92, 'r']
  else if c = Char.ofNat 7 then String.mk [Char.ofNat 92, 'a']
  else if c = Char.ofNat 39 then String.mk [Char.ofNat 92, Char.ofNat 39]
  else String.singleton c

/-- Reference text of a string data object, in the words of the specification: the
directive and an opening quote, the escape of every non-zero byte in order, and a closing
quote. -/
def printStringSpec (bytes : List Nat) : String :=
  ".string \"" ++
    String.join ((bytes.filter fun b => decide (b % 256 ≠ 0)).map fun b =>
      escapeSpec (Char.ofNat (b % 256))) ++ "\""

/-- Reference definition of the function name of an address, in the words of the
specification: nothing when the address is not a function entry; otherwise the name of
the (first) symbol at the address, with `_<hex addr>` appended iff two or more symbols
share that name; otherwise `unknown_function_<hex addr>`. -/
def functionNameSpec (functionEntry : List Addr) (m : Module) (addr : Addr) : String :=
  if addr ∈ functionEntry then
    match m.symbols.find? (fun s => decide (s.address = some addr)) with
    | some s =>
      if 2 ≤ m.symbols.countP (fun t => decide (t.name = s.name)) then
        s.name ++ "_" ++ hex addr
      else s.name
    | none => "unknown_function_" ++ hex addr
  else ""

/-- The footer of section `sec` is due at `printSectionFooter(next, last)`: `sec` is
the open section (it contains the last printed byte, `last - 1` in 64-bit arithmetic),
it is neither a skip-section nor one of the canonical text/data/bss sections, and either
no next element remains or the next element is not in `sec`. -/
def PrettyPrinterBase.FooterDue (p : PrettyPrinterBase) (next : Option Addr) (last : Addr)
    (sec : Section) : Prop :=
  p.getContainerSection (wrap64 (last + (2 ^ 64 - 1))) = some sec ∧
  sec.name ∉ p.backend.skip_sects ∧
  sec.name ≠ p.backend.syn.SectionText ∧
  sec.name ≠ p.backend.syn.SectionData ∧
  sec.name ≠ p.backend.syn.SectionBSS ∧
  (next = none ∨ ∃ a, next = some a ∧ p.getContainerSection a ≠ some sec)

/-- The address of a call of printSectionHeader that wrote a header (some text). -/
def Call.headerAddr : Call → Option Addr
  | Call.printSectionHeader addr text => if text = "" then none else some addr
  | _ => none

/-- The body-printing call for an element. -/
def Element.bodyCall : Element → String → Call
  | Element.block b, body => Call.printBlock b body
  | Element.dataObject d, body => Call.printDataObject d body

/-- The element whose body a call prints, for the two body-printing calls. -/
def Call.handed : Call → Option Element
  | Call.printBlock x _ => some (Element.block x)
  | Call.printDataObject x _ => some (Element.dataObject x)
  | _ => none

/-- Is the call an overlap warning? -/
def Call.isWarning : Call → Bool
  | Call.printOverlapWarning _ _ => true
  | _ => false

/-- Every call of a sequence of visits, in order. -/
def allCalls (visits : List Visit) : List Call := visits.flatMap Visit.calls

/-- The elements whose body was handed to `printBlock` / `printDataObject`, in order. -/
def handedElements (visits : List Visit) : List Element :=
  (allCalls visits).filterMap Call.handed

/-- Every block, then every data object, of the module. -/
def Module.elements (m : Module) : List Element :=
  m.blocks.map Element.block ++ m.data.map Element.dataObject

/-- The blocks of a sequence of elements, in order. -/
def blocksOf (es : List Element) : List Block :=
  es.filterMap fun e => match e with
    | Element.block b => some b
    | Element.dataObject _ => none

/-- The data objects of a sequence of elements, in order. -/
def dataObjectsOf (es : List Element) : List DataObject :=
  es.filterMap fun e => match e with
    | Element.block _ => none
    | Element.dataObject d => some d

/-- Two elements occupy disjoint address ranges `[address, address + size)`. -/
def RangesDisjoint (a b : Element) : Prop :=
  a.address + a.size ≤ b.address ∨ b.address + b.size ≤ a.address

instance (a b : Element) : Decidable (RangesDisjoint a b) :=
  inferInstanceAs (Decidable (_ ∨ _))

/-- The body of an element prints without aborting the process. -/
def PrettyPrinterBase.bodyPrints (p : PrettyPrinterBase) : Element → Prop
  | Element.block b => (p.printBlock b).isSome = true
  | Element.dataObject d => (p.printDataObject d).isSome = true

instance (p : PrettyPrinterBase) (e : Element) : Decidable (p.bodyPrints e) := by
  cases e <;> unfold PrettyPrinterBase.bodyPrints <;> infer_instance

/-- What `print` does with one element of the merged stream. -/
def PrettyPrinterBase.visitElement (p : PrettyPrinterBase) (e : Element) (last : Addr) :
    Option (List Call × Addr) :=
  match e with
  | Element.block b => p.printBlockOrWarning b last
  | Element.dataObject d => p.printDataObjectOrWarning d last

/-- The visits of a sequence of elements taken in the given order. -/
def PrettyPrinterBase.visitAll (p : PrettyPrinterBase) :
    List Element → Addr → Option (List Visit × Addr)
  | [], last => some ([], last)
  | e :: es, last =>
    match p.visitElement e last with
    | none => none
    | some (calls, last1) =>
      (p.visitAll es last1).map fun r => (⟨e, calls⟩ :: r.1, r.2)

/-- The order in which the loops of `print` take the elements of two sequences. -/
def mergeOrder (blocks : List Block) (data : List DataObject) : List Element :=
  List.merge (blocks.map Element.block) (data.map Element.dataObject)
    (fun a b => decide (a.address ≤ b.address))

/-- The address lies in a skipped location: the section that contains it is named in the
skip-section set, or the function that contains it (per `getContainerFunctionName`) is
named in the skip-function set. -/
def PrettyPrinterBase.InSkippedLocation (p : PrettyPrinterBase) (x : Addr) : Prop :=
  (∃ s, p.getContainerSection x = some s ∧ s.name ∈ p.backend.skip_sects) ∨
  (∃ f, p.getContainerFunctionName x = some f ∧ f ∈ p.backend.skip_funcs)

/-- The label that `printSymbolDefinitionsAtAddress ea` writes for one symbol at `ea`,
without the trailing colon and line break. -/
def PrettyPrinterBase.definitionLabel (p : PrettyPrinterBase) (ea : Addr)
    (symbol : Symbol) : String :=
  if p.isAmbiguousSymbol symbol.name then GetSymbolToPrint ea
  else AvoidRegNameConflicts symbol.name

/-- The texts of a sequence of operands separated by single commas. -/
def commaJoin : List String → String
  | [] => ""
  | [x] => x
  | x :: y :: rest => x ++ "," ++ commaJoin (y :: rest)

/-- The test of `printOperandList` for an instruction with implicit operands: the
identifier is one of `MOVSB`, `MOVSW`, `MOVSD`, `MOVSQ` and the first group of the
decoded instruction is not `X86_GRP_SSE2`. -/
def cs_insn.ImplicitOperands (inst : cs_insn) : Prop :=
  (inst.id = x86_insn.X86_INS_MOVSB ∨ inst.id = x86_insn.X86_INS_MOVSW ∨
    inst.id = x86_insn.X86_INS_MOVSD ∨ inst.id = x86_insn.X86_INS_MOVSQ) ∧
  inst.groups.head? ≠ some x86_insn_group.X86_GRP_SSE2

instance (inst : cs_insn) : Decidable inst.ImplicitOperands := by
  unfold cs_insn.ImplicitOperands; infer_instance

/-- The decoded instructions lie back to back from the address `start`: each one starts
where the one before it ends. -/
def ContiguousFrom : List cs_insn → Nat → Prop
  | [], _ => True
  | inst :: rest, start => inst.address = start ∧ ContiguousFrom rest (start + inst.size)

instance ContiguousFrom.decidable :
    (insns : List cs_insn) → (start : Nat) → Decidable (ContiguousFrom insns start)
  | [], _ => isTrue trivial
  | inst :: rest, start =>
    have := ContiguousFrom.decidable rest (start + inst.size)
    inferInstanceAs (Decidable (inst.address = start ∧ ContiguousFrom rest (start + inst.size)))

/-- The value of the cursor `last` that a call received, for the call that takes it. -/
def Call.cursor : Call → Option Addr
  | Call.printSectionFooter _ last _ => some last
  | _ => none

/-- The reserved words of `PrettyPrinterBase::AvoidRegNameConflicts`: its vector
`adapt`. -/
def reservedWords : List String :=
  ["FS", "MOD", "DIV", "NOT", "mod", "div", "not", "and", "or", "shr", "Si"]

/-- The character that the second character of a two-character escape stands for. -/
def unescapeLetter (l : Char) : Char :=
  if l = 'n' then Char.ofNat 10
  else if l = 't' then Char.ofNat 9
  else if l = 'v' then Char.ofNat 11
  else if l = 'b' then Char.ofNat 8
  else if l = 'r' then Char.ofNat 13
  else if l = 'a' then Char.ofNat 7
  else l

/-- Scan of an escaped text from the left: a backslash takes the character after it
with it; the scan fails on a backslash at the very end and on a double quote that no
backslash has taken. -/
def noUnescapedQuote : List Char → Bool
  | [] => true
  | [c] => decide (c ≠ Char.ofNat 92) && decide (c ≠ Char.ofNat 34)
  | c :: d :: rest =>
    if c = Char.ofNat 92 then noUnescapedQuote rest
    else decide (c ≠ Char.ofNat 34) && noUnescapedQuote (d :: rest)

/-! ## Example inputs -/

/-- Keyword table of the example backend (ELF, Intel flavour). -/
def exampleSyntax : Syntax :=
  { Comment := "#", Tab := "          ", SectionText := ".text", SectionData := ".data",
    SectionBSS := ".bss", DirectiveText := ".text", DirectiveData := ".data",
    DirectiveBSS := ".bss", DirectiveAlign := ".align", DirectiveNOP := "nop" }

/-- An example backend: it skips the usual linker sections, decodes no instruction and
prints each raw byte as a `.byte` line. -/
def exampleBackend : Backend :=
  { syn := exampleSyntax
    skip_sects := [".comment", ".plt", ".init", ".fini", ".got", ".plt.got", ".got.plt"]
    skip_funcs := ["_start", "deregister_tm_clones"]
    skip_data := [".init_array", ".fini_array"]
    cs_disasm := fun _ _ => []
    printHeader := ".intel_syntax noprefix\n"
    printFooter := ""
    printFunctionHeader := fun _ => ""
    printSectionHeaderDirective := fun s => ".section " ++ s.name
    printSectionProperties := fun _ => ""
    printSectionFooterDirective := fun s => "# end section " ++ s.name
    printOpRegdirect := fun _ _ => "REG"
    printOpImmediate := fun _ _ _ => "IMM"
    printOpIndirect := fun _ _ _ => "MEM"
    printByte := fun b => ".byte 0x" ++ hex b ++ "\n" }

/-- A module without content, to be filled in by the examples. -/
def emptyModule : Module :=
  { symbols := [], sections := [], blocks := [], data := [], symbolicExprs := [],
    functionEntries := none, functionEntry := none, symbolForwarding := none,
    encodings := none,
    comments := none, cfiDirectives := none }

/-- A printer for a module, with debug messages off and no function entry. -/
def examplePrinter (m : Module) : PrettyPrinterBase :=
  { debug := false, context := [], module := m, functionEntry := [],
    backend := exampleBackend }

def textSection : Section := { uuid := 100, name := ".text", address := 0x10, size := 0x20 }
def dataSection : Section := { uuid := 101, name := ".data", address := 0x30, size := 0x20 }
def pltSection : Section := { uuid := 102, name := ".plt", address := 0x60, size := 0x10 }

/-- A module with one block at 0x10 (4 bytes) and one data object at 0x30 (8 bytes,
no backing content). -/
def disjointModule : Module :=
  { emptyModule with
    sections := [textSection, dataSection]
    blocks := [{ uuid := 1, address := 0x10, size := 4, bytes := [0x90, 0x90, 0x90, 0x90] }]
    data := [{ uuid := 2, address := 0x30, size := 8, bytes := [] }] }

/-- A module whose block at 0x10 (16 bytes) is followed, in address order, by a data
object of size zero at the same address: the two address ranges are disjoint. -/
def emptyRangeModule : Module :=
  { emptyModule with
    sections := [textSection]
    blocks := [{ uuid := 1, address := 0x10, size := 0x10, bytes := [] }]
    data := [{ uuid := 2, address := 0x10, size := 0, bytes := [] }] }

/-- A module with two symbols named `puts`: the PLT stub at 0x60, which is forwarded to
the external symbol (no address), and a third, unrelated symbol. -/
def forwardedModule : Module :=
  { emptyModule with
    sections := [textSection, dataSection, pltSection]
    symbols := [{ uuid := 1, name := "puts", address := some 0x60 },
                { uuid := 2, name := "puts", address := none },
                { uuid := 3, name := "main", address := some 0x10 }]
    symbolForwarding := some [(1, 2)] }

/-- The printer of `forwardedModule`; its context holds the symbols. -/
def forwardedPrinter : PrettyPrinterBase :=
  { examplePrinter forwardedModule with
    context := forwardedModule.symbols.map Node.symbol }

/-- A module with two symbols named `foo`, at 0x10 and 0x30, and a symbol `_init`
defined twice inside the skipped section `.plt`. -/
def ambiguousModule : Module :=
  { emptyModule with
    sections := [textSection, dataSection, pltSection]
    symbols := [{ uuid := 1, name := "foo", address := some 0x10 },
                { uuid := 2, name := "foo", address := some 0x30 },
                { uuid := 3, name := "_init", address := some 0x60 },
                { uuid := 4, name := "_init", address := some 0x68 }] }

/-- A printer of `ambiguousModule` with function entries at 0x10, 0x20 and 0x30. -/
def entryPrinter : PrettyPrinterBase :=
  { examplePrinter ambiguousModule with functionEntry := [0x10, 0x20, 0x30] }

/-- The legacy query object for `ambiguousModule`, with the same function entries. -/
def entryDisasmData : DisasmData :=
  DisasmData.new [] { ambiguousModule with functionEntry := some [0x30, 0x10, 0x20] }

/-- A module whose symbol `puts_ref` (at 0x10, in `.text`) is forwarded to the symbol
`puts` that lies in the section `.plt` (at 0x60). -/
def forwardedToPltModule : Module :=
  { emptyModule with
    sections := [textSection, dataSection, pltSection]
    symbols := [{ uuid := 1, name := "puts_ref", address := some 0x10 },
                { uuid := 2, name := "puts", address := some 0x60 }]
    symbolForwarding := some [(1, 2)] }

/-- The printer of `forwardedToPltModule`; its context holds the symbols. -/
def forwardedToPltPrinter : PrettyPrinterBase :=
  { examplePrinter forwardedToPltModule with
    context := forwardedToPltModule.symbols.map Node.symbol }

/-- A module with four data objects in `.data`: a pointer to `foo` that is also tagged
as a string, a tagged string, two raw bytes, and twelve bytes without backing content
that carry both a symbolic expression and a string tag. -/
def dataModule : Module :=
  { emptyModule with
    sections := [textSection, dataSection]
    symbols := [{ uuid := 1, name := "foo", address := some 0x10 }]
    data := [{ uuid := 10, address := 0x30, size := 8, bytes := [0x10, 0, 0, 0, 0, 0, 0, 0] },
             { uuid := 11, address := 0x38, size := 3, bytes := [0x41, 0x00, 0x42] },
             { uuid := 12, address := 0x3b, size := 2, bytes := [1, 2] },
             { uuid := 13, address := 0x40, size := 12, bytes := [] }]
    symbolicExprs :=
      [(0x30, SymbolicExpression.SymAddrConst 0 { uuid := 1, name := "foo", address := some 0x10 }),
       (0x40, SymbolicExpression.SymAddrConst 0 { uuid := 1, name := "foo", address := some 0x10 })]
    encodings := some [(10, "string"), (11, "string"), (13, "string")] }

/-- A module with two forwardings out of `.plt`: `stub` is forwarded to `mod`, which
is itself forwarded to `target`; `stub2` is forwarded to the symbol `not`, whose name is
a reserved word. -/
def forwardChainModule : Module :=
  { emptyModule with
    sections := [textSection, dataSection, pltSection]
    symbols := [{ uuid := 1, name := "stub", address := some 0x60 },
                { uuid := 2, name := "mod", address := some 0x10 },
                { uuid := 3, name := "target", address := none },
                { uuid := 4, name := "stub2", address := some 0x68 },
                { uuid := 5, name := "not", address := none }]
    symbolForwarding := some [(1, 2), (2, 3), (4, 5)] }

/-- The printer of `forwardChainModule`; its context holds the symbols. -/
def forwardChainPrinter : PrettyPrinterBase :=
  { examplePrinter forwardChainModule with
    context := forwardChainModule.symbols.map Node.symbol }

/-- The legacy query object for `forwardChainModule`, with the same context. -/
def forwardChainDisasmData : DisasmData :=
  DisasmData.new (forwardChainModule.symbols.map Node.symbol) forwardChainModule

/-- A module with blocks at 0x10 and 0x20 whose `functionEntries` table names the block
at 0x10 as entry of two functions, and whose `functionEntry` vector lists 0x10 twice. -/
def sharedEntryModule : Module :=
  { emptyModule with
    sections := [textSection]
    blocks := [{ uuid := 1, address := 0x10, size := 0x10, bytes := [] },
               { uuid := 2, address := 0x20, size := 0x10, bytes := [] }]
    functionEntries := some [(100, [2]), (101, [1]), (102, [1])]
    functionEntry := some [0x20, 0x10, 0x10] }

/-- The context of `sharedEntryModule`: its blocks. -/
def sharedEntryContext : Context := sharedEntryModule.blocks.map Node.block

/-- A module whose data object at 0x30 has three bytes, no type tag, and a symbolic
expression (the address of `foo`) anchored at its address. -/
def oddSizeModule : Module :=
  { emptyModule with
    sections := [textSection, dataSection]
    symbols := [{ uuid := 1, name := "foo", address := some 0x10 }]
    data := [{ uuid := 20, address := 0x30, size := 3, bytes := [1, 2, 3] }]
    symbolicExprs :=
      [(0x30, SymbolicExpression.SymAddrConst 0
          { uuid := 1, name := "foo", address := some 0x10 })] }

def rodataSection : Section :=
  { uuid := 103, name := ".rodata", address := 0x50, size := 0x10 }

/-- A module with the sections `.text`, `.data`, `.rodata` and `.plt`, in address
order. -/
def sectionsModule : Module :=
  { emptyModule with sections := [textSection, dataSection, rodataSection, pltSection] }

def initArraySection : Section :=
  { uuid := 104, name := ".init_array", address := 0x70, size := 0x10 }

/-- A module with a block inside the skipped section `.plt` and two pointers in
`.init_array`: the one at 0x70 points to `_init` inside `.plt`, the one at 0x78 to the
external symbol `external_hook`, which has no address. -/
def initArrayModule : Module :=
  { emptyModule with
    sections := [textSection, pltSection, initArraySection]
    symbols := [{ uuid := 1, name := "frame_dummy", address := some 0x10 },
                { uuid := 2, name := "_init", address := some 0x60 },
                { uuid := 3, name := "external_hook", address := none },
                { uuid := 4, name := "init_table", address := some 0x70 }]
    blocks := [{ uuid := 10, address := 0x60, size := 4, bytes := [0x90, 0x90, 0x90, 0x90] }]
    data := [{ uuid := 20, address := 0x70, size := 8, bytes := [0x60, 0, 0, 0, 0, 0, 0, 0] },
             { uuid := 21, address := 0x78, size := 8, bytes := [0, 0, 0, 0, 0, 0, 0, 0] }]
    symbolicExprs :=
      [(0x70, SymbolicExpression.SymAddrConst 0
          { uuid := 2, name := "_init", address := some 0x60 }),
       (0x78, SymbolicExpression.SymAddrConst 0
          { uuid := 3, name := "external_hook", address := none })] }

/-- A decoded `nop` of the given size. -/
def nopInsn (address size : Nat) : cs_insn :=
  { id := x86_insn.X86_INS_NOP, address := address, size := size, mnemonic := "nop",
    op_count := 0, operands := [], imm_offset := 0, disp_offset := 0, groups := [] }

/-- A backend like `exampleBackend` whose decoder reads the bytes 0x90 as one-byte
`nop`s and stops at the first other byte, and whose operand printers show the register
number and whether they were handed a symbolic expression. -/
def operandBackend : Backend :=
  { exampleBackend with
    cs_disasm := fun bytes address =>
      (List.range (bytes.takeWhile fun b => b == 0x90).length).map fun i =>
        nopInsn (wrap64 (address + i)) 1
    printOpRegdirect := fun _ op => "r" ++ dec op.payload
    printOpImmediate := fun s _ _ => if s.isSome then "IMM:symbolic" else "IMM:plain"
    printOpIndirect := fun s _ _ => if s.isSome then "MEM:symbolic" else "MEM:plain" }

/-- A module with one block of four bytes at 0x10, symbolic expressions anchored at 0x10
and 0x13, comments on the block and on another element, and call-frame directives at
the start and at the end of the block. -/
def operandModule : Module :=
  { emptyModule with
    sections := [textSection, dataSection]
    symbols := [{ uuid := 5, name := "foo", address := some 0x30 }]
    blocks := [{ uuid := 1, address := 0x10, size := 4, bytes := [0x90, 0x90, 0x90, 0x90] }]
    symbolicExprs :=
      [(0x10, SymbolicExpression.SymAddrConst 0
          { uuid := 5, name := "foo", address := some 0x30 }),
       (0x13, SymbolicExpression.SymAddrConst 4
          { uuid := 5, name := "foo", address := some 0x30 })]
    comments := some [(⟨0, 7⟩, "other element"), (⟨1, 0⟩, "entry"), (⟨1, 2⟩, "middle"),
                      (⟨1, 4⟩, "past the end"), (⟨2, 1⟩, "next element")]
    cfiDirectives := some [(⟨1, 0⟩, [⟨".cfi_startproc", [], 0⟩]),
                           (⟨1, 4⟩, [⟨".cfi_endproc", [], 0⟩])] }

/-- The printer of `operandModule` over `operandBackend`, debug messages off. -/
def operandPrinter : PrettyPrinterBase :=
  { examplePrinter operandModule with backend := operandBackend }

/-- The printer of `operandModule` over `operandBackend`, debug messages on. -/
def debugPrinter : PrettyPrinterBase :=
  { examplePrinter operandModule with backend := operandBackend, debug := true }

/-- The instruction `mov r35, [r37]` at 0x10: its memory operand has no displacement
field. -/
def movMemInsn : cs_insn :=
  { id := x86_insn.other 449, address := 0x10, size := 3, mnemonic := "MOV",
    op_count := 2, operands := [⟨x86_op_type.X86_OP_REG, 35⟩, ⟨x86_op_type.X86_OP_MEM, 0⟩],
    imm_offset := 0, disp_offset := 0, groups := [] }

/-- The instruction `mov r35, [rip + disp]` at 0x10 with its displacement field at
offset 3. -/
def movDispInsn : cs_insn :=
  { id := x86_insn.other 449, address := 0x10, size := 7, mnemonic := "MOV",
    op_count := 2, operands := [⟨x86_op_type.X86_OP_REG, 35⟩, ⟨x86_op_type.X86_OP_MEM, 0⟩],
    imm_offset := 0, disp_offset := 3, groups := [] }

/-- The instruction `mov r35, imm` at 0x10 with its immediate field at offset 3. -/
def movImmInsn : cs_insn :=
  { id := x86_insn.other 449, address := 0x10, size := 7, mnemonic := "MOV",
    op_count := 2, operands := [⟨x86_op_type.X86_OP_REG, 35⟩, ⟨x86_op_type.X86_OP_IMM, 0⟩],
    imm_offset := 3, disp_offset := 0, groups := [] }

/-- The string instruction `movsb` at 0x10, decoded with two memory operands. -/
def movsbInsn : cs_insn :=
  { id := x86_insn.X86_INS_MOVSB, address := 0x10, size := 1, mnemonic := "MOVSB",
    op_count := 2, operands := [⟨x86_op_type.X86_OP_MEM, 0⟩, ⟨x86_op_type.X86_OP_MEM, 1⟩],
    imm_offset := 0, disp_offset := 0, groups := [x86_insn_group.other 145] }

/-- The SSE2 instruction `movsd xmm1, xmm2` at 0x10. -/
def movsdSse2Insn : cs_insn :=
  { id := x86_insn.X86_INS_MOVSD, address := 0x10, size := 4, mnemonic := "MOVSD",
    op_count := 2, operands := [⟨x86_op_type.X86_OP_REG, 123⟩, ⟨x86_op_type.X86_OP_REG, 124⟩],
    imm_offset := 0, disp_offset := 0, groups := [x86_insn_group.X86_GRP_SSE2] }

/-- The instruction `ret` at 0x10: no operand. -/
def retInsn : cs_insn :=
  { id := x86_insn.other 149, address := 0x10, size := 1, mnemonic := "RET",
    op_count := 0, operands := [], imm_offset := 0, disp_offset := 0,
    groups := [x86_insn_group.other 3] }

/-- A module whose section `.text` starts with a data object of size zero at 0x10, alone
at its address, followed by a block of four bytes at 0x14. -/
def isolatedEmptyModule : Module :=
  { emptyModule with
    sections := [textSection]
    blocks := [{ uuid := 1, address := 0x14, size := 4, bytes := [0x90, 0x90, 0x90, 0x90] }]
    data := [{ uuid := 2, address := 0x10, size := 0, bytes := [] }] }

/-- A module with two untagged pointers in `.data`: sixteen bytes at 0x30 and eight
bytes at 0x40, each with a symbolic expression anchored at its address. -/
def wideObjectModule : Module :=
  { emptyModule with
    sections := [textSection, dataSection]
    symbols := [{ uuid := 1, name := "foo", address := some 0x10 }]
    data := [{ uuid := 21, address := 0x30, size := 16,
               bytes := [0x18, 0, 0, 0, 0, 0, 0, 0, 0, 0, 0, 0, 0, 0, 0, 0] },
             { uuid := 22, address := 0x40, size := 8, bytes := [0x10, 0, 0, 0, 0, 0, 0, 0] }]
    symbolicExprs :=
      [(0x30, SymbolicExpression.SymAddrConst 8
          { uuid := 1, name := "foo", address := some 0x10 }),
       (0x40, SymbolicExpression.SymAddrConst 0
          { uuid := 1, name := "foo", address := some 0x10 })] }

/-- The printer of `operandModule` in debug mode with a single comment, keyed at the last
displacement of element 1. -/
def topCommentPrinter : PrettyPrinterBase :=
  { examplePrinter
      { operandModule with comments := some [(⟨1, 18446744073709551615⟩, "top")] } with
    backend := operandBackend, debug := true }

/-- A module whose section `.text` starts at 0x10 with a data object that reaches the
end of the 64-bit address space, followed by a data object of four bytes at 0x10. -/
def topOfSpaceModule : Module :=
  { emptyModule with
    sections := [textSection]
    data := [{ uuid := 1, address := 0x10, size := 2 ^ 64 - 0x10, bytes := [] },
             { uuid := 2, address := 0x10, size := 4, bytes := [] }] }

theorem printBlocks_eq_visitAll (p : PrettyPrinterBase) (bs : List Block) (last : Addr) :
    p.printBlocks bs last = p.visitAll (bs.map Element.block) last := by
  induction bs generalizing last with
  | nil => rfl
  | cons b bs ih =>
    simp only [PrettyPrinterBase.printBlocks, List.map_cons, PrettyPrinterBase.visitAll,
      PrettyPrinterBase.visitElement]
    cases p.printBlockOrWarning b last with
    | none => rfl
    | some r => obtain ⟨calls, last1⟩ := r; simp only [ih]

theorem printDataObjects_eq_visitAll (p : PrettyPrinterBase) (ds : List DataObject)
    (last : Addr) :
    p.printDataObjects ds last = p.visitAll (ds.map Element.dataObject) last := by
  induction ds generalizing last with
  | nil => rfl
  | cons d ds ih =>
    simp only [PrettyPrinterBase.printDataObjects, List.map_cons, PrettyPrinterBase.visitAll,
      PrettyPrinterBase.visitElement]
    cases p.printDataObjectOrWarning d last with
    | none => rfl
    | some r => obtain ⟨calls, last1⟩ := r; simp only [ih]

theorem traverse_nil_left (p : PrettyPrinterBase) (ds : List DataObject) (last : Addr) :
    p.traverse [] ds last = p.visitAll (ds.map Element.dataObject) last := by
  rw [PrettyPrinterBase.traverse]
  · simp only [PrettyPrinterBase.printBlocks, printDataObjects_eq_visitAll]
    cases p.visitAll (ds.map Element.dataObject) last with
    | none => rfl
    | some r => simp
  · intro b bs1 d ds1 h _; cases h

theorem traverse_nil_right (p : PrettyPrinterBase) (bs : List Block) (last : Addr) :
    p.traverse bs [] last = p.visitAll (bs.map Element.block) last := by
  rw [PrettyPrinterBase.traverse]
  · simp only [printBlocks_eq_visitAll, PrettyPrinterBase.printDataObjects]
    cases p.visitAll (bs.map Element.block) last with
    | none => rfl
    | some r => simp
  · intro b bs1 d ds1 _ h; cases h

theorem traverse_eq_visitAll (p : PrettyPrinterBase) (bs : List Block)
    (ds : List DataObject) (last : Addr) :
    p.traverse bs ds last = p.visitAll (mergeOrder bs ds) last := by
  induction bs generalizing ds last with
  | nil => simp [traverse_nil_left, mergeOrder]
  | cons b bs ihb =>
    induction ds generalizing last with
    | nil => simp [traverse_nil_right, mergeOrder]
    | cons d ds ihd =>
      rw [PrettyPrinterBase.traverse]
      by_cases h : b.address ≤ d.address
      · have hm : mergeOrder (b :: bs) (d :: ds) = Element.block b :: mergeOrder bs (d :: ds) := by
          simp [mergeOrder, List.cons_merge_cons, Element.address, h]
        simp only [h, if_true, hm, PrettyPrinterBase.visitAll, PrettyPrinterBase.visitElement]
        cases p.printBlockOrWarning b last with
        | none => rfl
        | some r => obtain ⟨calls, last1⟩ := r; simp only [ihb]
      · have hm : mergeOrder (b :: bs) (d :: ds) =
            Element.dataObject d :: mergeOrder (b :: bs) ds := by
          simp [mergeOrder, List.cons_merge_cons, Element.address, h]
        simp only [h, if_false, hm, PrettyPrinterBase.visitAll, PrettyPrinterBase.visitElement]
        cases p.printDataObjectOrWarning d last with
        | none => rfl
        | some r => obtain ⟨calls, last1⟩ := r; simp only [ihd]

theorem wrap64_le (n : Nat) : wrap64 n ≤ n := Nat.mod_le _ _

theorem visitElement_overlap (p : PrettyPrinterBase) (e : Element) (last : Addr)
    (h : e.address < last) :
    p.visitElement e last =
      some ([Call.printOverlapWarning e.address (p.printOverlapWarning e.address)], last) := by
  cases e with
  | block b =>
    simp only [Element.address] at h
    simp [PrettyPrinterBase.visitElement, PrettyPrinterBase.printBlockOrWarning, h,
      Element.address]
  | dataObject d =>
    simp only [Element.address] at h
    simp [PrettyPrinterBase.visitElement, PrettyPrinterBase.printDataObjectOrWarning, h,
      Element.address]

theorem visitElement_body (p : PrettyPrinterBase) (e : Element) (last : Addr)
    (h : ¬ e.address < last) (hok : p.bodyPrints e) :
    ∃ calls, p.visitElement e last = some (calls, wrap64 (e.address + e.size)) ∧
      calls.filterMap Call.handed = [e] ∧ ∀ c ∈ calls, c.isWarning = false := by
  cases e with
  | block b =>
    simp only [Element.address] at h
    simp only [PrettyPrinterBase.bodyPrints, Option.isSome_iff_exists] at hok
    obtain ⟨body, hbody⟩ := hok
    refine ⟨(if b.address > last then
          [Call.printSymbolDefinitionsAtAddress last (p.printSymbolDefinitionsAtAddress last)]
        else []) ++
       [Call.printSectionFooter (some b.address) last
          (p.printSectionFooter (some b.address) last),
        Call.printSectionHeader b.address (p.printSectionHeader b.address),
        Call.printBlock b body], ?_, ?_, ?_⟩
    · simp only [PrettyPrinterBase.visitElement, PrettyPrinterBase.printBlockOrWarning, h,
        if_false, hbody, Option.map_some', Element.address, Element.size]
    · by_cases h2 : b.address > last <;> simp [h2, Call.handed]
    · intro c hc
      by_cases h2 : b.address > last <;> simp [h2] at hc <;>
        rcases hc with rfl | rfl | rfl | rfl <;> rfl
  | dataObject d =>
    simp only [Element.address] at h
    simp only [PrettyPrinterBase.bodyPrints, Option.isSome_iff_exists] at hok
    obtain ⟨body, hbody⟩ := hok
    refine ⟨(if d.address > last then
          [Call.printSymbolDefinitionsAtAddress last (p.printSymbolDefinitionsAtAddress last)]
        else []) ++
       [Call.printSectionFooter (some d.address) last
          (p.printSectionFooter (some d.address) last),
        Call.printSectionHeader d.address (p.printSectionHeader d.address),
        Call.printDataObject d body], ?_, ?_, ?_⟩
    · simp only [PrettyPrinterBase.visitElement, PrettyPrinterBase.printDataObjectOrWarning,
        h, if_false, hbody, Option.map_some', Element.address, Element.size]
    · by_cases h2 : d.address > last <;> simp [h2, Call.handed]
    · intro c hc
      by_cases h2 : d.address > last <;> simp [h2] at hc <;>
        rcases hc with rfl | rfl | rfl | rfl <;> rfl

theorem visitElement_isSome (p : PrettyPrinterBase) (e : Element) (last : Addr)
    (hok : p.bodyPrints e) : ∃ calls last1, p.visitElement e last = some (calls, last1) := by
  by_cases h : e.address < last
  · exact ⟨_, _, visitElement_overlap p e last h⟩
  · obtain ⟨calls, hc, _⟩ := visitElement_body p e last h hok
    exact ⟨_, _, hc⟩

theorem handedElements_cons (e : Element) (calls : List Call) (vs : List Visit) :
    handedElements (⟨e, calls⟩ :: vs) = calls.filterMap Call.handed ++ handedElements vs := by
  simp [handedElements, allCalls, List.filterMap_append]

theorem allCalls_cons (e : Element) (calls : List Call) (vs : List Visit) :
    allCalls (⟨e, calls⟩ :: vs) = calls ++ allCalls vs := by
  simp [allCalls]

/-- A walk over elements each of which ends at or before the start of every later one,
begun with the cursor at or before all of them: every body is printed, in order, no
warning is written, and the cursor ends at the end of the last element. -/
theorem visitAll_chain (p : PrettyPrinterBase) (es : List Element) (last : Addr)
    (hchain : es.Pairwise (fun a b => a.address + a.size ≤ b.address))
    (hlast : ∀ e ∈ es, last ≤ e.address) (hok : ∀ e ∈ es, p.bodyPrints e) :
    ∃ vs, p.visitAll es last =
        some (vs, (es.getLast?.map fun e => wrap64 (e.address + e.size)).getD last) ∧
      handedElements vs = es ∧ ∀ c ∈ allCalls vs, c.isWarning = false := by
  induction es generalizing last with
  | nil => exact ⟨[], rfl, rfl, by simp [allCalls]⟩
  | cons e es ih =>
    have hnot : ¬ e.address < last := Nat.not_lt.mpr (hlast e (List.mem_cons_self _ _))
    obtain ⟨calls, hcalls, hhanded, hwarn⟩ :=
      visitElement_body p e last hnot (hok e (List.mem_cons_self _ _))
    have hch := List.pairwise_cons.mp hchain
    obtain ⟨vs, hvs, hh, hw⟩ := ih (wrap64 (e.address + e.size)) hch.2
      (fun x hx => le_trans (wrap64_le _) (hch.1 x hx))
      (fun x hx => hok x (List.mem_cons_of_mem _ hx))
    refine ⟨⟨e, calls⟩ :: vs, ?_, ?_, ?_⟩
    · simp only [PrettyPrinterBase.visitAll, hcalls, hvs, Option.map_some',
        List.getLast?_cons]
      cases es.getLast? <;> simp
    · rw [handedElements_cons, hhanded, hh]; rfl
    · intro c hc
      rw [allCalls_cons, List.mem_append] at hc
      rcases hc with hc | hc
      · exact hwarn c hc
      · exact hw c hc

/-! ## Auxiliary lemmas: the merged stream -/

theorem mergeOrder_perm (bs : List Block) (ds : List DataObject) :
    (mergeOrder bs ds).Perm (bs.map Element.block ++ ds.map Element.dataObject) :=
  List.merge_perm_append _

theorem mergeOrder_sorted (bs : List Block) (ds : List DataObject)
    (hb : bs.Pairwise (fun a b => a.address ≤ b.address))
    (hd : ds.Pairwise (fun a b => a.address ≤ b.address)) :
    (mergeOrder bs ds).Pairwise (fun a b => a.address ≤ b.address) := by
  have h := @List.sorted_merge Element (fun a b => decide (a.address ≤ b.address))
    (by intro a b c hab hbc; simp only [decide_eq_true_eq] at *; exact le_trans hab hbc)
    (by intro a b; simp only [Bool.or_eq_true, decide_eq_true_eq]; exact Nat.le_total _ _)
    (bs.map Element.block) (ds.map Element.dataObject)
    (by simpa [List.pairwise_map, Element.address] using hb)
    (by simpa [List.pairwise_map, Element.address] using hd)
  simpa [mergeOrder] using h

theorem sorted_blocks (bs : List Block) :
    (sortBlocks bs).Pairwise (fun a b => a.address ≤ b.address) := by
  have h : (sortBlocks bs).Pairwise sortedBefore := List.sorted_insertionSort sortedBefore bs
  refine h.imp ?_
  intro a b hab
  simpa [sortedBefore, address_order_block] using hab

/-! ## Auxiliary lemmas: evaluation of the searches on `functionEntry` -/

theorem upper_bound_len_zero (v : List Addr) (x : Addr) (first : Nat) :
    upper_bound v x first 0 = first := by
  rw [upper_bound]; simp

theorem lower_bound_len_zero (v : List Addr) (x : Addr) (first : Nat) :
    lower_bound v x first 0 = first := by
  rw [lower_bound]; simp

theorem getContainerFunctionName_of_nil (p : PrettyPrinterBase) (x : Addr)
    (h : p.functionEntry = []) : p.getContainerFunctionName x = none := by
  simp [PrettyPrinterBase.getContainerFunctionName, h, upper_bound_len_zero]

theorem skipEA_of_nil (p : PrettyPrinterBase) (x : Addr) (h : p.functionEntry = []) :
    p.skipEA x = (!p.debug && p.isInSkippedSection x) := by
  simp [PrettyPrinterBase.skipEA, PrettyPrinterBase.isInSkippedFunction,
    getContainerFunctionName_of_nil p x h]

theorem examplePrinter_skipEA (m : Module) (x : Addr) :
    (examplePrinter m).skipEA x = (examplePrinter m).isInSkippedSection x := by
  rw [skipEA_of_nil _ _ rfl]; rfl

theorem examplePrinter_printBlock (m : Module) (b : Block) :
    (examplePrinter m).printBlock b =
      if (examplePrinter m).isInSkippedSection b.address then some ""
      else ((examplePrinter m).printInstructions [] ⟨b.uuid, 0⟩).map fun r => "\n" ++ r := by
  simp only [PrettyPrinterBase.printBlock, examplePrinter_skipEA]; rfl

theorem examplePrinter_printDataObject_zero (m : Module) (d : DataObject) (s : Section)
    (hs : (examplePrinter m).isInSkippedSection d.address = false)
    (hsec : (examplePrinter m).getContainerSection d.address = some s)
    (hdata : s.name ∉ exampleBackend.skip_data) (hbytes : d.bytes = []) :
    (examplePrinter m).printDataObject d =
      some ((examplePrinter m).printSymbolDefinitionsAtAddress d.address ++
        printZeroDataObject d) := by
  have hex : (examplePrinter m).shouldExcludeDataElement s d = some false := by
    simp only [PrettyPrinterBase.shouldExcludeDataElement]
    rw [if_pos]; exact hdata
  simp only [PrettyPrinterBase.printDataObject, examplePrinter_skipEA, hs, hsec, hex, hbytes]
  simp [PrettyPrinterBase.printComments, examplePrinter]

theorem disjointModule_bodyPrints :
    ∀ e ∈ disjointModule.elements, (examplePrinter disjointModule).bodyPrints e := by
  intro e he
  have he' : e = Element.block ⟨1, 0x10, 4, [0x90, 0x90, 0x90, 0x90]⟩ ∨
      e = Element.dataObject ⟨2, 0x30, 8, []⟩ := by
    simpa [Module.elements, examplePrinter, disjointModule, emptyModule] using he
  rcases he' with rfl | rfl
  · show ((examplePrinter disjointModule).printBlock _).isSome = true
    rw [examplePrinter_printBlock]; decide
  · show ((examplePrinter disjointModule).printDataObject _).isSome = true
    rw [examplePrinter_printDataObject_zero disjointModule _ dataSection
      (by decide) (by decide) (by decide) rfl]
    rfl

/-! ## C1: traversal of disjoint elements -/

theorem isolatedEmptyModule_bodyPrints :
    ∀ e ∈ isolatedEmptyModule.elements,
      (examplePrinter isolatedEmptyModule).bodyPrints e := by
  intro e he
  have he' : e = Element.block ⟨1, 0x14, 4, [0x90, 0x90, 0x90, 0x90]⟩ ∨
      e = Element.dataObject ⟨2, 0x10, 0, []⟩ := by
    simpa [Module.elements, examplePrinter, isolatedEmptyModule, emptyModule] using he
  rcases he' with rfl | rfl
  · show ((examplePrinter isolatedEmptyModule).printBlock _).isSome = true
    rw [examplePrinter_printBlock]; decide
  · show ((examplePrinter isolatedEmptyModule).printDataObject _).isSome = true
    rw [examplePrinter_printDataObject_zero isolatedEmptyModule _ textSection
      (by decide) (by decide) (by decide) rfl]
    rfl

/-- Claim C1, as amended. For every module whose data objects come in address order,
whose blocks and data objects have pairwise disjoint address ranges and pairwise
distinct start addresses, and whose element bodies print without aborting,
`PrettyPrinterBase::print` completes its pass; it hands every element to printBlock /
printDataObject, in strictly increasing address order; it writes no overlap warning; and
the cursor `last` after the pass is address + size (in 64-bit arithmetic) of the last
element. Elements of size zero are allowed as long as they are alone at their address. -/
theorem print_disjoint_in_address_order (p : PrettyPrinterBase)
    (hdata : p.module.data.Pairwise (fun a b => a.address ≤ b.address))
    (hstart : p.module.elements.Pairwise (fun a b => a.address ≠ b.address))
    (hdisj : p.module.elements.Pairwise RangesDisjoint)
    (hok : ∀ e ∈ p.module.elements, p.bodyPrints e) :
    ∃ visits last, p.printPass = some (visits, last) ∧
      (handedElements visits).Perm p.module.elements ∧
      (handedElements visits).Pairwise (fun a b => a.address < b.address) ∧
      (∀ c ∈ allCalls visits, c.isWarning = false) ∧
      last = ((handedElements visits).getLast?.map
        fun e => wrap64 (e.address + e.size)).getD 0 := by
  have hperm : (mergeOrder (sortBlocks p.module.blocks)
      p.module.data).Perm p.module.elements := by
    refine (mergeOrder_perm _ _).trans ?_
    exact List.Perm.append_right _ ((List.perm_insertionSort _ _).map _)
  have hsorted := mergeOrder_sorted _ _ (sorted_blocks p.module.blocks) hdata
  have hdisj' : (mergeOrder (sortBlocks p.module.blocks)
      p.module.data).Pairwise RangesDisjoint :=
    (hperm.pairwise_iff (fun h => Or.symm h)).mpr hdisj
  have hstart' : (mergeOrder (sortBlocks p.module.blocks)
      p.module.data).Pairwise (fun a b => a.address ≠ b.address) :=
    (hperm.pairwise_iff (fun h => Ne.symm h)).mpr hstart
  have hlt : (mergeOrder (sortBlocks p.module.blocks)
      p.module.data).Pairwise (fun a b => a.address < b.address) := by
    refine List.Pairwise.imp ?_ (hsorted.and hstart')
    intro a b hab
    exact Nat.lt_of_le_of_ne hab.1 hab.2
  have hchain : (mergeOrder (sortBlocks p.module.blocks)
      p.module.data).Pairwise (fun a b => a.address + a.size ≤ b.address) := by
    refine List.Pairwise.imp ?_ (hlt.and hdisj')
    intro a b hab
    have h1 : a.address < b.address := hab.1
    have h2 : a.address + a.size ≤ b.address ∨ b.address + b.size ≤ a.address := hab.2
    simp only [Addr] at *
    omega
  obtain ⟨vs, hvs, hhanded, hwarn⟩ := visitAll_chain p _ 0 hchain
    (fun _ _ => Nat.zero_le _) (fun e he => hok e (hperm.subset he))
  refine ⟨vs, ((mergeOrder (sortBlocks p.module.blocks)
      p.module.data).getLast?.map fun e => wrap64 (e.address + e.size)).getD 0,
    ?_, ?_, ?_, hwarn, ?_⟩
  · rw [PrettyPrinterBase.printPass, traverse_eq_visitAll]; exact hvs
  · rw [hhanded]; exact hperm
  · rw [hhanded]; exact hlt
  · rw [hhanded]

theorem print_disjoint_in_address_order_witness :
    (∃ visits last, (examplePrinter disjointModule).printPass = some (visits, last) ∧
      (handedElements visits).Perm disjointModule.elements ∧
      (handedElements visits).Pairwise (fun a b => a.address < b.address) ∧
      (∀ c ∈ allCalls visits, c.isWarning = false) ∧
      last = ((handedElements visits).getLast?.map
        fun e => wrap64 (e.address + e.size)).getD 0) ∧
    (∃ visits last, (examplePrinter isolatedEmptyModule).printPass = some (visits, last) ∧
      (handedElements visits).Perm isolatedEmptyModule.elements ∧
      (handedElements visits).Pairwise (fun a b => a.address < b.address) ∧
      (∀ c ∈ allCalls visits, c.isWarning = false) ∧
      last = ((handedElements visits).getLast?.map
        fun e => wrap64 (e.address + e.size)).getD 0) :=
  ⟨print_disjoint_in_address_order (examplePrinter disjointModule)
      (by decide) (by decide) (by decide) disjointModule_bodyPrints,
   print_disjoint_in_address_order (examplePrinter isolatedEmptyModule)
      (by decide) (by decide) (by decide) isolatedEmptyModule_bodyPrints⟩

/-- Claim C1 fails as stated. In `emptyRangeModule` the block at 0x10 (16 bytes) and
the data object of size zero at 0x10 have disjoint address ranges, the data objects are
in address order and both bodies print; yet the pass writes an overlap warning for the
data object and never hands it to printDataObject. -/
theorem print_disjoint_counterexample :
    emptyRangeModule.data.Pairwise (fun a b => a.address ≤ b.address) ∧
    emptyRangeModule.elements.Pairwise RangesDisjoint ∧
    (examplePrinter emptyRangeModule).bodyPrints
      (Element.block ⟨1, 0x10, 0x10, []⟩) ∧
    (examplePrinter emptyRangeModule).bodyPrints
      (Element.dataObject ⟨2, 0x10, 0, []⟩) ∧
    (examplePrinter emptyRangeModule).printPass =
      some ([⟨Element.block ⟨1, 0x10, 0x10, []⟩,
              [Call.printSymbolDefinitionsAtAddress 0 "",
               Call.printSectionFooter (some 0x10) 0 "",
               Call.printSectionHeader 0x10
                 ("\n#===================================\n.text\n.align 16\n" ++
                  "#===================================\n\n"),
               Call.printBlock ⟨1, 0x10, 0x10, []⟩ "\n"]⟩,
             ⟨Element.dataObject ⟨2, 0x10, 0, []⟩,
              [Call.printOverlapWarning 0x10
                 "# WARNING: found overlapping element at address 10: "]⟩],
            0x20) := by
  have hA : (examplePrinter emptyRangeModule).printBlock ⟨1, 0x10, 0x10, []⟩ =
      some "\n" := by
    rw [examplePrinter_printBlock]; decide
  have hB : (examplePrinter emptyRangeModule).printDataObject ⟨2, 0x10, 0, []⟩ =
      some " .zero 0\n" := by
    rw [examplePrinter_printDataObject_zero emptyRangeModule _ textSection
      (by decide) (by decide) (by decide) rfl]
    decide
  refine ⟨by decide, by decide, ?_, ?_, ?_⟩
  · show ((examplePrinter emptyRangeModule).printBlock _).isSome = true
    rw [hA]; rfl
  · show ((examplePrinter emptyRangeModule).printDataObject _).isSome = true
    rw [hB]; rfl
  · have hm : mergeOrder [(⟨1, 0x10, 0x10, []⟩ : Block)] [(⟨2, 0x10, 0, []⟩ : DataObject)] =
        [Element.block ⟨1, 0x10, 0x10, []⟩, Element.dataObject ⟨2, 0x10, 0, []⟩] := by
      simp [mergeOrder, List.merge, Element.address]
    have hs : sortBlocks (examplePrinter emptyRangeModule).module.blocks =
        [(⟨1, 0x10, 0x10, []⟩ : Block)] := by decide
    rw [PrettyPrinterBase.printPass, traverse_eq_visitAll, hs]
    show (examplePrinter emptyRangeModule).visitAll (mergeOrder _ [_]) 0 = _
    rw [hm]
    simp only [PrettyPrinterBase.visitAll, PrettyPrinterBase.visitElement,
      PrettyPrinterBase.printBlockOrWarning, PrettyPrinterBase.printDataObjectOrWarning, hA]
    decide

/-! ## C2: overlap recovery -/

theorem mergeOrder_pair (A B : Element) (h : A.address < B.address) :
    mergeOrder (blocksOf [A, B]) (dataObjectsOf [A, B]) = [A, B] := by
  cases A <;> cases B <;>
    simp only [Element.address] at h <;>
    simp [mergeOrder, blocksOf, dataObjectsOf, List.merge, Element.address, Nat.not_le.mpr h,
      Nat.le_of_lt h]

/-- Claim C2. For every block and every data object whose address is strictly below
the cursor `last`, printBlockOrWarning / printDataObjectOrWarning makes exactly one
call, the overlap warning naming that address in hexadecimal (no section footer or
header, no labels, no body), and returns the cursor unchanged. With A (address 0x10,
size 0x10) followed by B (address 0x18, size 4), whatever their kinds, the body of A is
printed, B yields only the warning, and the cursor stays 0x20. -/
theorem overlap_yields_only_warning (p : PrettyPrinterBase) :
    (∀ (block : Block) (last : Addr), block.address < last →
      p.printBlockOrWarning block last =
        some ([Call.printOverlapWarning block.address
                (p.backend.syn.Comment ++ " WARNING: found overlapping element at address " ++
                  hex block.address ++ ": ")], last)) ∧
    (∀ (dataObject : DataObject) (last : Addr), dataObject.address < last →
      p.printDataObjectOrWarning dataObject last =
        some ([Call.printOverlapWarning dataObject.address
                (p.backend.syn.Comment ++ " WARNING: found overlapping element at address " ++
                  hex dataObject.address ++ ": ")], last)) ∧
    (∀ (A B : Element), A.address = 0x10 → A.size = 0x10 → B.address = 0x18 → B.size = 4 →
      p.bodyPrints A →
      ∃ callsA, p.traverse (blocksOf [A, B]) (dataObjectsOf [A, B]) 0 =
          some ([⟨A, callsA⟩,
                 ⟨B, [Call.printOverlapWarning 0x18
                   (p.backend.syn.Comment ++
                     " WARNING: found overlapping element at address 18: ")]⟩], 0x20) ∧
        callsA.filterMap Call.handed = [A] ∧ ∀ c ∈ callsA, c.isWarning = false) := by
  refine ⟨?_, ?_, ?_⟩
  · intro block last h
    simp [PrettyPrinterBase.printBlockOrWarning, h, PrettyPrinterBase.printOverlapWarning]
  · intro dataObject last h
    simp [PrettyPrinterBase.printDataObjectOrWarning, h, PrettyPrinterBase.printOverlapWarning]
  · intro A B hA hAs hB hBs hok
    obtain ⟨callsA, hcalls, hhanded, hwarn⟩ :=
      visitElement_body p A 0 (Nat.not_lt_zero _) hok
    have hcur : wrap64 (A.address + A.size) = 0x20 := by rw [hA, hAs]; decide
    have hover := visitElement_overlap p B 0x20 (by rw [hB]; decide)
    have hhex : hex 0x18 = "18" := by decide
    refine ⟨callsA, ?_, hhanded, hwarn⟩
    rw [traverse_eq_visitAll, mergeOrder_pair A B (by rw [hA, hB]; decide)]
    have htext : p.backend.syn.Comment ++ " WARNING: found overlapping element at address " ++
        "18" ++ ": " =
        p.backend.syn.Comment ++ " WARNING: found overlapping element at address 18: " := by
      rw [String.append_assoc, String.append_assoc]; rfl
    simp only [PrettyPrinterBase.visitAll, hcalls, hcur, hover, Option.map_some', hB,
      PrettyPrinterBase.printOverlapWarning, hhex, htext]


theorem overlap_yields_only_warning_witness :
    (examplePrinter emptyRangeModule).printBlockOrWarning ⟨7, 0x18, 4, []⟩ 0x20 =
      some ([Call.printOverlapWarning 0x18
        "# WARNING: found overlapping element at address 18: "], 0x20) ∧
    (examplePrinter emptyRangeModule).printDataObjectOrWarning ⟨8, 0x18, 4, []⟩ 0x20 =
      some ([Call.printOverlapWarning 0x18
        "# WARNING: found overlapping element at address 18: "], 0x20) ∧
    ∃ callsA, (examplePrinter emptyRangeModule).traverse
        (blocksOf [Element.block ⟨1, 0x10, 0x10, []⟩, Element.dataObject ⟨8, 0x18, 4, []⟩])
        (dataObjectsOf [Element.block ⟨1, 0x10, 0x10, []⟩,
          Element.dataObject ⟨8, 0x18, 4, []⟩]) 0 =
          some ([⟨Element.block ⟨1, 0x10, 0x10, []⟩, callsA⟩,
                 ⟨Element.dataObject ⟨8, 0x18, 4, []⟩, [Call.printOverlapWarning 0x18
                   ((examplePrinter emptyRangeModule).backend.syn.Comment ++
                     " WARNING: found overlapping element at address 18: ")]⟩], 0x20) ∧
        callsA.filterMap Call.handed = [Element.block ⟨1, 0x10, 0x10, []⟩] ∧
        ∀ c ∈ callsA, c.isWarning = false :=
  ⟨(overlap_yields_only_warning (examplePrinter emptyRangeModule)).1
      ⟨7, 0x18, 4, []⟩ 0x20 (by decide),
   (overlap_yields_only_warning (examplePrinter emptyRangeModule)).2.1
      ⟨8, 0x18, 4, []⟩ 0x20 (by decide),
   (overlap_yields_only_warning (examplePrinter emptyRangeModule)).2.2
      (Element.block ⟨1, 0x10, 0x10, []⟩) (Element.dataObject ⟨8, 0x18, 4, []⟩)
      rfl rfl rfl rfl
      (by show ((examplePrinter emptyRangeModule).printBlock _).isSome = true
          rw [examplePrinter_printBlock]; decide)⟩

/-! ## C3: the traversal is a merge -/

theorem mergeOrder_nil_left (ds : List DataObject) :
    mergeOrder [] ds = ds.map Element.dataObject := by
  simp [mergeOrder]

theorem mergeOrder_nil_right (bs : List Block) :
    mergeOrder bs [] = bs.map Element.block := by
  simp [mergeOrder]

theorem mergeOrder_cons_le (b : Block) (bs : List Block) (d : DataObject)
    (ds : List DataObject) (h : b.address ≤ d.address) :
    mergeOrder (b :: bs) (d :: ds) = Element.block b :: mergeOrder bs (d :: ds) := by
  simp [mergeOrder, List.cons_merge_cons, Element.address, h]

theorem mergeOrder_cons_gt (b : Block) (bs : List Block) (d : DataObject)
    (ds : List DataObject) (h : ¬ b.address ≤ d.address) :
    mergeOrder (b :: bs) (d :: ds) = Element.dataObject d :: mergeOrder (b :: bs) ds := by
  simp [mergeOrder, List.cons_merge_cons, Element.address, h]

theorem blocksOf_map_block (bs : List Block) : blocksOf (bs.map Element.block) = bs := by
  induction bs with
  | nil => rfl
  | cons b bs ih => simpa [blocksOf] using ih

theorem blocksOf_map_dataObject (ds : List DataObject) :
    blocksOf (ds.map Element.dataObject) = [] := by
  induction ds with
  | nil => rfl
  | cons d ds ih => simp [blocksOf]

theorem dataObjectsOf_map_block (bs : List Block) :
    dataObjectsOf (bs.map Element.block) = [] := by
  induction bs with
  | nil => rfl
  | cons b bs ih => simp [dataObjectsOf]

theorem dataObjectsOf_map_dataObject (ds : List DataObject) :
    dataObjectsOf (ds.map Element.dataObject) = ds := by
  induction ds with
  | nil => rfl
  | cons d ds ih => simpa [dataObjectsOf] using ih

theorem blocksOf_mergeOrder (bs : List Block) (ds : List DataObject) :
    blocksOf (mergeOrder bs ds) = bs := by
  induction bs generalizing ds with
  | nil => rw [mergeOrder_nil_left, blocksOf_map_dataObject]
  | cons b bs ihb =>
    induction ds with
    | nil => rw [mergeOrder_nil_right, blocksOf_map_block]
    | cons d ds ihd =>
      by_cases h : b.address ≤ d.address
      · rw [mergeOrder_cons_le b bs d ds h]
        have := ihb (d :: ds)
        simpa [blocksOf] using this
      · rw [mergeOrder_cons_gt b bs d ds h]
        simpa [blocksOf] using ihd

theorem dataObjectsOf_mergeOrder (bs : List Block) (ds : List DataObject) :
    dataObjectsOf (mergeOrder bs ds) = ds := by
  induction bs generalizing ds with
  | nil => rw [mergeOrder_nil_left, dataObjectsOf_map_dataObject]
  | cons b bs ihb =>
    induction ds with
    | nil => rw [mergeOrder_nil_right, dataObjectsOf_map_block]
    | cons d ds ihd =>
      by_cases h : b.address ≤ d.address
      · rw [mergeOrder_cons_le b bs d ds h]
        have := ihb (d :: ds)
        simpa [dataObjectsOf] using this
      · rw [mergeOrder_cons_gt b bs d ds h]
        simpa [dataObjectsOf] using ihd

/-- In the merged stream of an address-sorted block list, a data object is never taken
before a block whose address is not greater than its own. -/
theorem mergeOrder_block_first (bs : List Block) (ds : List DataObject)
    (hb : bs.Pairwise (fun a b => a.address ≤ b.address)) :
    (mergeOrder bs ds).Pairwise (fun x y =>
      ∀ d b, x = Element.dataObject d → y = Element.block b → d.address < b.address) := by
  induction bs generalizing ds with
  | nil =>
    rw [mergeOrder_nil_left, List.pairwise_map]
    exact List.pairwise_of_forall (by intro x y d b _ h; cases h)
  | cons b bs ihb =>
    induction ds with
    | nil =>
      rw [mergeOrder_nil_right, List.pairwise_map]
      exact List.pairwise_of_forall (by intro x y d b h _; cases h)
    | cons d ds ihd =>
      by_cases h : b.address ≤ d.address
      · rw [mergeOrder_cons_le b bs d ds h]
        refine List.Pairwise.cons ?_ (ihb (d :: ds) hb.tail)
        intro y _ d1 b1 hx _; cases hx
      · rw [mergeOrder_cons_gt b bs d ds h]
        refine List.Pairwise.cons ?_ ihd
        intro y hy d1 b1 hx hyb
        cases hx
        subst hyb
        have hmem : Element.block b1 ∈ (b :: bs).map Element.block ∨
            Element.block b1 ∈ ds.map Element.dataObject := List.mem_merge.mp hy
        have hb1 : b1 ∈ b :: bs := by
          rcases hmem with hm | hm
          · simpa using hm
          · simp at hm
        have hle : b.address ≤ b1.address := by
          rcases List.mem_cons.mp hb1 with rfl | hin
          · exact Nat.le_refl _
          · exact List.rel_of_pairwise_cons hb hin
        simp only [Addr] at *
        omega

theorem visitAll_elements (p : PrettyPrinterBase) (es : List Element) (last : Addr)
    (vs : List Visit) (last1 : Addr) (h : p.visitAll es last = some (vs, last1)) :
    vs.map Visit.element = es := by
  induction es generalizing last vs with
  | nil =>
    simp only [PrettyPrinterBase.visitAll, Option.some.injEq, Prod.mk.injEq] at h
    rw [← h.1]; rfl
  | cons e es ih =>
    cases hv : p.visitElement e last with
    | none => simp [PrettyPrinterBase.visitAll, hv] at h
    | some r =>
      obtain ⟨calls, l1⟩ := r
      cases hr : p.visitAll es l1 with
      | none => simp [PrettyPrinterBase.visitAll, hv, hr] at h
      | some r2 =>
        obtain ⟨vs2, l2⟩ := r2
        simp only [PrettyPrinterBase.visitAll, hv, hr, Option.map_some', Option.some.injEq,
          Prod.mk.injEq] at h
        obtain ⟨h1, h2⟩ := h
        subst h2
        rw [← h1]
        simp [ih l1 vs2 hr]

theorem visitAll_isSome (p : PrettyPrinterBase) (es : List Element) (last : Addr)
    (hok : ∀ e ∈ es, p.bodyPrints e) :
    ∃ vs last1, p.visitAll es last = some (vs, last1) := by
  induction es generalizing last with
  | nil => exact ⟨[], last, rfl⟩
  | cons e es ih =>
    obtain ⟨calls, l1, hv⟩ := visitElement_isSome p e last (hok e (List.mem_cons_self _ _))
    obtain ⟨vs, l2, hr⟩ := ih l1 (fun x hx => hok x (List.mem_cons_of_mem _ hx))
    exact ⟨⟨e, calls⟩ :: vs, l2, by simp [PrettyPrinterBase.visitAll, hv, hr]⟩

/-- Claim C3. For an address-sorted block list and an address-sorted data-object list
(whose bodies print without aborting), the loops of `print` visit every block and every
data object exactly once, keep the order inside each list, visit addresses in
non-decreasing order, and visit a block before any data object of the same address. -/
theorem traverse_is_merge (p : PrettyPrinterBase) (blocks : List Block)
    (data : List DataObject) (last : Addr)
    (hb : blocks.Pairwise (fun a b => a.address ≤ b.address))
    (hd : data.Pairwise (fun a b => a.address ≤ b.address))
    (hok : ∀ e ∈ blocks.map Element.block ++ data.map Element.dataObject, p.bodyPrints e) :
    ∃ visits last1, p.traverse blocks data last = some (visits, last1) ∧
      (visits.map Visit.element).Perm
        (blocks.map Element.block ++ data.map Element.dataObject) ∧
      blocksOf (visits.map Visit.element) = blocks ∧
      dataObjectsOf (visits.map Visit.element) = data ∧
      (visits.map Visit.element).Pairwise (fun a b => a.address ≤ b.address) ∧
      (visits.map Visit.element).Pairwise (fun x y =>
        ∀ d b, x = Element.dataObject d → y = Element.block b → d.address ≠ b.address) := by
  obtain ⟨vs, last1, hvs⟩ := visitAll_isSome p (mergeOrder blocks data) last
    (fun e he => hok e ((mergeOrder_perm blocks data).subset he))
  have hel := visitAll_elements p _ last vs last1 hvs
  refine ⟨vs, last1, ?_, ?_, ?_, ?_, ?_, ?_⟩
  · rw [traverse_eq_visitAll]; exact hvs
  · rw [hel]; exact mergeOrder_perm blocks data
  · rw [hel]; exact blocksOf_mergeOrder blocks data
  · rw [hel]; exact dataObjectsOf_mergeOrder blocks data
  · rw [hel]; exact mergeOrder_sorted blocks data hb hd
  · rw [hel]
    refine (mergeOrder_block_first blocks data hb).imp ?_
    intro x y h d b hx hy
    exact Nat.ne_of_lt (h d b hx hy)

theorem traverse_is_merge_witness :
    ∃ visits last1, (examplePrinter disjointModule).traverse
        disjointModule.blocks disjointModule.data 0 = some (visits, last1) ∧
      (visits.map Visit.element).Perm
        (disjointModule.blocks.map Element.block ++
          disjointModule.data.map Element.dataObject) ∧
      blocksOf (visits.map Visit.element) = disjointModule.blocks ∧
      dataObjectsOf (visits.map Visit.element) = disjointModule.data ∧
      (visits.map Visit.element).Pairwise (fun a b => a.address ≤ b.address) ∧
      (visits.map Visit.element).Pairwise (fun x y =>
        ∀ d b, x = Element.dataObject d → y = Element.block b → d.address ≠ b.address) :=
  traverse_is_merge (examplePrinter disjointModule) disjointModule.blocks
    disjointModule.data 0 (by decide) (by decide) disjointModule_bodyPrints

/-! ## C4: references to ambiguous symbols -/

theorem getForwardedSymbolName_of_not_key (p : PrettyPrinterBase) (symbol : Symbol)
    (isAbsolute : Bool)
    (hfwd : ∀ fwd, p.module.symbolForwarding = some fwd → ∀ e ∈ fwd, e.1 ≠ symbol.uuid) :
    p.getForwardedSymbolName symbol isAbsolute = some none := by
  unfold PrettyPrinterBase.getForwardedSymbolName
  cases hf : p.module.symbolForwarding with
  | none => rfl
  | some fwd =>
    have hnone : fwd.lookup symbol.uuid = none := by
      rw [List.lookup_eq_none_iff]
      intro e he
      have := hfwd fwd hf e he
      simpa [bne_iff_ne] using fun h => this h.symm
    simp only [hnone]

theorem isAmbiguousSymbol_iff (p : PrettyPrinterBase) (name : String) :
    p.isAmbiguousSymbol name = true ↔ 2 ≤ p.module.symbols.countP (fun s => s.name = name) := by
  simp only [PrettyPrinterBase.isAmbiguousSymbol, Module.findSymbolsNamed,
    List.countP_eq_length_filter, decide_eq_true_eq]
  exact Iff.rfl

/-- Claim C4, as amended. For every symbol whose name is shared by two or more symbols
of the module, that is not a key of symbolForwarding, that carries an address and
whose address is not skipped (skipEA), printSymbolReference prints `.L_` followed by the
hexadecimal address of the symbol; the name is not consulted. -/
theorem ambiguous_reference_prints_local_label (p : PrettyPrinterBase) (symbol : Symbol)
    (isAbsolute : Bool) (a : Addr)
    (hamb : 2 ≤ p.module.symbols.countP (fun s => s.name = symbol.name))
    (hfwd : ∀ fwd, p.module.symbolForwarding = some fwd → ∀ e ∈ fwd, e.1 ≠ symbol.uuid)
    (haddr : symbol.address = some a) (hskip : p.skipEA a = false) :
    p.printSymbolReference symbol isAbsolute = some (".L_" ++ hex a) := by
  have h1 := getForwardedSymbolName_of_not_key p symbol isAbsolute hfwd
  have h2 := (isAmbiguousSymbol_iff p symbol.name).mpr hamb
  simp [PrettyPrinterBase.printSymbolReference, h1, haddr, hskip, h2, GetSymbolToPrint]

theorem ambiguous_reference_prints_local_label_witness :
    (examplePrinter ambiguousModule).printSymbolReference ⟨1, "foo", some 0x10⟩ false =
      some ".L_10" :=
  ambiguous_reference_prints_local_label (examplePrinter ambiguousModule)
    ⟨1, "foo", some 0x10⟩ false 0x10 (by decide)
    (by intro fwd h; cases h) rfl (by rw [examplePrinter_skipEA]; decide)

/-- Claim C4 fails as stated. The PLT stub `puts` of `forwardedModule` shares its name
with the external symbol it is forwarded to, and its reference prints the literal name
with an ending, `puts@PLT`; the symbol `_init` of `ambiguousModule` shares its name with
another symbol and lies in the skipped section `.plt`, and its reference prints the
decimal address `96`, not `.L_60`. -/
theorem ambiguous_reference_counterexample :
    (2 ≤ forwardedPrinter.module.symbols.countP (fun s => s.name = "puts") ∧
      forwardedPrinter.printSymbolReference ⟨1, "puts", some 0x60⟩ false = some "puts@PLT" ∧
      forwardedPrinter.printSymbolReference ⟨1, "puts", some 0x60⟩ false ≠
        some (".L_" ++ hex 0x60)) ∧
    (2 ≤ (examplePrinter ambiguousModule).module.symbols.countP
        (fun s => s.name = "_init") ∧
      (examplePrinter ambiguousModule).printSymbolReference ⟨3, "_init", some 0x60⟩ false =
        some "96" ∧
      (examplePrinter ambiguousModule).printSymbolReference ⟨3, "_init", some 0x60⟩ false ≠
        some (".L_" ++ hex 0x60)) := by
  decide

/-! ## C5: function names -/

theorem sorted_getD_le (v : List Addr) (hs : v.Pairwise (fun a b => a ≤ b)) (i j : Nat)
    (hij : i ≤ j) (hj : j < v.length) : v.getD i 0 ≤ v.getD j 0 := by
  have hi : i < v.length := Nat.lt_of_le_of_lt hij hj
  rw [List.getD_eq_getElem v 0 hi, List.getD_eq_getElem v 0 hj]
  rcases Nat.eq_or_lt_of_le hij with h | h
  · subst h; exact Nat.le_refl _
  · exact (List.pairwise_iff_getElem.mp hs) i j hi hj h

/-- Correctness of `std::lower_bound` on a sorted vector: the index returned separates
the elements less than `x` from the others. -/
theorem lower_bound_spec (v : List Addr) (x : Addr) (hs : v.Pairwise (fun a b => a ≤ b))
    (len : Nat) : ∀ first : Nat, first + len ≤ v.length →
      (∀ i, i < first → v.getD i 0 < x) →
      (∀ i, first + len ≤ i → i < v.length → x ≤ v.getD i 0) →
      lower_bound v x first len ≤ v.length ∧
      (∀ i, i < lower_bound v x first len → v.getD i 0 < x) ∧
      (∀ i, lower_bound v x first len ≤ i → i < v.length → x ≤ v.getD i 0) := by
  induction len using Nat.strong_induction_on with
  | _ len ih =>
    intro first hlen hlo hhi
    rw [lower_bound]
    by_cases hpos : 0 < len
    · simp only [hpos, if_true]
      have hmid : first + len / 2 < v.length := by omega
      by_cases hlt : v.getD (first + len / 2) 0 < x
      · simp only [hlt, if_true]
        refine ih (len - len / 2 - 1) (by omega) (first + len / 2 + 1) (by omega) ?_ ?_
        · intro i hi
          exact Nat.lt_of_le_of_lt
            (sorted_getD_le v hs i (first + len / 2) (by omega) hmid) hlt
        · intro i hi hiv
          exact hhi i (by omega) hiv
      · simp only [hlt, if_false]
        refine ih (len / 2) (by omega) first (by omega) hlo ?_
        intro i hi hiv
        exact Nat.le_trans (Nat.le_of_not_lt hlt)
          (sorted_getD_le v hs (first + len / 2) i hi hiv)
    · simp only [hpos, if_false]
      have h0 : len = 0 := by omega
      subst h0
      exact ⟨by omega, hlo, fun i hi hiv => hhi i (by omega) hiv⟩

/-- Correctness of `std::binary_search` on a sorted vector: membership. -/
theorem binary_search_iff (v : List Addr) (x : Addr) (hs : v.Pairwise (fun a b => a ≤ b)) :
    binary_search v x = true ↔ x ∈ v := by
  obtain ⟨hle, hlo, hhi⟩ := lower_bound_spec v x hs v.length 0 (by omega)
    (fun i hi => absurd hi (Nat.not_lt_zero i)) (fun i hi hiv => by omega)
  simp only [binary_search, Bool.and_eq_true, decide_eq_true_eq, Bool.not_eq_true',
    decide_eq_false_iff_not]
  constructor
  · rintro ⟨hne, hnlt⟩
    have hr : lower_bound v x 0 v.length < v.length := Nat.lt_of_le_of_ne hle hne
    have h1 := hhi _ (Nat.le_refl _) hr
    have heq : v.getD (lower_bound v x 0 v.length) 0 = x :=
      Nat.le_antisymm (Nat.le_of_not_lt hnlt) h1
    rw [List.getD_eq_getElem v 0 hr] at heq
    rw [← heq]
    exact List.getElem_mem _
  · intro hx
    obtain ⟨i, hi, hxi⟩ := List.getElem_of_mem hx
    have hge : lower_bound v x 0 v.length ≤ i := by
      by_contra hcon
      have := hlo i (Nat.lt_of_not_le hcon)
      rw [List.getD_eq_getElem v 0 hi, hxi] at this
      exact Nat.lt_irrefl _ this
    refine ⟨by omega, ?_⟩
    have := sorted_getD_le v hs _ i hge hi
    rw [List.getD_eq_getElem v 0 hi, hxi] at this
    exact Nat.not_lt.mpr this

theorem findSymbolsAt_eq (m : Module) (x : Addr) :
    (m.findSymbolsAt x).head? = m.symbols.find? (fun s => decide (s.address = some x)) := by
  unfold Module.findSymbolsAt
  induction m.symbols with
  | nil => rfl
  | cons s ss ih =>
    by_cases h : s.address = some x
    · simp [List.filter_cons, List.find?_cons, h]
    · simp [List.filter_cons, List.find?_cons, h, ih]

theorem getFunctionName_core (functionEntry : List Addr) (m : Module) (x : Addr)
    (hs : functionEntry.Pairwise (fun a b => a ≤ b)) :
    (if binary_search functionEntry x = true then
      match m.findSymbolsAt x with
      | s :: _ =>
        if decide ((m.findSymbolsNamed s.name).length > 1) = true then s.name ++ "_" ++ hex x
        else s.name
      | [] => "unknown_function_" ++ hex x
    else "") = functionNameSpec functionEntry m x := by
  unfold functionNameSpec
  by_cases hx : x ∈ functionEntry
  · rw [if_pos ((binary_search_iff functionEntry x hs).mpr hx), if_pos hx,
      ← findSymbolsAt_eq]
    cases hsym : m.findSymbolsAt x with
    | nil => rfl
    | cons s rest =>
      simp only [List.head?_cons, decide_eq_true_eq]
      have hcount : m.symbols.countP (fun t => decide (t.name = s.name)) =
          (m.findSymbolsNamed s.name).length := by
        rw [List.countP_eq_length_filter]; rfl
      rw [hcount]
      rfl
  · have hb : ¬ binary_search functionEntry x = true :=
      fun h => hx ((binary_search_iff functionEntry x hs).mp h)
    rw [if_neg hb, if_neg hx]

/-- Claim C5. For a sorted functionEntry list, getFunctionName (of the printer and of
the legacy class DisasmData alike) equals the reference definition at every address. -/
theorem getFunctionName_eq_spec (p : PrettyPrinterBase) (d : DisasmData) (x : Addr)
    (hp : p.functionEntry.Pairwise (fun a b => a ≤ b))
    (hd : d.functionEntry.Pairwise (fun a b => a ≤ b)) :
    p.getFunctionName x = functionNameSpec p.functionEntry p.module x ∧
    d.getFunctionName x = functionNameSpec d.functionEntry d.module x := by
  constructor
  · rw [← getFunctionName_core p.functionEntry p.module x hp]
    rfl
  · rw [← getFunctionName_core d.functionEntry d.module x hd]
    rfl

theorem getFunctionName_eq_spec_witness :
    entryPrinter.getFunctionName 0x10 = "foo_10" ∧
    entryDisasmData.getFunctionName 0x20 = "unknown_function_20" :=
  getFunctionName_eq_spec entryPrinter entryDisasmData 0x10 (by decide) (by decide) |>.imp
    (fun h => h.trans (by decide))
    (fun _ => (getFunctionName_eq_spec entryPrinter entryDisasmData 0x20
      (by decide) (by decide)).2.trans (by decide))

/-! ## C6: forwarded symbols and the `@PLT` ending -/

/-- Claim C6, as amended. For every symbol S that is a key of symbolForwarding with
destination symbol D, if the address of S itself lies in a PLT-like section (the first
section containing it is named `.plt` or `.plt.got`) and the reference is in a
non-absolute context, printSymbolReference(S, false) prints the name of D followed by
`@PLT`. -/
theorem forwarded_reference_plt (p : PrettyPrinterBase) (S D : Symbol)
    (fwd : List (UUID × UUID)) (a : Addr) (sec : Section)
    (hf : p.module.symbolForwarding = some fwd) (hkey : fwd.lookup S.uuid = some D.uuid)
    (hD : getByUUID p.context D.uuid = some (Node.symbol D))
    (ha : S.address = some a) (hsec : (p.module.findSection a).head? = some sec)
    (hname : sec.name = ".plt" ∨ sec.name = ".plt.got") :
    p.printSymbolReference S false = some (D.name ++ "@PLT") := by
  have hend : p.getForwardedSymbolEnding S false = "@PLT" := by
    unfold PrettyPrinterBase.getForwardedSymbolEnding
    rw [ha]
    cases hfs : p.module.findSection a with
    | nil => rw [hfs] at hsec; cases hsec
    | cons s rest =>
      rw [hfs] at hsec
      simp only [List.head?_cons, Option.some.injEq] at hsec
      subst hsec
      rcases hname with h | h <;> simp [hfs, h]
  simp [PrettyPrinterBase.printSymbolReference, PrettyPrinterBase.getForwardedSymbolName,
    hf, hkey, hD, hend]

theorem forwarded_reference_plt_witness :
    forwardedPrinter.printSymbolReference ⟨1, "puts", some 0x60⟩ false = some "puts@PLT" :=
  forwarded_reference_plt forwardedPrinter ⟨1, "puts", some 0x60⟩ ⟨2, "puts", none⟩
    [(1, 2)] 0x60 pltSection rfl (by decide) (by decide) rfl (by decide) (Or.inl rfl)

/-- Claim C6 fails as stated. In `forwardedToPltModule` the symbol `puts_ref` is
forwarded to `puts`, whose address 0x60 lies in the section `.plt`; the reference to
`puts_ref` in a non-absolute context prints `puts` without any ending, because the
ending is chosen from the section of `puts_ref` itself (`.text`). -/
theorem forwarded_reference_counterexample :
    forwardedToPltPrinter.module.symbolForwarding = some [(1, 2)] ∧
    getByUUID forwardedToPltPrinter.context 2 = some (Node.symbol ⟨2, "puts", some 0x60⟩) ∧
    (forwardedToPltPrinter.module.findSection 0x60).map Section.name = [".plt"] ∧
    forwardedToPltPrinter.printSymbolReference ⟨1, "puts_ref", some 0x10⟩ false =
      some "puts" := by
  decide

/-! ## C7: alignment -/

theorem append_ne_empty (s t : String) (h : t ≠ "") : s ++ t ≠ "" := by
  intro hst
  have hl : (s ++ t).length = 0 := by rw [hst]; rfl
  rw [String.length_append] at hl
  have ht : t.length = 0 := by omega
  apply h
  have hd : t.data = [] := List.length_eq_zero.mp ht
  exact String.ext hd

theorem printAlignment_eq (p : PrettyPrinterBase) (n : Nat) :
    p.printAlignment n =
      if n % 16 = 0 then p.backend.syn.DirectiveAlign ++ " 16\n"
      else if n % 8 = 0 then p.backend.syn.DirectiveAlign ++ " 8\n"
      else if n % 4 = 0 then p.backend.syn.DirectiveAlign ++ " 4\n"
      else if n % 2 = 0 then p.backend.syn.DirectiveAlign ++ " 2\n"
      else "" := by
  have h16 : wrap64 n % 16 = n % 16 := Nat.mod_mod_of_dvd n (by decide : 16 ∣ 2 ^ 64)
  have h8 : wrap64 n % 8 = n % 8 := Nat.mod_mod_of_dvd n (by decide : 8 ∣ 2 ^ 64)
  have h4 : wrap64 n % 4 = n % 4 := Nat.mod_mod_of_dvd n (by decide : 4 ∣ 2 ^ 64)
  have h2 : wrap64 n % 2 = n % 2 := Nat.mod_mod_of_dvd n (by decide : 2 ∣ 2 ^ 64)
  show (if wrap64 n % 16 = 0 then _ else if wrap64 n % 8 = 0 then _
    else if wrap64 n % 4 = 0 then _ else if wrap64 n % 2 = 0 then _ else _) = _
  rw [h16, h8, h4, h2]

/-- Claim C7. For every address, printAlignment writes the alignment directive with
the largest value of 16, 8, 4, 2 that evenly divides the address, and writes nothing
iff the address is odd; 0x30 gives 16, 0x14 gives 4 and 0x15 gives no directive. -/
theorem printAlignment_largest_divisor (p : PrettyPrinterBase) (addr : Nat) :
    (∀ k ∈ [16, 8, 4, 2], k ∣ addr → (∀ j ∈ [16, 8, 4, 2], j ∣ addr → j ≤ k) →
      p.printAlignment addr = p.backend.syn.DirectiveAlign ++ (" " ++ dec k ++ "\n")) ∧
    (p.printAlignment addr = "" ↔ addr % 2 = 1) ∧
    p.printAlignment 0x30 = p.backend.syn.DirectiveAlign ++ " 16\n" ∧
    p.printAlignment 0x14 = p.backend.syn.DirectiveAlign ++ " 4\n" ∧
    p.printAlignment 0x15 = "" := by
  refine ⟨?_, ?_, ?_, ?_, ?_⟩
  · intro k hk hdvd hmax
    simp only [List.mem_cons, List.mem_singleton, List.not_mem_nil, or_false] at hk
    have m16 := hmax 16 (by simp)
    have m8 := hmax 8 (by simp)
    have m4 := hmax 4 (by simp)
    simp only [Nat.dvd_iff_mod_eq_zero] at hdvd m16 m8 m4
    rw [printAlignment_eq]
    rcases hk with rfl | rfl | rfl | rfl
    · rw [if_pos hdvd]; rfl
    · rw [if_neg (fun h => absurd (m16 h) (by decide)), if_pos hdvd]; rfl
    · rw [if_neg (fun h => absurd (m16 h) (by decide)),
        if_neg (fun h => absurd (m8 h) (by decide)), if_pos hdvd]; rfl
    · rw [if_neg (fun h => absurd (m16 h) (by decide)),
        if_neg (fun h => absurd (m8 h) (by decide)),
        if_neg (fun h => absurd (m4 h) (by decide)), if_pos hdvd]; rfl
  · rw [printAlignment_eq]
    constructor
    · intro h
      by_contra hodd
      have he : addr % 2 = 0 := by omega
      by_cases c16 : addr % 16 = 0
      · rw [if_pos c16] at h; exact append_ne_empty _ _ (by decide) h
      · rw [if_neg c16] at h
        by_cases c8 : addr % 8 = 0
        · rw [if_pos c8] at h; exact append_ne_empty _ _ (by decide) h
        · rw [if_neg c8] at h
          by_cases c4 : addr % 4 = 0
          · rw [if_pos c4] at h; exact append_ne_empty _ _ (by decide) h
          · rw [if_neg c4, if_pos he] at h; exact append_ne_empty _ _ (by decide) h
    · intro hodd
      rw [if_neg (by omega), if_neg (by omega), if_neg (by omega), if_neg (by omega)]
  · rw [printAlignment_eq]; rfl
  · rw [printAlignment_eq]; rfl
  · rw [printAlignment_eq]; rfl

theorem printAlignment_largest_divisor_witness :
    (examplePrinter emptyModule).printAlignment 0x28 = ".align 8\n" :=
  (printAlignment_largest_divisor (examplePrinter emptyModule) 0x28).1 8 (by decide)
    (by decide) (by decide)

/-! ## C8: string data objects -/

theorem string_join_cons (x : String) (xs : List String) :
    String.join (x :: xs) = x ++ String.join xs := by
  apply String.ext
  simp [String.join, String.data_append, List.foldl_cons]
  induction xs generalizing x with
  | nil => simp
  | cons y ys ih =>
    simp only [List.foldl_cons]
    rw [ih, ih ("" ++ y)]
    simp [String.data_append, List.append_assoc]

theorem string_join_singleton (x : String) : String.join [x] = x := by
  rw [string_join_cons]
  apply String.ext
  simp [String.join, String.data_append]

theorem replace_all_copy_singleton (c pat : Char) (rep : String) :
    replace_all_copy (String.singleton c) pat rep =
      if c = pat then rep else String.singleton c := by
  unfold replace_all_copy
  have hd : (String.singleton c).data = [c] := rfl
  rw [hd, List.map_cons, List.map_nil, string_join_singleton]

/-- The nine replacements of `cleanByte` amount to the reference escaping. -/
theorem cleanByte_eq_escapeSpec (b : Nat) : cleanByte b = escapeSpec (Char.ofNat (b % 256)) := by
  unfold cleanByte
  generalize Char.ofNat (b % 256) = c
  simp only [replace_all_copy_singleton]
  by_cases h1 : c = Char.ofNat 92
  · subst h1; decide
  by_cases h2 : c = Char.ofNat 34
  · subst h2; decide
  by_cases h3 : c = Char.ofNat 10
  · subst h3; decide
  by_cases h4 : c = Char.ofNat 9
  · subst h4; decide
  by_cases h5 : c = Char.ofNat 11
  · subst h5; decide
  by_cases h6 : c = Char.ofNat 8
  · subst h6; decide
  by_cases h7 : c = Char.ofNat 13
  · subst h7; decide
  by_cases h8 : c = Char.ofNat 7
  · subst h8; decide
  by_cases h9 : c = Char.ofNat 39
  · subst h9; decide
  simp only [h1, h2, h3, h4, h5, h6, h7, h8, h9, if_false, replace_all_copy_singleton,
    escapeSpec]

theorem printStringBytes_eq (bytes : List Nat) :
    printStringBytes bytes =
      String.join ((bytes.filter fun b => decide (b % 256 ≠ 0)).map fun b =>
        escapeSpec (Char.ofNat (b % 256))) := by
  induction bytes with
  | nil => rfl
  | cons b bs ih =>
    by_cases hb : b % 256 = 0
    · simp only [printStringBytes, hb, ne_eq, not_true_eq_false, if_false, ih,
        List.filter_cons, decide_False]
      apply String.ext; simp [String.data_append]
    · simp only [printStringBytes, hb, ne_eq, not_false_eq_true, if_true, ih,
        List.filter_cons, decide_True, List.map_cons, string_join_cons,
        cleanByte_eq_escapeSpec]

/-- Claim C8. For every data object, printString writes `.string "`, then the escape of
each non-zero byte of the object in order (backslash, double quote, newline, tab,
vertical tab, backspace, carriage return, bell and single quote become backslash + escape
letter, every other byte is unchanged), then `"`; zero bytes are dropped wherever they
occur, so the bytes 0x41, 0x00, 0x42 print as "AB". -/
theorem printString_eq_spec (x : DataObject) :
    printString x = printStringSpec x.bytes ∧
    printString { x with bytes := [0x41, 0x00, 0x42] } = ".string \"AB\"" := by
  refine ⟨?_, ?_⟩
  · unfold printString printStringSpec
    rw [printStringBytes_eq]
  · show ".string \"" ++ printStringBytes [0x41, 0x00, 0x42] ++ "\"" = _
    decide

/-! ## C9: data objects without backing bytes -/

/-- Claim C9. For every data object that is not skipped, lies in a section, is not
excluded and has empty backing bytes, printDataObject writes (after the comments,
labels and address prefix of the object) exactly the zero-reservation directive
` .zero <size in decimal>` and a newline, whatever symbolic expression or type tag the
object carries; size 12 gives `.zero 12`. -/
theorem printDataObject_zero (p : PrettyPrinterBase) (d : DataObject) (sec : Section)
    (hskip : p.skipEA d.address = false)
    (hsec : p.getContainerSection d.address = some sec)
    (hexcl : p.shouldExcludeDataElement sec d = some false)
    (hbytes : d.bytes = []) :
    p.printDataObject d =
      some (p.printComments ⟨d.uuid, 0⟩ d.size ++ p.printSymbolDefinitionsAtAddress d.address ++
        (if p.debug then hex d.address ++ ":" else "") ++
        (" .zero " ++ dec d.size ++ "\n")) ∧
    (d.size = 12 →
      p.printDataObject d =
        some (p.printComments ⟨d.uuid, 0⟩ d.size ++
          p.printSymbolDefinitionsAtAddress d.address ++
          (if p.debug then hex d.address ++ ":" else "") ++ " .zero 12\n")) := by
  have h : p.printDataObject d =
      some (p.printComments ⟨d.uuid, 0⟩ d.size ++ p.printSymbolDefinitionsAtAddress d.address ++
        (if p.debug then hex d.address ++ ":" else "") ++
        (" .zero " ++ dec d.size ++ "\n")) := by
    simp only [PrettyPrinterBase.printDataObject, hskip, hsec, hexcl, hbytes,
      printZeroDataObject, List.isEmpty_nil, if_true, Bool.false_eq_true, if_false]
  refine ⟨h, ?_⟩
  intro h12
  rw [h, h12]
  rfl

theorem printDataObject_zero_witness :
    (examplePrinter dataModule).printDataObject ⟨13, 0x40, 12, []⟩ = some " .zero 12\n" :=
  (printDataObject_zero (examplePrinter dataModule) ⟨13, 0x40, 12, []⟩ dataSection
    (by rw [examplePrinter_skipEA]; decide) (by decide) (by decide) rfl).2 rfl

theorem examplePrinter_printSymbolReference (m : Module) (symbol : Symbol)
    (isAbsolute : Bool) :
    (examplePrinter m).printSymbolReference symbol isAbsolute =
      match (examplePrinter m).getForwardedSymbolName symbol isAbsolute with
      | none => none
      | some (some forwardedName) => some forwardedName
      | some none =>
        match symbol.address with
        | some a =>
          if (examplePrinter m).isInSkippedSection a then some (dec a)
          else if (examplePrinter m).isAmbiguousSymbol symbol.name then
            some (GetSymbolToPrint a)
          else some (AvoidRegNameConflicts symbol.name)
        | none =>
          if (examplePrinter m).isAmbiguousSymbol symbol.name then none
          else some (AvoidRegNameConflicts symbol.name) := by
  simp only [PrettyPrinterBase.printSymbolReference, examplePrinter_skipEA]

/-! ## C10: rendering of data objects with backing bytes -/

/-- Claim C10. printNonZeroDataObject chooses one rendering by priority. A symbolic
expression anchored at the address of the object gives the line `<directive> <expression>`
(also when the object is tagged "string"): the directive is `.` and the tag of a tagged
object, and `.byte`, `.word`, `.long`, `.quad` for an untagged object of size 1, 2, 4, 8;
for an untagged object of any other size the line has no directive at all, which is where
the code departs from the claim. Otherwise an encodings tag equal to "string" gives the
quoted string; otherwise every raw byte is written as one byte directive, in order, one
per byte of the object. -/
theorem printNonZeroDataObject_priority (p : PrettyPrinterBase) (d : DataObject) :
    (∀ symbolic tag, p.module.findSymbolicExpression d.address = some symbolic →
      (p.module.encodings.bind fun types => types.lookup d.uuid) = some tag →
      p.printNonZeroDataObject d =
        (p.printSymbolicExpression symbolic true).map fun e =>
          "." ++ tag ++ " " ++ e ++ "\n") ∧
    (∀ symbolic, p.module.findSymbolicExpression d.address = some symbolic →
      (p.module.encodings.bind fun types => types.lookup d.uuid) = none →
      (d.size = 1 ∨ d.size = 2 ∨ d.size = 4 ∨ d.size = 8) →
      p.printNonZeroDataObject d =
        (p.printSymbolicExpression symbolic true).map fun e =>
          (if d.size = 1 then ".byte" else if d.size = 2 then ".word"
           else if d.size = 4 then ".long" else ".quad") ++ " " ++ e ++ "\n") ∧
    (∀ symbolic, p.module.findSymbolicExpression d.address = some symbolic →
      (p.module.encodings.bind fun types => types.lookup d.uuid) = none →
      ¬ (d.size = 1 ∨ d.size = 2 ∨ d.size = 4 ∨ d.size = 8) →
      p.printNonZeroDataObject d =
        (p.printSymbolicExpression symbolic true).map fun e => " " ++ e ++ "\n") ∧
    (p.module.findSymbolicExpression d.address = none →
      (∃ types, p.module.encodings = some types ∧ types.lookup d.uuid = some "string") →
      p.printNonZeroDataObject d = some (printString d ++ "\n")) ∧
    (p.module.findSymbolicExpression d.address = none →
      ¬ (∃ types, p.module.encodings = some types ∧ types.lookup d.uuid = some "string") →
      p.printNonZeroDataObject d = some (String.join (d.bytes.map p.backend.printByte))) := by
  refine ⟨?_, ?_, ?_, ?_, ?_⟩
  · intro symbolic tag h ht
    simp only [PrettyPrinterBase.printNonZeroDataObject, h, PrettyPrinterBase.printSymbolicData,
      PrettyPrinterBase.printDataObjectType, ht, Option.map_map]
    rfl
  · intro symbolic h ht hsz
    simp only [PrettyPrinterBase.printNonZeroDataObject, h, PrettyPrinterBase.printSymbolicData,
      PrettyPrinterBase.printDataObjectType, ht, Option.map_map]
    rcases hsz with h1 | h1 | h1 | h1 <;> simp only [h1] <;> rfl
  · intro symbolic h ht hsz
    simp only [not_or] at hsz
    simp only [PrettyPrinterBase.printNonZeroDataObject, h, PrettyPrinterBase.printSymbolicData,
      PrettyPrinterBase.printDataObjectType, ht, Option.map_map, hsz.1, hsz.2.1, hsz.2.2.1,
      hsz.2.2.2, if_false]
    rfl
  · rintro h ⟨types, ht, hl⟩
    simp [PrettyPrinterBase.printNonZeroDataObject, h, ht, hl]
  · intro h hn
    have hne : ¬ (p.module.encodings.bind fun types => types.lookup d.uuid) = some "string" := by
      intro hb
      apply hn
      cases ht : p.module.encodings with
      | none => rw [ht] at hb; cases hb
      | some types => rw [ht] at hb; exact ⟨types, rfl, hb⟩
    simp only [PrettyPrinterBase.printNonZeroDataObject, h, hne, if_false]

theorem printNonZeroDataObject_priority_witness :
    (examplePrinter wideObjectModule).printNonZeroDataObject
        ⟨21, 0x30, 16, [0x18, 0, 0, 0, 0, 0, 0, 0, 0, 0, 0, 0, 0, 0, 0, 0]⟩ =
      some " foo+8\n" ∧
    (examplePrinter wideObjectModule).printNonZeroDataObject
        ⟨22, 0x40, 8, [0x10, 0, 0, 0, 0, 0, 0, 0]⟩ = some ".quad foo\n" ∧
    (examplePrinter dataModule).printNonZeroDataObject
        ⟨10, 0x30, 8, [0x10, 0, 0, 0, 0, 0, 0, 0]⟩ = some ".string foo\n" ∧
    (examplePrinter dataModule).printNonZeroDataObject ⟨11, 0x38, 3, [0x41, 0x00, 0x42]⟩ =
      some ".string \"AB\"\n" ∧
    (examplePrinter dataModule).printNonZeroDataObject ⟨12, 0x3b, 2, [1, 2]⟩ =
      some ".byte 0x1\n.byte 0x2\n" :=
  ⟨((printNonZeroDataObject_priority (examplePrinter wideObjectModule) _).2.2.1
      (SymbolicExpression.SymAddrConst 8 ⟨1, "foo", some 0x10⟩)
      (by decide) (by decide) (by decide)).trans (by
        simp only [PrettyPrinterBase.printSymbolicExpression,
          examplePrinter_printSymbolReference]
        decide),
   ((printNonZeroDataObject_priority (examplePrinter wideObjectModule) _).2.1
      (SymbolicExpression.SymAddrConst 0 ⟨1, "foo", some 0x10⟩)
      (by decide) (by decide) (by decide)).trans (by
        simp only [PrettyPrinterBase.printSymbolicExpression,
          examplePrinter_printSymbolReference]
        decide),
   ((printNonZeroDataObject_priority (examplePrinter dataModule) _).1
      (SymbolicExpression.SymAddrConst 0 ⟨1, "foo", some 0x10⟩) "string"
      (by decide) (by decide)).trans (by
        simp only [PrettyPrinterBase.printSymbolicExpression,
          examplePrinter_printSymbolReference]
        decide),
   (printNonZeroDataObject_priority (examplePrinter dataModule) _).2.2.2.1 (by decide)
     ⟨_, rfl, by decide⟩,
   (printNonZeroDataObject_priority (examplePrinter dataModule) _).2.2.2.2 (by decide)
     (by rintro ⟨types, ht, hl⟩; cases ht; revert hl; decide)⟩

/-! ## C11: symbolic expressions of data objects -/

theorem decInt_neg (k : Int) (h : k < 0) : decInt k = "-" ++ dec k.natAbs := by
  cases k with
  | ofNat n => exact absurd h (by simp)
  | negSucc n => rfl

theorem decInt_pos (k : Int) (h : 0 ≤ k) : decInt k = dec k.toNat := by
  cases k with
  | ofNat n => rfl
  | negSucc n => exact absurd h (by simp)

/-- Claim C11. printSymbolicExpression prints, for an address constant with symbol
`sym` and addend `k`, the resolved reference to `sym` followed by nothing when k = 0, by
`+k` when k > 0 and by the decimal `k` with its leading `-` when k < 0; for an address
difference it prints the resolved reference to the first symbol, then `-`, then the
resolved reference to the second one, with no sign before the first operand. (When a
reference has no defined text, neither has the expression.) -/
theorem printSymbolicExpression_text (p : PrettyPrinterBase) (inData : Bool) :
    (∀ (sym : Symbol) (k : Int),
      p.printSymbolicExpression (SymbolicExpression.SymAddrConst k sym) inData =
        (p.printSymbolReference sym inData).map fun r =>
          r ++ (if k = 0 then "" else if 0 < k then "+" ++ dec k.toNat
                else "-" ++ dec k.natAbs)) ∧
    (∀ (sym1 sym2 : Symbol),
      p.printSymbolicExpression (SymbolicExpression.SymAddrAddr sym1 sym2) inData =
        (p.printSymbolReference sym1 inData).bind fun r1 =>
          (p.printSymbolReference sym2 inData).map fun r2 => r1 ++ "-" ++ r2) := by
  refine ⟨?_, ?_⟩
  · intro sym k
    have hadd : printAddend k false =
        (if k = 0 then "" else if 0 < k then "+" ++ dec k.toNat else "-" ++ dec k.natAbs) := by
      unfold printAddend
      rcases Int.lt_trichotomy k 0 with h | h | h
      · have h0 : k ≠ 0 := Int.ne_of_lt h
        have hp : ¬ 0 < k := Int.not_lt.mpr (Int.le_of_lt h)
        rw [if_pos (Or.inl h), if_neg h0, if_neg hp, decInt_neg k h]
      · subst h; simp
      · have h0 : k ≠ 0 := (Int.ne_of_lt h).symm
        have hn : ¬ (k < 0 ∨ false = true) := by
          rintro (hk | hk)
          · exact absurd hk (Int.not_lt.mpr (Int.le_of_lt h))
          · cases hk
        rw [if_neg hn, if_neg h0, if_neg h0, if_pos h, decInt_pos k (Int.le_of_lt h)]
    simp only [PrettyPrinterBase.printSymbolicExpression, hadd]
  · intro sym1 sym2
    simp only [PrettyPrinterBase.printSymbolicExpression]
    cases p.printSymbolReference sym1 inData <;> rfl

/-! ## C12: containing function -/

/-- Correctness of `std::upper_bound` on a sorted vector: the index returned separates
the elements not greater than `x` from the others. -/
theorem upper_bound_spec (v : List Addr) (x : Addr) (hs : v.Pairwise (fun a b => a ≤ b))
    (len : Nat) : ∀ first : Nat, first + len ≤ v.length →
      (∀ i, i < first → v.getD i 0 ≤ x) →
      (∀ i, first + len ≤ i → i < v.length → x < v.getD i 0) →
      upper_bound v x first len ≤ v.length ∧
      (∀ i, i < upper_bound v x first len → v.getD i 0 ≤ x) ∧
      (∀ i, upper_bound v x first len ≤ i → i < v.length → x < v.getD i 0) := by
  induction len using Nat.strong_induction_on with
  | _ len ih =>
    intro first hlen hlo hhi
    rw [upper_bound]
    by_cases hpos : 0 < len
    · simp only [hpos, if_true]
      have hmid : first + len / 2 < v.length := by omega
      by_cases hlt : x < v.getD (first + len / 2) 0
      · simp only [hlt, if_true]
        refine ih (len / 2) (by omega) first (by omega) hlo ?_
        intro i hi hiv
        exact Nat.lt_of_lt_of_le hlt (sorted_getD_le v hs (first + len / 2) i hi hiv)
      · simp only [hlt, if_false]
        refine ih (len - len / 2 - 1) (by omega) (first + len / 2 + 1) (by omega) ?_ ?_
        · intro i hi
          exact Nat.le_trans (sorted_getD_le v hs i (first + len / 2) (by omega) hmid)
            (Nat.le_of_not_lt hlt)
        · intro i hi hiv
          exact hhi i (by omega) hiv
    · simp only [hpos, if_false]
      have h0 : len = 0 := by omega
      subst h0
      exact ⟨by omega, hlo, fun i hi hiv => hhi i (by omega) hiv⟩

/-- Claim C12. For a sorted functionEntry list and every address x,
getContainerFunctionName(x) returns nothing iff no entry is at or below x, and otherwise
returns getFunctionName(e) for the greatest entry e at or below x; in particular every
address at or after the last entry is attributed to the last function. -/
theorem getContainerFunctionName_greatest_entry (p : PrettyPrinterBase) (x : Addr)
    (hs : p.functionEntry.Pairwise (fun a b => a ≤ b)) :
    (p.getContainerFunctionName x = none ↔ ∀ e ∈ p.functionEntry, ¬ e ≤ x) ∧
    (∀ e ∈ p.functionEntry, e ≤ x → (∀ e1 ∈ p.functionEntry, e1 ≤ x → e1 ≤ e) →
      p.getContainerFunctionName x = some (p.getFunctionName e)) ∧
    (∀ e, p.functionEntry.getLast? = some e → e ≤ x →
      p.getContainerFunctionName x = some (p.getFunctionName e)) := by
  obtain ⟨hle, hlo, hhi⟩ := upper_bound_spec p.functionEntry x hs p.functionEntry.length 0
    (by omega) (fun i hi => absurd hi (Nat.not_lt_zero i)) (fun i hi hiv => by omega)
  have hgreat : ∀ e ∈ p.functionEntry, e ≤ x →
      (∀ e1 ∈ p.functionEntry, e1 ≤ x → e1 ≤ e) →
      p.getContainerFunctionName x = some (p.getFunctionName e) := by
    intro e he hex hmax
    obtain ⟨i, hi, hxi⟩ := List.getElem_of_mem he
    have hir : i < upper_bound p.functionEntry x 0 p.functionEntry.length := by
      by_contra hcon
      have := hhi i (Nat.le_of_not_lt hcon) hi
      rw [List.getD_eq_getElem _ 0 hi, hxi] at this
      exact absurd hex (Nat.not_le.mpr this)
    have hpos : upper_bound p.functionEntry x 0 p.functionEntry.length ≠ 0 := by omega
    have hr1 : upper_bound p.functionEntry x 0 p.functionEntry.length - 1 <
        p.functionEntry.length := by omega
    have h1 := hlo (upper_bound p.functionEntry x 0 p.functionEntry.length - 1) (by omega)
    have hmem : p.functionEntry.getD
        (upper_bound p.functionEntry x 0 p.functionEntry.length - 1) 0 ∈ p.functionEntry := by
      rw [List.getD_eq_getElem _ 0 hr1]; exact List.getElem_mem _
    have h2 := hmax _ hmem h1
    have h3 := sorted_getD_le p.functionEntry hs i
      (upper_bound p.functionEntry x 0 p.functionEntry.length - 1) (by omega) hr1
    rw [List.getD_eq_getElem _ 0 hi, hxi] at h3
    have heq : p.functionEntry.getD
        (upper_bound p.functionEntry x 0 p.functionEntry.length - 1) 0 = e :=
      Nat.le_antisymm h2 h3
    simp only [PrettyPrinterBase.getContainerFunctionName, hpos, if_false, heq]
  refine ⟨?_, hgreat, ?_⟩
  · constructor
    · intro hnone e he hex
      obtain ⟨i, hi, hxi⟩ := List.getElem_of_mem he
      have hzero : upper_bound p.functionEntry x 0 p.functionEntry.length = 0 := by
        by_contra hne
        simp [PrettyPrinterBase.getContainerFunctionName, hne] at hnone
      have := hhi i (by omega) hi
      rw [List.getD_eq_getElem _ 0 hi, hxi] at this
      exact absurd hex (Nat.not_le.mpr this)
    · intro hall
      have hzero : upper_bound p.functionEntry x 0 p.functionEntry.length = 0 := by
        by_contra hne
        have hr1 : upper_bound p.functionEntry x 0 p.functionEntry.length - 1 <
            p.functionEntry.length := by omega
        have h1 := hlo (upper_bound p.functionEntry x 0 p.functionEntry.length - 1)
          (by omega)
        rw [List.getD_eq_getElem _ 0 hr1] at h1
        exact hall _ (List.getElem_mem _) h1
      simp [PrettyPrinterBase.getContainerFunctionName, hzero]
  · intro e hlast hex
    have he : e ∈ p.functionEntry := List.mem_of_getLast?_eq_some hlast
    refine hgreat e he hex ?_
    intro e1 he1 _
    obtain ⟨i, hi, hxi⟩ := List.getElem_of_mem he1
    have hne : p.functionEntry ≠ [] := List.ne_nil_of_mem he
    have hl : p.functionEntry.getLast hne = e := by
      rw [List.getLast?_eq_getLast _ hne] at hlast
      exact Option.some.inj hlast
    rw [List.getLast_eq_getElem] at hl
    have hlen : p.functionEntry.length - 1 < p.functionEntry.length := by omega
    have := sorted_getD_le p.functionEntry hs i (p.functionEntry.length - 1) (by omega) hlen
    rw [List.getD_eq_getElem _ 0 hi, List.getD_eq_getElem _ 0 hlen, hxi, hl] at this
    exact this

theorem getContainerFunctionName_greatest_entry_witness :
    entryPrinter.getContainerFunctionName 0x2f = some (entryPrinter.getFunctionName 0x20) ∧
    entryPrinter.getContainerFunctionName 0x1000 = some (entryPrinter.getFunctionName 0x30) :=
  ⟨(getContainerFunctionName_greatest_entry entryPrinter 0x2f (by decide)).2.1 0x20
      (by decide) (by decide) (by decide),
   (getContainerFunctionName_greatest_entry entryPrinter 0x1000 (by decide)).2.2 0x30
      (by decide) (by decide)⟩

/-! ## C13: references to unambiguous symbols -/

/-- Claim C13, as amended. For every symbol that is not a key of symbolForwarding,
whose name is not ambiguous, and that has no address or an address that is not skipped
(skipEA), printSymbolReference prints the name of the symbol passed through the
conflict-avoidance rename: the name with `_renamed` appended when it is in the fixed
reserved-word list, and the name unchanged otherwise. -/
theorem unambiguous_reference_prints_name (p : PrettyPrinterBase) (symbol : Symbol)
    (isAbsolute : Bool)
    (hfwd : ∀ fwd, p.module.symbolForwarding = some fwd → ∀ e ∈ fwd, e.1 ≠ symbol.uuid)
    (hamb : p.module.symbols.countP (fun s => s.name = symbol.name) < 2)
    (hskip : ∀ a, symbol.address = some a → p.skipEA a = false) :
    p.printSymbolReference symbol isAbsolute =
      some (if symbol.name ∈
              ["FS", "MOD", "DIV", "NOT", "mod", "div", "not", "and", "or", "shr", "Si"]
            then symbol.name ++ "_renamed" else symbol.name) := by
  have h1 := getForwardedSymbolName_of_not_key p symbol isAbsolute hfwd
  have h2 : p.isAmbiguousSymbol symbol.name = false := by
    cases h : p.isAmbiguousSymbol symbol.name with
    | false => rfl
    | true => exact absurd ((isAmbiguousSymbol_iff p symbol.name).mp h) (Nat.not_le.mpr hamb)
  cases ha : symbol.address with
  | none =>
    simp [PrettyPrinterBase.printSymbolReference, h1, ha, h2, AvoidRegNameConflicts]
  | some a =>
    simp [PrettyPrinterBase.printSymbolReference, h1, ha, hskip a ha, h2,
      AvoidRegNameConflicts]

theorem unambiguous_reference_prints_name_witness :
    (examplePrinter dataModule).printSymbolReference ⟨1, "foo", some 0x10⟩ false =
      some "foo" ∧
    forwardChainPrinter.printSymbolReference ⟨5, "not", none⟩ true = some "not_renamed" :=
  ⟨unambiguous_reference_prints_name (examplePrinter dataModule) ⟨1, "foo", some 0x10⟩ false
      (by intro fwd h; cases h) (by decide)
      (by intro a h; cases h; rw [examplePrinter_skipEA]; decide),
   unambiguous_reference_prints_name forwardChainPrinter ⟨5, "not", none⟩ true
      (by intro fwd h; cases h; decide) (by decide) (by intro a h; cases h)⟩

/-- Claim C13 fails as stated. The symbol `puts` of `forwardedToPltModule` is not a key
of symbolForwarding and no other symbol has its name, but its address 0x60 lies in the
skipped section `.plt`: its reference prints the decimal address `96`, not the name. -/
theorem unambiguous_reference_counterexample :
    forwardedToPltPrinter.module.symbolForwarding = some [(1, 2)] ∧
    forwardedToPltPrinter.module.symbols.countP (fun s => s.name = "puts") = 1 ∧
    forwardedToPltPrinter.printSymbolReference ⟨2, "puts", some 0x60⟩ false = some "96" := by
  decide

/-! ## C14: the base text of a forwarded reference -/

/-- Claim C14, as amended. For every forwarded symbol S with destination symbol D, the
base text printed for a reference to S (by the printer and by the legacy class alike)
is the name of D exactly as stored: no further forwarding of D is followed, an
ambiguous D is not replaced by a local label, and a reserved-word name is not renamed.
The ending chosen from the section of S (`@PLT`, `@GOTPCREL` or nothing) is appended
to it. -/
theorem forwarded_reference_stored_name (p : PrettyPrinterBase) (d : DisasmData)
    (S D : Symbol) (isAbsolute : Bool) (fwd : List (UUID × UUID))
    (hdm : d.module = p.module) (hdc : d.context = p.context)
    (hf : p.module.symbolForwarding = some fwd) (hkey : fwd.lookup S.uuid = some D.uuid)
    (hD : getByUUID p.context D.uuid = some (Node.symbol D)) :
    p.printSymbolReference S isAbsolute =
      some (D.name ++ p.getForwardedSymbolEnding S isAbsolute) ∧
    d.getForwardedSymbolName S isAbsolute =
      some (some (D.name ++ p.getForwardedSymbolEnding S isAbsolute)) ∧
    (p.getForwardedSymbolEnding S isAbsolute = "" ∨
      p.getForwardedSymbolEnding S isAbsolute = "@PLT" ∨
      p.getForwardedSymbolEnding S isAbsolute = "@GOTPCREL") := by
  refine ⟨?_, ?_, ?_⟩
  · simp [PrettyPrinterBase.printSymbolReference, PrettyPrinterBase.getForwardedSymbolName,
      hf, hkey, hD]
  · have hend : d.getForwardedSymbolEnding S isAbsolute =
        p.getForwardedSymbolEnding S isAbsolute := by
      unfold DisasmData.getForwardedSymbolEnding PrettyPrinterBase.getForwardedSymbolEnding
      rw [hdm]
    simp [DisasmData.getForwardedSymbolName, hdm, hdc, hf, hkey, hD, hend]
  · unfold PrettyPrinterBase.getForwardedSymbolEnding
    split
    · split
      · exact Or.inl rfl
      · simp only
        split_ifs <;> simp
    · exact Or.inl rfl

theorem forwarded_reference_stored_name_witness :
    forwardChainPrinter.printSymbolReference ⟨1, "stub", some 0x60⟩ false =
      some ("mod" ++ forwardChainPrinter.getForwardedSymbolEnding ⟨1, "stub", some 0x60⟩ false) :=
  (forwarded_reference_stored_name forwardChainPrinter forwardChainDisasmData
    ⟨1, "stub", some 0x60⟩ ⟨2, "mod", some 0x10⟩ false [(1, 2), (2, 3), (4, 5)]
    rfl rfl rfl (by decide) (by decide)).1

/-- Claim C14 fails as stated. In `forwardChainModule`, `stub` is forwarded to `mod`,
and `mod` is itself forwarded to `target`: resolving `mod` prints `target`, yet the
reference to `stub` prints `mod@PLT`. And `stub2` is forwarded to `not`, whose own
reference prints `not_renamed`, yet the reference to `stub2` prints `not@PLT`. The
legacy class builds the same texts. -/
theorem forwarded_reference_recursion_counterexample :
    forwardChainPrinter.printSymbolReference ⟨2, "mod", some 0x10⟩ false = some "target" ∧
    forwardChainPrinter.printSymbolReference ⟨1, "stub", some 0x60⟩ false = some "mod@PLT" ∧
    forwardChainPrinter.printSymbolReference ⟨5, "not", none⟩ false = some "not_renamed" ∧
    forwardChainPrinter.printSymbolReference ⟨4, "stub2", some 0x68⟩ false =
      some "not@PLT" ∧
    forwardChainDisasmData.getForwardedSymbolName ⟨1, "stub", some 0x60⟩ false =
      some (some "mod@PLT") ∧
    forwardChainDisasmData.getForwardedSymbolName ⟨4, "stub2", some 0x68⟩ false =
      some (some "not@PLT") := by
  decide

/-! ## C15: the function-entry list after construction -/

/-- Claim C15, as amended. After construction of the printer (PrettyPrinterBase and the
legacy DisasmData), for every content of the function-entry auxiliary table, the
functionEntry list is sorted in ascending address order and holds every address as many
times as the table names it: nothing is removed, an address named twice is kept twice. -/
theorem functionEntry_sorted_after_construction (context : Context) (module : Module)
    (dbg : DebugStyle) (backend : Backend) :
    (∀ p, PrettyPrinterBase.new context module dbg backend = some p →
      p.functionEntry.Pairwise (fun a b => a ≤ b) ∧
      ∃ addrs, p.functionEntry.Perm addrs ∧
        ((module.functionEntries = none ∧ addrs = []) ∨
         ∃ table, module.functionEntries = some table ∧
           entryAddresses context (table.flatMap fun f => f.2) = some addrs)) ∧
    (DisasmData.new context module).functionEntry.Pairwise (fun a b => a ≤ b) ∧
    (DisasmData.new context module).functionEntry.Perm (module.functionEntry.getD []) := by
  refine ⟨?_, ?_, ?_⟩
  · intro p hp
    unfold PrettyPrinterBase.new at hp
    cases ht : module.functionEntries with
    | none =>
      rw [ht] at hp
      simp only [Option.some.injEq] at hp
      subst hp
      exact ⟨List.Pairwise.nil, [], List.Perm.refl _, Or.inl ⟨rfl, rfl⟩⟩
    | some table =>
      rw [ht] at hp
      simp only at hp
      cases ha : entryAddresses context (table.flatMap fun f => f.2) with
      | none => rw [ha] at hp; cases hp
      | some addrs =>
        rw [ha] at hp
        simp only [Option.map_some', Option.some.injEq] at hp
        subst hp
        exact ⟨List.sorted_insertionSort _ addrs, addrs, List.perm_insertionSort _ addrs,
          Or.inr ⟨table, rfl, ha⟩⟩
  · exact List.sorted_insertionSort _ _
  · exact List.perm_insertionSort _ _

theorem functionEntry_sorted_after_construction_witness :
    [0x10, 0x10, 0x20].Pairwise (fun a b => a ≤ b) ∧
    ∃ addrs, [0x10, 0x10, 0x20].Perm addrs ∧
      ((sharedEntryModule.functionEntries = none ∧ addrs = []) ∨
       ∃ table, sharedEntryModule.functionEntries = some table ∧
         entryAddresses sharedEntryContext (table.flatMap fun f => f.2) = some addrs) :=
  (functionEntry_sorted_after_construction sharedEntryContext sharedEntryModule
    DebugStyle.NoDebug exampleBackend).1
    { debug := false, context := sharedEntryContext, module := sharedEntryModule,
      functionEntry := [0x10, 0x10, 0x20], backend := exampleBackend } rfl

/-- Claim C15 fails as stated. For `sharedEntryModule`, whose table names the block at
0x10 as entry of two functions (and whose legacy vector lists 0x10 twice), both
constructors leave the address 0x10 twice in functionEntry. -/
theorem functionEntry_duplicate_counterexample :
    (PrettyPrinterBase.new sharedEntryContext sharedEntryModule DebugStyle.NoDebug
        exampleBackend).map (fun p => p.functionEntry) = some [0x10, 0x10, 0x20] ∧
    (DisasmData.new sharedEntryContext sharedEntryModule).functionEntry =
      [0x10, 0x10, 0x20] ∧
    ¬ [0x10, 0x10, 0x20].Nodup := by
  decide

/-! ## C16: the type directive of a symbolic data object -/

/-- Claim C16, the code at the failing input. The data object of `oddSizeModule` has
size 3 and no type tag: printDataObjectType writes nothing for it and does not abort,
so the object is printed as a line with a symbol and no directive. The `assert` in the
`default` branch tests a string literal, which is always true. -/
theorem printDataObjectType_odd_size_no_abort :
    (examplePrinter oddSizeModule).printDataObjectType ⟨20, 0x30, 3, [1, 2, 3]⟩ = "" ∧
    (examplePrinter oddSizeModule).printNonZeroDataObject ⟨20, 0x30, 3, [1, 2, 3]⟩ =
      some " foo\n" := by
  refine ⟨by decide, ?_⟩
  simp only [PrettyPrinterBase.printNonZeroDataObject, PrettyPrinterBase.printSymbolicData,
    PrettyPrinterBase.printSymbolicExpression, examplePrinter_printSymbolReference]
  decide

/-! ## C17: invalid operands -/

/-- Claim C17. printOperand has no result (the process exits, no operand text is
written) exactly for an operand whose kind is none of register, immediate or memory;
for an operand of one of those three kinds it returns the text of the backend. -/
theorem printOperand_aborts_iff_invalid (p : PrettyPrinterBase) (inst : cs_insn)
    (index : Nat) :
    (p.printOperand inst index = none ↔
      ((inst.operands.getD index ⟨x86_op_type.X86_OP_INVALID, 0⟩).type ≠
          x86_op_type.X86_OP_REG ∧
        (inst.operands.getD index ⟨x86_op_type.X86_OP_INVALID, 0⟩).type ≠
          x86_op_type.X86_OP_IMM ∧
        (inst.operands.getD index ⟨x86_op_type.X86_OP_INVALID, 0⟩).type ≠
          x86_op_type.X86_OP_MEM)) ∧
    ((p.printOperand inst index).isSome = true ↔
      ((inst.operands.getD index ⟨x86_op_type.X86_OP_INVALID, 0⟩).type =
          x86_op_type.X86_OP_REG ∨
        (inst.operands.getD index ⟨x86_op_type.X86_OP_INVALID, 0⟩).type =
          x86_op_type.X86_OP_IMM ∨
        (inst.operands.getD index ⟨x86_op_type.X86_OP_INVALID, 0⟩).type =
          x86_op_type.X86_OP_MEM)) := by
  unfold PrettyPrinterBase.printOperand
  simp only
  cases (inst.operands.getD index ⟨x86_op_type.X86_OP_INVALID, 0⟩).type <;> simp

/-! ## C19: section footers -/

theorem printBar_ne_empty (p : PrettyPrinterBase) : p.printBar ≠ "" :=
  append_ne_empty _ _ (by decide)

/-- Claim C19. printSectionFooter(next, last) writes a footer (delimiter bar, backend
footer directive, delimiter bar) iff the open section (the one containing the byte
`last - 1`) exists, is not a skip-section, is not one of the canonical text/data/bss
sections, and either no next element remains or the next element's section differs from
it; in every other case it writes nothing. -/
theorem printSectionFooter_iff_due (p : PrettyPrinterBase) (next : Option Addr)
    (last : Nat) :
    (∀ sec, p.FooterDue next last sec →
      p.printSectionFooter next last =
        p.printBar ++ p.backend.printSectionFooterDirective sec ++ "\n" ++ p.printBar) ∧
    ((¬ ∃ sec, p.FooterDue next last sec) → p.printSectionFooter next last = "") ∧
    (p.printSectionFooter next last ≠ "" ↔ ∃ sec, p.FooterDue next last sec) ∧
    (0 < last → last ≤ 2 ^ 64 → wrap64 (last + (2 ^ 64 - 1)) = last - 1) := by
  have h18 : (2 : Nat) ^ 64 - 1 = 18446744073709551615 := by norm_num
  have hdue : ∀ sec, p.FooterDue next last sec →
      p.printSectionFooter next last =
        p.printBar ++ p.backend.printSectionFooterDirective sec ++ "\n" ++ p.printBar := by
    rintro sec ⟨hprev, hskip, ht, hd, hb, hnext⟩
    rw [h18] at hprev
    rcases hnext with rfl | ⟨a, rfl, hne⟩
    · simp [PrettyPrinterBase.printSectionFooter, hprev, hskip, ht, hd, hb]
    · simp [PrettyPrinterBase.printSectionFooter, hprev, hskip, ht, hd, hb, hne]
  have hnot : (¬ ∃ sec, p.FooterDue next last sec) → p.printSectionFooter next last = "" := by
    intro hno
    cases hprev : p.getContainerSection (wrap64 (last + (2 ^ 64 - 1))) with
    | none =>
      rw [h18] at hprev
      simp [PrettyPrinterBase.printSectionFooter, hprev]
    | some sec =>
      have hprev0 := hprev
      rw [h18] at hprev
      by_cases hskip : sec.name ∈ p.backend.skip_sects
      · simp [PrettyPrinterBase.printSectionFooter, hprev, hskip]
      by_cases ht : sec.name = p.backend.syn.SectionText
      · simp [PrettyPrinterBase.printSectionFooter, hprev, hskip, ht]
      by_cases hd : sec.name = p.backend.syn.SectionData
      · simp [PrettyPrinterBase.printSectionFooter, hprev, hskip, hd]
      by_cases hb : sec.name = p.backend.syn.SectionBSS
      · simp [PrettyPrinterBase.printSectionFooter, hprev, hskip, hb]
      cases next with
      | none => exact absurd ⟨sec, hprev0, hskip, ht, hd, hb, Or.inl rfl⟩ hno
      | some a =>
        by_cases hne : p.getContainerSection a = some sec
        · simp [PrettyPrinterBase.printSectionFooter, hprev, hskip, hne]
        · exact absurd ⟨sec, hprev0, hskip, ht, hd, hb, Or.inr ⟨a, rfl, hne⟩⟩ hno
  refine ⟨hdue, hnot, ?_, ?_⟩
  · constructor
    · intro hne
      by_contra hno
      exact hne (hnot hno)
    · rintro ⟨sec, hsec⟩
      rw [hdue sec hsec]
      exact append_ne_empty _ _ (printBar_ne_empty p)
  · intro h0 h1
    unfold wrap64
    omega

theorem printSectionFooter_iff_due_witness :
    (examplePrinter sectionsModule).printSectionFooter (some 0x60) 0x60 =
      "#===================================\n# end section .rodata\n" ++
      "#===================================\n" :=
  (printSectionFooter_iff_due (examplePrinter sectionsModule) (some 0x60) 0x60).1
    rodataSection
    ⟨by decide, by decide, by decide, by decide, by decide,
      Or.inr ⟨0x60, rfl, by decide⟩⟩

/-! ## C20: the registry of printer factories -/

theorem lookup_assign {F : Type} (m : Factories F) (key t : Target) (f : Option F) :
    (Factories.assign m key f).lookup t = if t = key then some f else m.lookup t := by
  induction m with
  | nil =>
    by_cases h : t = key
    · subst h; simp [Factories.assign, List.lookup]
    · have hb : (t == key) = false := by simpa using h
      simp [Factories.assign, List.lookup, h, hb]
  | cons e rest ih =>
    obtain ⟨k, v⟩ := e
    by_cases hk : k = key
    · subst hk
      by_cases h : t = k
      · subst h; simp [Factories.assign, List.lookup]
      · have hb : (t == k) = false := by simpa using h
        simp [Factories.assign, List.lookup, h, hb]
    · by_cases h : t = key
      · subst h
        have hb : (t == k) = false := by simpa using fun h' => hk h'.symm
        simp [Factories.assign, List.lookup, hk, hb, ih]
      · by_cases h2 : t = k
        · subst h2; simp [Factories.assign, List.lookup, hk]
        · have hb : (t == k) = false := by simpa using h2
          simp [Factories.assign, List.lookup, hk, hb, ih, h]

theorem mem_keys_assign {F : Type} (m : Factories F) (key t : Target) (f : Option F) :
    t ∈ (Factories.assign m key f).map Prod.fst ↔ t = key ∨ t ∈ m.map Prod.fst := by
  induction m with
  | nil => simp [Factories.assign]
  | cons e rest ih =>
    obtain ⟨k, v⟩ := e
    by_cases hk : k = key
    · subst hk; simp [Factories.assign]
    · simp only [Factories.assign, hk, if_false, List.map_cons, List.mem_cons, ih]
      constructor
      · rintro (h | h | h)
        · exact Or.inr (Or.inl h)
        · exact Or.inl h
        · exact Or.inr (Or.inr h)
      · rintro (h | h | h)
        · exact Or.inr (Or.inl h)
        · exact Or.inl h
        · exact Or.inr (Or.inr h)

/-- The inner loop of registerPrinter, over the syntaxes of one format. -/
theorem registerSyntaxes_spec {F : Type} (format : String) (f : Option F)
    (syntaxes : List String) : ∀ (m : Factories F) (t : Target),
      ((syntaxes.foldl (fun m1 syn => Factories.assign m1 (format, syn) f) m).lookup t =
        if t.1 = format ∧ t.2 ∈ syntaxes then some f else m.lookup t) ∧
      (t ∈ (syntaxes.foldl (fun m1 syn => Factories.assign m1 (format, syn) f) m).map
          Prod.fst ↔ (t.1 = format ∧ t.2 ∈ syntaxes) ∨ t ∈ m.map Prod.fst) := by
  induction syntaxes with
  | nil => intro m t; simp
  | cons s rest ih =>
    intro m t
    obtain ⟨h1, h2⟩ := ih (Factories.assign m (format, s) f) t
    simp only [List.foldl_cons, h1, h2, lookup_assign, mem_keys_assign, List.mem_cons]
    obtain ⟨t1, t2⟩ := t
    constructor
    · by_cases ha : t1 = format ∧ t2 ∈ rest
      · simp [ha]
      · by_cases hb : (t1, t2) = (format, s)
        · simp only [Prod.mk.injEq] at hb
          simp [hb]
        · have hb' : ¬ (t1 = format ∧ t2 = s) := by simpa using hb
          have hc : ¬ (t1 = format ∧ (t2 = s ∨ t2 ∈ rest)) := by
            rintro ⟨hf, hs | hs⟩
            · exact hb' ⟨hf, hs⟩
            · exact ha ⟨hf, hs⟩
          simp only [ha, if_false, hb, hc]
    · simp only [Prod.mk.injEq]
      tauto

/-- The outer loop of registerPrinter, over the formats. -/
theorem registerFormats_spec {F : Type} (f : Option F) (syntaxes : List String)
    (formats : List String) : ∀ (m : Factories F) (t : Target),
      ((formats.foldl (fun m0 format =>
          syntaxes.foldl (fun m1 syn => Factories.assign m1 (format, syn) f) m0) m).lookup t =
        if t.1 ∈ formats ∧ t.2 ∈ syntaxes then some f else m.lookup t) ∧
      (t ∈ (formats.foldl (fun m0 format =>
          syntaxes.foldl (fun m1 syn => Factories.assign m1 (format, syn) f) m0) m).map
          Prod.fst ↔ (t.1 ∈ formats ∧ t.2 ∈ syntaxes) ∨ t ∈ m.map Prod.fst) := by
  induction formats with
  | nil => intro m t; simp
  | cons fm rest ih =>
    intro m t
    obtain ⟨h1, h2⟩ := ih (syntaxes.foldl (fun m1 syn => Factories.assign m1 (fm, syn) f) m) t
    obtain ⟨g1, g2⟩ := registerSyntaxes_spec fm f syntaxes m t
    simp only [List.foldl_cons, h1, h2, g1, g2, List.mem_cons]
    constructor
    · by_cases ha : t.1 ∈ rest ∧ t.2 ∈ syntaxes
      · simp [ha]
      · by_cases hb : t.1 = fm ∧ t.2 ∈ syntaxes
        · simp [hb]
        · have hc : ¬ ((t.1 = fm ∨ t.1 ∈ rest) ∧ t.2 ∈ syntaxes) := by
            rintro ⟨hf | hf, hs⟩
            · exact hb ⟨hf, hs⟩
            · exact ha ⟨hf, hs⟩
          simp only [ha, hb, hc, if_false]
    · tauto

/-- Claim C20, as amended. After registerPrinter(formats, syntaxes, f) with non-empty
lists and a non-empty factory f, the call returns true, getRegisteredTargets() is the
previous target set united with formats × syntaxes, every pair in formats × syntaxes
maps to f (replacing any factory registered earlier for it), and the factory of every
other pair is unchanged. -/
theorem registerPrinter_spec {F : Type} (factories : Factories F)
    (formats syntaxes : List String) (f : F)
    (hformats : formats ≠ []) (hsyntaxes : syntaxes ≠ []) :
    ∃ after, registerPrinter factories formats syntaxes (some f) = some (after, true) ∧
      (∀ t, t ∈ getRegisteredTargets after ↔
        t ∈ getRegisteredTargets factories ∨ (t.1 ∈ formats ∧ t.2 ∈ syntaxes)) ∧
      (∀ t, t.1 ∈ formats → t.2 ∈ syntaxes → after.lookup t = some (some f)) ∧
      (∀ t, ¬ (t.1 ∈ formats ∧ t.2 ∈ syntaxes) → after.lookup t = factories.lookup t) := by
  have hf : formats.length ≠ 0 := fun h => hformats (List.length_eq_zero.mp h)
  have hs : syntaxes.length ≠ 0 := fun h => hsyntaxes (List.length_eq_zero.mp h)
  refine ⟨formats.foldl (fun m format =>
      syntaxes.foldl (fun m1 syn => Factories.assign m1 (format, syn) (some f)) m) factories,
    ?_, ?_, ?_, ?_⟩
  · simp only [registerPrinter, Option.isNone_some, Bool.false_eq_true, if_false, hf, hs]
  · intro t
    simp only [getRegisteredTargets, List.mem_dedup]
    rw [(registerFormats_spec (some f) syntaxes formats factories t).2]
    tauto
  · intro t h1 h2
    rw [(registerFormats_spec (some f) syntaxes formats factories t).1, if_pos ⟨h1, h2⟩]
  · intro t h
    rw [(registerFormats_spec (some f) syntaxes formats factories t).1, if_neg h]

theorem registerPrinter_spec_witness :
    ∃ after, registerPrinter [(("elf", "intel"), some 1), (("pe", "masm"), some 2)]
        ["elf"] ["intel", "att"] (some 3) = some (after, true) ∧
      (∀ t, t ∈ getRegisteredTargets after ↔
        t ∈ getRegisteredTargets [(("elf", "intel"), some 1), (("pe", "masm"), some 2)] ∨
          (t.1 ∈ ["elf"] ∧ t.2 ∈ ["intel", "att"])) ∧
      (∀ t, t.1 ∈ ["elf"] → t.2 ∈ ["intel", "att"] → after.lookup t = some (some 3)) ∧
      (∀ t, ¬ (t.1 ∈ ["elf"] ∧ t.2 ∈ ["intel", "att"]) →
        after.lookup t =
          List.lookup t [(("elf", "intel"), some 1), (("pe", "masm"), some 2)]) :=
  registerPrinter_spec [(("elf", "intel"), some 1), (("pe", "masm"), some 2)]
    ["elf"] ["intel", "att"] 3 (by decide) (by decide)

/-- Claim C20 fails as stated. With non-empty lists and an empty factory the first
assertion of registerPrinter fails: the call does not return, and nothing is
registered. -/
theorem registerPrinter_null_factory_counterexample :
    registerPrinter ([] : Factories Nat) ["elf"] ["intel"] none = none := by
  decide

/-! ## C18: section headers during a pass -/

/-- The two outcomes of a visit: an overlap warning with the cursor unchanged, or the
label, footer, header and body calls with the cursor moved to the end of the element. -/
theorem visitElement_cases (p : PrettyPrinterBase) (e : Element) (last : Addr)
    (calls : List Call) (last1 : Addr) (h : p.visitElement e last = some (calls, last1)) :
    (e.address < last ∧ last1 = last ∧
      calls = [Call.printOverlapWarning e.address (p.printOverlapWarning e.address)]) ∨
    (¬ e.address < last ∧ last1 = wrap64 (e.address + e.size) ∧ ∃ body,
      calls = (if e.address > last then
          [Call.printSymbolDefinitionsAtAddress last (p.printSymbolDefinitionsAtAddress last)]
        else []) ++
        [Call.printSectionFooter (some e.address) last
           (p.printSectionFooter (some e.address) last),
         Call.printSectionHeader e.address (p.printSectionHeader e.address),
         e.bodyCall body]) := by
  by_cases hlt : e.address < last
  · left
    rw [visitElement_overlap p e last hlt] at h
    simp only [Option.some.injEq, Prod.mk.injEq] at h
    exact ⟨hlt, h.2.symm, h.1.symm⟩
  · right
    refine ⟨hlt, ?_⟩
    cases e with
    | block b =>
      simp only [Element.address] at hlt
      simp only [PrettyPrinterBase.visitElement, PrettyPrinterBase.printBlockOrWarning, hlt,
        if_false] at h
      cases hb : p.printBlock b with
      | none => rw [hb] at h; cases h
      | some body =>
        rw [hb] at h
        simp only [Option.map_some', Option.some.injEq, Prod.mk.injEq] at h
        exact ⟨h.2.symm, body, h.1.symm⟩
    | dataObject d =>
      simp only [Element.address] at hlt
      simp only [PrettyPrinterBase.visitElement, PrettyPrinterBase.printDataObjectOrWarning,
        hlt, if_false] at h
      cases hb : p.printDataObject d with
      | none => rw [hb] at h; cases h
      | some body =>
        rw [hb] at h
        simp only [Option.map_some', Option.some.injEq, Prod.mk.injEq] at h
        exact ⟨h.2.symm, body, h.1.symm⟩

theorem headerAddr_bodyCall (e : Element) (body : String) :
    (e.bodyCall body).headerAddr = none := by
  cases e <;> rfl

/-- The header addresses among the calls of one visit: none for an overlap, and for a
printed element its own address when printSectionHeader wrote some text. -/
theorem visitElement_headers (p : PrettyPrinterBase) (e : Element) (last : Addr)
    (calls : List Call) (last1 : Addr) (h : p.visitElement e last = some (calls, last1)) :
    (e.address < last ∧ last1 = last ∧ calls.filterMap Call.headerAddr = []) ∨
    (¬ e.address < last ∧ last1 = wrap64 (e.address + e.size) ∧
      calls.filterMap Call.headerAddr =
        if p.printSectionHeader e.address = "" then [] else [e.address]) := by
  rcases visitElement_cases p e last calls last1 h with ⟨h1, h2, h3⟩ | ⟨h1, h2, body, h3⟩
  · left
    refine ⟨h1, h2, ?_⟩
    rw [h3]; rfl
  · right
    refine ⟨h1, h2, ?_⟩
    rw [h3]
    have hb := headerAddr_bodyCall e body
    have hd : (Call.printSymbolDefinitionsAtAddress last
        (p.printSymbolDefinitionsAtAddress last)).headerAddr = none := rfl
    have hf : (Call.printSectionFooter (some e.address) last
        (p.printSectionFooter (some e.address) last)).headerAddr = none := rfl
    have hh : ∀ (a : Addr) (t : String), (Call.printSectionHeader a t).headerAddr =
        if t = "" then none else some a := fun _ _ => rfl
    by_cases hgt : e.address > last
    · by_cases ht : p.printSectionHeader e.address = ""
      · simp [hgt, ht, hb, hd, hf, hh]
      · simp [hgt, ht, hb, hd, hf, hh]
    · by_cases ht : p.printSectionHeader e.address = ""
      · simp [hgt, ht, hb, hd, hf, hh]
      · simp [hgt, ht, hb, hd, hf, hh]

/-- Along a walk over elements of non-zero size that do not reach the end of the
address space, the section headers are written at strictly increasing addresses, each
at the address of the element visited. -/
theorem visitAll_headers (p : PrettyPrinterBase) (es : List Element) :
    ∀ (last : Addr) (vs : List Visit) (last1 : Addr),
      p.visitAll es last = some (vs, last1) →
      (∀ e ∈ es, 0 < e.size ∧ e.address + e.size < 2 ^ 64) →
      ((allCalls vs).filterMap Call.headerAddr).Pairwise (fun a b => a < b) ∧
      (∀ a ∈ (allCalls vs).filterMap Call.headerAddr, last ≤ a) ∧
      (∀ v ∈ vs, ∀ a ∈ v.calls.filterMap Call.headerAddr,
        a = v.element.address ∧ p.printSectionHeader a ≠ "") := by
  induction es with
  | nil =>
    intro last vs last1 h _
    simp only [PrettyPrinterBase.visitAll, Option.some.injEq, Prod.mk.injEq] at h
    rw [← h.1]
    simp [allCalls]
  | cons e es ih =>
    intro last vs last1 h hsz
    cases hv : p.visitElement e last with
    | none => simp [PrettyPrinterBase.visitAll, hv] at h
    | some r =>
      obtain ⟨calls, l1⟩ := r
      cases hr : p.visitAll es l1 with
      | none => simp [PrettyPrinterBase.visitAll, hv, hr] at h
      | some r2 =>
        obtain ⟨vs2, l2⟩ := r2
        simp only [PrettyPrinterBase.visitAll, hv, hr, Option.map_some', Option.some.injEq,
          Prod.mk.injEq] at h
        obtain ⟨hvs, _⟩ := h
        subst hvs
        obtain ⟨ihp, ihl, ihv⟩ := ih l1 vs2 l2 hr
          (fun x hx => hsz x (List.mem_cons_of_mem _ hx))
        obtain ⟨hpos, hnw⟩ := hsz e (List.mem_cons_self _ _)
        rw [allCalls_cons, List.filterMap_append]
        rcases visitElement_headers p e last calls l1 hv with
          ⟨_, hl1, hh⟩ | ⟨hnlt, hl1, hh⟩
        · subst hl1
          rw [hh, List.nil_append]
          refine ⟨ihp, ihl, ?_⟩
          intro v hvmem a ha
          rcases List.mem_cons.mp hvmem with rfl | hvmem
          · rw [hh] at ha; cases ha
          · exact ihv v hvmem a ha
        · have hl1' : l1 = e.address + e.size := by
            rw [hl1]; exact Nat.mod_eq_of_lt hnw
          have hle : last ≤ e.address := Nat.le_of_not_lt hnlt
          have hrest : ∀ a ∈ (allCalls vs2).filterMap Call.headerAddr, e.address < a := by
            intro a ha
            have := ihl a ha
            simp only [Addr] at *
            omega
          by_cases ht : p.printSectionHeader e.address = ""
          · rw [hh, if_pos ht, List.nil_append]
            refine ⟨ihp, ?_, ?_⟩
            · intro a ha
              exact Nat.le_trans hle (Nat.le_of_lt (hrest a ha))
            · intro v hvmem a ha
              rcases List.mem_cons.mp hvmem with rfl | hvmem
              · rw [hh, if_pos ht] at ha; cases ha
              · exact ihv v hvmem a ha
          · rw [hh, if_neg ht]
            refine ⟨?_, ?_, ?_⟩
            · exact List.Pairwise.cons hrest ihp
            · intro a ha
              rcases List.mem_cons.mp ha with rfl | ha
              · exact hle
              · exact Nat.le_trans hle (Nat.le_of_lt (hrest a ha))
            · intro v hvmem a ha
              rcases List.mem_cons.mp hvmem with rfl | hvmem
              · rw [hh, if_neg ht] at ha
                have hae : a = e.address := by simpa using ha
                subst hae
                exact ⟨rfl, ht⟩
              · exact ihv v hvmem a ha

/-- The size condition of the walk follows from pairwise distinct start addresses. -/
theorem passOrder_of_distinct (m : Module)
    (h : m.elements.Pairwise (fun a b => a.address ≠ b.address)) :
    (mergeOrder (sortBlocks m.blocks) m.data).Pairwise
      (fun a b => a.address = b.address → 0 < a.size) := by
  have hperm : (mergeOrder (sortBlocks m.blocks) m.data).Perm m.elements := by
    refine (mergeOrder_perm _ _).trans ?_
    exact List.Perm.append_right _ ((List.perm_insertionSort _ _).map _)
  have h2 := (hperm.pairwise_iff (fun h => Ne.symm h)).mpr h
  exact h2.imp fun hne heq => absurd heq hne

/-- A second way to two headers, by wrap-around. In `topOfSpaceModule` the first data
object starts at 0x10, the start of `.text`, and reaches the end of the 64-bit address
space, so the cursor after it is 0; the next data object at 0x10 is printed too, and the
header of `.text` is written for each of them. -/
theorem section_header_twice_by_wrap :
    (examplePrinter topOfSpaceModule).printPass =
      some ([⟨Element.dataObject ⟨1, 0x10, 2 ^ 64 - 0x10, []⟩,
              [Call.printSymbolDefinitionsAtAddress 0 "",
               Call.printSectionFooter (some 0x10) 0 "",
               Call.printSectionHeader 0x10
                 ("\n#===================================\n.text\n.align 16\n" ++
                  "#===================================\n\n"),
               Call.printDataObject ⟨1, 0x10, 2 ^ 64 - 0x10, []⟩
                 " .zero 18446744073709551600\n"]⟩,
             ⟨Element.dataObject ⟨2, 0x10, 4, []⟩,
              [Call.printSymbolDefinitionsAtAddress 0 "",
               Call.printSectionFooter (some 0x10) 0 "",
               Call.printSectionHeader 0x10
                 ("\n#===================================\n.text\n.align 16\n" ++
                  "#===================================\n\n"),
               Call.printDataObject ⟨2, 0x10, 4, []⟩ " .zero 4\n"]⟩],
            0x14) := by
  have h1 : (examplePrinter topOfSpaceModule).printDataObject ⟨1, 0x10, 2 ^ 64 - 0x10, []⟩ =
      some " .zero 18446744073709551600\n" := by
    rw [examplePrinter_printDataObject_zero topOfSpaceModule _ textSection
      (by decide) (by decide) (by decide) rfl]
    decide
  have h2 : (examplePrinter topOfSpaceModule).printDataObject ⟨2, 0x10, 4, []⟩ =
      some " .zero 4\n" := by
    rw [examplePrinter_printDataObject_zero topOfSpaceModule _ textSection
      (by decide) (by decide) (by decide) rfl]
    decide
  have hs : sortBlocks (examplePrinter topOfSpaceModule).module.blocks = [] := by decide
  rw [PrettyPrinterBase.printPass, hs, traverse_nil_left]
  show (examplePrinter topOfSpaceModule).visitAll
    [Element.dataObject ⟨1, 0x10, 2 ^ 64 - 0x10, []⟩, Element.dataObject ⟨2, 0x10, 4, []⟩] 0 = _
  simp only [PrettyPrinterBase.visitAll, PrettyPrinterBase.visitElement,
    PrettyPrinterBase.printDataObjectOrWarning, h1, h2]
  decide


/-! ## C24: the skip predicate and its consequences -/

theorem skipEA_eq_true_iff (p : PrettyPrinterBase) (x : Addr) :
    p.skipEA x = true ↔ (p.debug = false ∧ p.InSkippedLocation x) := by
  unfold PrettyPrinterBase.skipEA PrettyPrinterBase.isInSkippedSection
    PrettyPrinterBase.isInSkippedFunction PrettyPrinterBase.InSkippedLocation
  cases hd : p.debug <;> cases hs : p.getContainerSection x <;>
    cases hf : p.getContainerFunctionName x <;> simp

theorem skipEA_debug (p : PrettyPrinterBase) (hd : p.debug = true) (x : Addr) :
    p.skipEA x = false := by
  simp [PrettyPrinterBase.skipEA, hd]

theorem shouldExcludeDataElement_debug (p : PrettyPrinterBase) (hd : p.debug = true)
    (sect : Section) (d : DataObject) : p.shouldExcludeDataElement sect d ≠ some true := by
  unfold PrettyPrinterBase.shouldExcludeDataElement
  split
  · simp
  · split
    · rename_i Sym _
      cases Sym.address <;> simp [skipEA_debug p hd]
    · simp

/-- Claim C24. `skipEA x` holds iff the printer is not in debug mode and `x` lies in a
section named in the skip-section set or in a function (per `getContainerFunctionName`)
named in the skip-function set. In debug mode no address is skipped and no data object
is excluded; and `printBlock` and `printDataObject` write nothing for an element whose
address satisfies `skipEA`. -/
theorem skipEA_iff_and_consequences (p : PrettyPrinterBase) :
    (∀ x, p.skipEA x = true ↔ (p.debug = false ∧ p.InSkippedLocation x)) ∧
    (p.debug = true →
      (∀ x, p.skipEA x = false) ∧
      (∀ sect d, p.shouldExcludeDataElement sect d ≠ some true)) ∧
    (∀ b : Block, p.skipEA b.address = true → p.printBlock b = some "") ∧
    (∀ d : DataObject, p.skipEA d.address = true → p.printDataObject d = some "") := by
  refine ⟨skipEA_eq_true_iff p, fun hd => ⟨skipEA_debug p hd, shouldExcludeDataElement_debug p hd⟩,
    ?_, ?_⟩
  · intro b h
    simp [PrettyPrinterBase.printBlock, h]
  · intro d h
    simp [PrettyPrinterBase.printDataObject, h]

theorem skipEA_iff_and_consequences_witness :
    (examplePrinter initArrayModule).skipEA 0x60 = true ∧
    (examplePrinter initArrayModule).printBlock
      { uuid := 10, address := 0x60, size := 4, bytes := [0x90, 0x90, 0x90, 0x90] } = some "" ∧
    (examplePrinter initArrayModule).InSkippedLocation 0x60 ∧
    (∀ x, ({ examplePrinter initArrayModule with debug := true } : PrettyPrinterBase).skipEA x
      = false) :=
  have h : (examplePrinter initArrayModule).skipEA 0x60 = true := by
    rw [examplePrinter_skipEA]; decide
  ⟨h, (skipEA_iff_and_consequences _).2.2.1 _ h,
    (((skipEA_iff_and_consequences _).1 0x60).1 h).2,
    ((skipEA_iff_and_consequences _).2.1 rfl).1⟩

/-! ## C25: exclusion of pointers to skipped code -/

theorem shouldExcludeDataElement_true_iff (p : PrettyPrinterBase) (sect : Section)
    (d : DataObject) :
    p.shouldExcludeDataElement sect d = some true ↔
      sect.name ∈ p.backend.skip_data ∧
      ∃ off Sym a, p.module.findSymbolicExpression d.address =
          some (SymbolicExpression.SymAddrConst off Sym) ∧
        Sym.address = some a ∧ p.skipEA a = true := by
  unfold PrettyPrinterBase.shouldExcludeDataElement
  by_cases hs : sect.name ∈ p.backend.skip_data
  · simp only [hs, not_true_eq_false, if_false, true_and]
    cases hf : p.module.findSymbolicExpression d.address with
    | none => simp
    | some e =>
      cases e with
      | SymAddrConst off Sym =>
        cases ha : Sym.address with
        | none => simp [ha]
        | some v =>
          simp only [ha, Option.map_some', Option.some.injEq,
            SymbolicExpression.SymAddrConst.injEq]
          constructor
          · intro h; exact ⟨off, Sym, v, ⟨rfl, rfl⟩, ha, h⟩
          · rintro ⟨_, _, x, ⟨rfl, rfl⟩, hx, h⟩
            rw [ha] at hx; cases hx; exact h
      | SymAddrAddr s1 s2 => simp
  · simp [hs]

theorem shouldExcludeDataElement_none_iff (p : PrettyPrinterBase) (sect : Section)
    (d : DataObject) :
    p.shouldExcludeDataElement sect d = none ↔
      sect.name ∈ p.backend.skip_data ∧
      ∃ off Sym, p.module.findSymbolicExpression d.address =
          some (SymbolicExpression.SymAddrConst off Sym) ∧ Sym.address = none := by
  unfold PrettyPrinterBase.shouldExcludeDataElement
  by_cases hs : sect.name ∈ p.backend.skip_data
  · simp only [hs, not_true_eq_false, if_false, true_and]
    cases hf : p.module.findSymbolicExpression d.address with
    | none => simp
    | some e =>
      cases e with
      | SymAddrConst off Sym =>
        cases ha : Sym.address with
        | none => simpa [ha] using ⟨off, Sym, ⟨rfl, rfl⟩, ha⟩
        | some v =>
          simp only [ha, Option.map_some', Option.some.injEq,
            SymbolicExpression.SymAddrConst.injEq, false_iff, reduceCtorEq]
          rintro ⟨_, _, ⟨rfl, rfl⟩, hx⟩
          rw [ha] at hx; cases hx
      | SymAddrAddr s1 s2 => simp
  · simp [hs]

/-- Claim C25. `shouldExcludeDataElement` is not total: for the pointer at 0x78 of
`initArrayModule`, which lies in the skip-data section `.init_array` and whose symbolic
expression targets the symbol `external_hook` without an address, the routine reads the
address of the target without a check and has no result, and neither has
`printDataObject`. The pointer at 0x70, whose target lies in the skipped section `.plt`,
is excluded: `printDataObject` writes its label and not its body. -/
theorem shouldExcludeDataElement_target_without_address :
    (examplePrinter initArrayModule).shouldExcludeDataElement initArraySection
      { uuid := 21, address := 0x78, size := 8, bytes := [0, 0, 0, 0, 0, 0, 0, 0] } = none ∧
    (examplePrinter initArrayModule).printDataObject
      { uuid := 21, address := 0x78, size := 8, bytes := [0, 0, 0, 0, 0, 0, 0, 0] } = none ∧
    (examplePrinter initArrayModule).shouldExcludeDataElement initArraySection
      { uuid := 20, address := 0x70, size := 8, bytes := [0x60, 0, 0, 0, 0, 0, 0, 0] } =
        some true ∧
    (examplePrinter initArrayModule).printDataObject
      { uuid := 20, address := 0x70, size := 8, bytes := [0x60, 0, 0, 0, 0, 0, 0, 0] } =
        some "init_table:\n" := by
  have h1 : (examplePrinter initArrayModule).shouldExcludeDataElement initArraySection
      { uuid := 21, address := 0x78, size := 8, bytes := [0, 0, 0, 0, 0, 0, 0, 0] } = none := by
    decide
  have h2 : (examplePrinter initArrayModule).shouldExcludeDataElement initArraySection
      { uuid := 20, address := 0x70, size := 8, bytes := [0x60, 0, 0, 0, 0, 0, 0, 0] } =
        some true := by
    simp only [PrettyPrinterBase.shouldExcludeDataElement, examplePrinter_skipEA]
    decide
  refine ⟨h1, ?_, h2, ?_⟩
  · have hsec : (examplePrinter initArrayModule).getContainerSection 0x78 =
        some initArraySection := by decide
    simp only [PrettyPrinterBase.printDataObject, examplePrinter_skipEA, hsec, h1]
    decide
  · have hsec : (examplePrinter initArrayModule).getContainerSection 0x70 =
        some initArraySection := by decide
    simp only [PrettyPrinterBase.printDataObject, examplePrinter_skipEA, hsec, h2]
    decide

/-! ## C28: the reserved words of the legacy query class -/

/-- Claim C28. `DisasmData::AvoidRegNameConflicts` is not a duplicate of
`PrettyPrinterBase::AvoidRegNameConflicts`: the legacy routine returns the names `shr`
and `Si` unchanged, the printer renames them. -/
theorem legacy_AvoidRegNameConflicts_differs :
    DisasmData.AvoidRegNameConflicts "shr" = "shr" ∧
    AvoidRegNameConflicts "shr" = "shr_renamed" ∧
    DisasmData.AvoidRegNameConflicts "Si" = "Si" ∧
    AvoidRegNameConflicts "Si" = "Si_renamed" ∧
    DisasmData.AvoidRegNameConflicts "mod" = AvoidRegNameConflicts "mod" := by
  decide

/-! ## C30: a reference is spelled like the definition of its label -/

theorem printSymbolDefinitionsAtAddress_eq (p : PrettyPrinterBase) (ea : Addr) :
    p.printSymbolDefinitionsAtAddress ea =
      String.join ((p.module.findSymbolsAt ea).map fun s =>
        p.definitionLabel ea s ++ ":\n") := by
  unfold PrettyPrinterBase.printSymbolDefinitionsAtAddress PrettyPrinterBase.definitionLabel
  congr 1
  apply List.map_congr_left
  intro s _
  split <;> rfl

/-- Claim C30. For a symbol of the module that has the address `a`, is not a key of
`symbolForwarding` and does not lie in a skipped section or function,
`printSymbolDefinitionsAtAddress a` writes one line `label:` per symbol at `a`, this
symbol among them, and `printSymbolReference` writes for it exactly the label of its
line. -/
theorem reference_spelled_like_definition (p : PrettyPrinterBase) (symbol : Symbol)
    (a : Addr) (isAbsolute : Bool)
    (hmem : symbol ∈ p.module.symbols) (haddr : symbol.address = some a)
    (hkey : ∀ fwd, p.module.symbolForwarding = some fwd → ∀ e ∈ fwd, e.1 ≠ symbol.uuid)
    (hskip : ¬ p.InSkippedLocation a) :
    p.printSymbolDefinitionsAtAddress a =
      String.join ((p.module.findSymbolsAt a).map fun s => p.definitionLabel a s ++ ":\n") ∧
    symbol ∈ p.module.findSymbolsAt a ∧
    p.printSymbolReference symbol isAbsolute = some (p.definitionLabel a symbol) := by
  refine ⟨printSymbolDefinitionsAtAddress_eq p a, ?_, ?_⟩
  · simp [Module.findSymbolsAt, hmem, haddr]
  · have hs : p.skipEA a = false := by
      cases h : p.skipEA a with
      | false => rfl
      | true => exact absurd ((skipEA_eq_true_iff p a).1 h).2 hskip
    unfold PrettyPrinterBase.printSymbolReference PrettyPrinterBase.definitionLabel
    rw [getForwardedSymbolName_of_not_key p symbol isAbsolute hkey]
    simp only [haddr, hs]
    cases p.isAmbiguousSymbol symbol.name <;> rfl

theorem reference_spelled_like_definition_witness :
    (examplePrinter ambiguousModule).printSymbolDefinitionsAtAddress 0x30 = ".L_30:\n" ∧
    (examplePrinter ambiguousModule).printSymbolReference
      { uuid := 2, name := "foo", address := some 0x30 } false = some ".L_30" := by
  have h := reference_spelled_like_definition (examplePrinter ambiguousModule)
    { uuid := 2, name := "foo", address := some 0x30 } 0x30 false (by decide) rfl
    (by intro fwd hf; cases hf)
    (by
      intro hin
      have hs := (skipEA_eq_true_iff (examplePrinter ambiguousModule) 0x30).2 ⟨rfl, hin⟩
      rw [examplePrinter_skipEA] at hs
      revert hs
      decide)
  refine ⟨?_, ?_⟩
  · rw [h.1]; decide
  · rw [h.2.2]; decide

/-! ## C22: the symbolic expression handed to the operand printers -/

theorem findSymbolicExpression_eq_none_iff (m : Module) (a : Addr) :
    m.findSymbolicExpression a = none ↔ ∀ e ∈ m.symbolicExprs, e.1 ≠ a := by
  unfold Module.findSymbolicExpression
  rw [List.lookup_eq_none_iff]
  constructor
  · intro h e he heq
    have := h e he
    simp [heq] at this
  · intro h e he
    have := h e he
    simpa [bne_iff_ne] using fun h2 => this h2.symm

/-- Claim C22, counterexample. The module of `operandPrinter` has a symbolic expression
at 0x10; the memory operand of `movMemInsn` (at 0x10, displacement-field offset 0) is
handed to the backend without it. -/
theorem printOperand_memory_counterexample :
    operandPrinter.module.findSymbolicExpression
        (wrap64 (movMemInsn.address + movMemInsn.disp_offset)) =
      some (SymbolicExpression.SymAddrConst 0
        { uuid := 5, name := "foo", address := some 0x30 }) ∧
    operandPrinter.printOperand movMemInsn 1 = some "MEM:plain" := by
  decide

/-- Claim C22, amended. An immediate operand is handed the result of looking up the
address `ea + imm_offset`; a memory operand whose displacement-field offset is not
zero is handed the result of looking up `ea + disp_offset`; a memory operand whose
displacement-field offset is zero is handed no symbolic expression. The lookup finds
nothing exactly when the module has no symbolic expression at that address. -/
theorem printOperand_symbolic (p : PrettyPrinterBase) (inst : cs_insn) (index : Nat) :
    ((inst.operands.getD index ⟨x86_op_type.X86_OP_INVALID, 0⟩).type = x86_op_type.X86_OP_IMM →
      p.printOperand inst index = some (p.backend.printOpImmediate
        (p.module.findSymbolicExpression (wrap64 (inst.address + inst.imm_offset))) inst index)) ∧
    ((inst.operands.getD index ⟨x86_op_type.X86_OP_INVALID, 0⟩).type = x86_op_type.X86_OP_MEM →
      0 < inst.disp_offset →
      p.printOperand inst index = some (p.backend.printOpIndirect
        (p.module.findSymbolicExpression (wrap64 (inst.address + inst.disp_offset))) inst index)) ∧
    ((inst.operands.getD index ⟨x86_op_type.X86_OP_INVALID, 0⟩).type = x86_op_type.X86_OP_MEM →
      inst.disp_offset = 0 →
      p.printOperand inst index = some (p.backend.printOpIndirect none inst index)) ∧
    (∀ a, p.module.findSymbolicExpression a = none ↔ ∀ e ∈ p.module.symbolicExprs, e.1 ≠ a) := by
  refine ⟨?_, ?_, ?_, findSymbolicExpression_eq_none_iff p.module⟩
  · intro h
    simp only [PrettyPrinterBase.printOperand, h]
  · intro h hd
    simp only [PrettyPrinterBase.printOperand, h, gt_iff_lt, hd, if_true]
  · intro h hd
    simp only [PrettyPrinterBase.printOperand, h, hd, gt_iff_lt, lt_irrefl, if_false]

theorem printOperand_symbolic_witness :
    operandPrinter.printOperand movImmInsn 1 = some "IMM:symbolic" ∧
    operandPrinter.printOperand movDispInsn 1 = some "MEM:symbolic" ∧
    operandPrinter.printOperand movMemInsn 1 = some "MEM:plain" :=
  ⟨((printOperand_symbolic operandPrinter movImmInsn 1).1 rfl).trans (by decide),
   ((printOperand_symbolic operandPrinter movDispInsn 1).2.1 rfl (by decide)).trans (by decide),
   ((printOperand_symbolic operandPrinter movMemInsn 1).2.2.1 rfl rfl).trans (by decide)⟩

/-! ## C21: a no-op instruction is expanded into one-byte no-ops -/

theorem wrap64_succ (a k : Nat) : wrap64 (wrap64 (a + 1) + k) = wrap64 (a + (k + 1)) := by
  unfold wrap64
  omega

theorem printNopTail_eq (p : PrettyPrinterBase) (n : Nat) (ea : Addr) :
    p.printNopTail n ea =
      String.join ((List.range n).map fun k =>
        "\n" ++ p.printEA (wrap64 (ea + (k + 1))) ++ "  " ++ p.backend.syn.DirectiveNOP) := by
  induction n generalizing ea with
  | zero => rfl
  | succ n ih =>
    rw [PrettyPrinterBase.printNopTail, ih, List.range_succ_eq_map, List.map_cons,
      string_join_cons, List.map_map]
    congr 2
    apply List.map_congr_left
    intro k _
    simp only [Function.comp, wrap64_succ]

/-- Claim C21. A decoded no-op of size `n ≥ 1` at address `a` is printed, after the
labels, comments and call-frame directives of the instruction, as exactly `n` no-op
mnemonics without operand list, one per line; the `k`-th (`k = 0 .. n-1`) follows the
address annotation `printEA` of `a + k` (in 64-bit arithmetic). -/
theorem printInstruction_nop (p : PrettyPrinterBase) (inst : cs_insn) (offset : Offset)
    (hid : inst.id = x86_insn.X86_INS_NOP) (hsize : 1 ≤ inst.size)
    (haddr : inst.address < 2 ^ 64) :
    p.printInstruction inst offset =
      (p.printCFIDirectives offset).map fun cfi =>
        p.printSymbolDefinitionsAtAddress inst.address ++
          p.printComments offset inst.size ++ cfi ++
          String.join ((List.range inst.size).map fun k =>
            (if k = 0 then "" else "\n") ++ p.printEA (wrap64 (inst.address + k)) ++ "  " ++
              p.backend.syn.DirectiveNOP) := by
  obtain ⟨m, hm⟩ : ∃ m, inst.size = m + 1 := ⟨inst.size - 1, by omega⟩
  have hw : wrap64 (inst.address + 0) = inst.address := by
    simp only [wrap64, Nat.add_zero]
    exact Nat.mod_eq_of_lt haddr
  unfold PrettyPrinterBase.printInstruction
  cases hc : p.printCFIDirectives offset with
  | none => rfl
  | some cfi =>
    simp only [hid, if_true, Option.map_some', hm, Nat.add_sub_cancel, printNopTail_eq,
      List.range_succ_eq_map, List.map_cons, string_join_cons, List.map_map, hw]
    simp only [String.append_assoc, if_true, String.empty_append]
    congr 8

theorem printInstruction_nop_witness :
    debugPrinter.printInstruction (nopInsn 0x10 3) ⟨1, 0⟩ =
      some ("# entry\n#+2: middle\n.cfi_startproc \n" ++
        "          10:   nop\n          11:   nop\n          12:   nop") ∧
    operandPrinter.printInstruction (nopInsn 0x10 3) ⟨1, 0⟩ =
      some (".cfi_startproc \n" ++ "            nop\n            nop\n            nop") :=
  ⟨(printInstruction_nop debugPrinter (nopInsn 0x10 3) ⟨1, 0⟩ rfl (by decide)
      (by decide)).trans (by decide),
   (printInstruction_nop operandPrinter (nopInsn 0x10 3) ⟨1, 0⟩ rfl (by decide)
      (by decide)).trans (by decide)⟩

/-! ## C23: the operand list -/

theorem concatOpt_of_isSome {α : Type} (l : List α) (g : α → Option String)
    (h : ∀ i ∈ l, (g i).isSome) :
    concatOpt (l.map g) = some (String.join (l.map fun i => (g i).getD "")) := by
  induction l with
  | nil => rfl
  | cons a l ih =>
    have ha := h a (List.mem_cons_self _ _)
    obtain ⟨t, ht⟩ := Option.isSome_iff_exists.1 ha
    have ih2 := ih fun i hi => h i (List.mem_cons_of_mem _ hi)
    simp only [List.map_cons, concatOpt, ht, ih2, Option.map_some', Option.getD_some,
      string_join_cons]

theorem concatOpt_of_none {α : Type} (l : List α) (g : α → Option String)
    (h : ∃ i ∈ l, g i = none) : concatOpt (l.map g) = none := by
  induction l with
  | nil => obtain ⟨i, hi, _⟩ := h; cases hi
  | cons a l ih =>
    cases ha : g a with
    | none => simp only [List.map_cons, concatOpt, ha]
    | some t =>
      obtain ⟨i, hi, hn⟩ := h
      rcases List.mem_cons.1 hi with rfl | hi2
      · rw [ha] at hn; cases hn
      · simp only [List.map_cons, concatOpt, ha, ih ⟨i, hi2, hn⟩, Option.map_none']

theorem commaJoin_cons (x : String) (xs : List String) :
    commaJoin (x :: xs) = x ++ String.join (xs.map fun t => "," ++ t) := by
  induction xs generalizing x with
  | nil => simp [commaJoin, String.join]
  | cons y ys ih =>
    rw [commaJoin, ih, List.map_cons, string_join_cons]
    simp only [String.append_assoc]

theorem operand_loop_eq_commaJoin (n : Nat) (f : Nat → Option String)
    (h : ∀ i < n, (f i).isSome) :
    concatOpt ((List.range n).map fun i =>
        (f i).map fun t => (if i ≠ 0 then "," else "") ++ t) =
      some (commaJoin ((List.range n).map fun i => (f i).getD "")) := by
  rw [concatOpt_of_isSome]
  · congr 1
    cases n with
    | zero => rfl
    | succ n =>
      rw [List.range_succ_eq_map, List.map_cons, List.map_cons, commaJoin_cons,
        string_join_cons, List.map_map, List.map_map, List.map_map]
      obtain ⟨t0, h0⟩ := Option.isSome_iff_exists.1 (h 0 (Nat.succ_pos n))
      simp only [h0, Option.map_some', Option.getD_some, ne_eq, not_true_eq_false, if_false,
        String.empty_append]
      congr 2
      apply List.map_congr_left
      intro k hk
      obtain ⟨t, ht⟩ := Option.isSome_iff_exists.1
        (h (k + 1) (Nat.succ_lt_succ (List.mem_range.1 hk)))
      simp [Function.comp, ht]
  · intro i hi
    obtain ⟨t, ht⟩ := Option.isSome_iff_exists.1 (h i (List.mem_range.1 hi))
    simp [ht]

/-- Claim C23, counterexample. The instruction `ret` is not of the implicit-operand
family, and `printOperandList` prints no operand at all for it: its `op_count` is 0. -/
theorem printOperandList_counterexample :
    ¬ retInsn.ImplicitOperands ∧ retInsn.op_count = 0 ∧
    operandPrinter.printOperandList retInsn = some "" := by
  decide

/-- Claim C23, amended. When the instruction identifier is one of `MOVSB`, `MOVSW`, `MOVSD`,
`MOVSQ` and the decoded instruction is not of the SSE2 group, `printOperandList` prints
no operand at all, whatever its `op_count`. In every other case it prints all `op_count`
operands in order, separated by single commas (none when `op_count` is 0), and aborts
when one of them is invalid. -/
theorem printOperandList_spec (p : PrettyPrinterBase) (inst : cs_insn) :
    (inst.ImplicitOperands → p.printOperandList inst = some "") ∧
    (¬ inst.ImplicitOperands → (∀ i < inst.op_count, (p.printOperand inst i).isSome) →
      p.printOperandList inst =
        some (commaJoin ((List.range inst.op_count).map fun i =>
          (p.printOperand inst i).getD ""))) ∧
    (¬ inst.ImplicitOperands → (∃ i < inst.op_count, p.printOperand inst i = none) →
      p.printOperandList inst = none) := by
  refine ⟨?_, ?_, ?_⟩
  · intro h
    unfold cs_insn.ImplicitOperands at h
    unfold PrettyPrinterBase.printOperandList
    rw [if_pos h]
    rfl
  · intro h hall
    unfold cs_insn.ImplicitOperands at h
    unfold PrettyPrinterBase.printOperandList
    rw [if_neg h]
    exact operand_loop_eq_commaJoin inst.op_count (p.printOperand inst) hall
  · rintro h ⟨i, hi, hn⟩
    unfold cs_insn.ImplicitOperands at h
    unfold PrettyPrinterBase.printOperandList
    rw [if_neg h]
    apply concatOpt_of_none
    exact ⟨i, List.mem_range.2 hi, by simp [hn]⟩

theorem printOperandList_spec_witness :
    operandPrinter.printOperandList movsbInsn = some "" ∧
    operandPrinter.printOperandList movsdSse2Insn = some "r123,r124" ∧
    operandPrinter.printOperandList movDispInsn = some "r35,MEM:symbolic" ∧
    operandPrinter.printOperandList retInsn = some "" ∧
    operandPrinter.printOperandList
      { movDispInsn with operands := [⟨x86_op_type.X86_OP_REG, 35⟩] } = none :=
  ⟨(printOperandList_spec operandPrinter movsbInsn).1 (by decide),
   ((printOperandList_spec operandPrinter movsdSse2Insn).2.1 (by decide)
      (by decide)).trans (by decide),
   ((printOperandList_spec operandPrinter movDispInsn).2.1 (by decide)
      (by decide)).trans (by decide),
   ((printOperandList_spec operandPrinter retInsn).2.1 (by decide)
      (by decide)).trans (by decide),
   (printOperandList_spec operandPrinter _).2.2 (by decide) ⟨1, by decide, by decide⟩⟩

/-! ## C26: the comments of an element -/

theorem dropWhile_eq_filter_of_sorted {α : Type} (R : α → α → Prop) (P : α → Bool)
    (l : List α) (hs : l.Pairwise R) (hP : ∀ a b, R a b → P b = true → P a = true) :
    l.dropWhile P = l.filter fun a => !P a := by
  induction l with
  | nil => rfl
  | cons a l ih =>
    rw [List.pairwise_cons] at hs
    cases ha : P a with
    | true =>
      rw [List.dropWhile_cons_of_pos ha, ih hs.2, List.filter_cons_of_neg (by simp [ha])]
    | false =>
      rw [List.dropWhile_cons_of_neg (by simp [ha]), List.filter_cons_of_pos (by simp [ha])]
      congr 1
      symm
      rw [List.filter_eq_self]
      intro b hb
      cases hb2 : P b with
      | false => rfl
      | true => rw [hP a b (hs.1 b hb) hb2] at ha; cases ha

theorem takeWhile_eq_filter_of_sorted {α : Type} (R : α → α → Prop) (Q : α → Bool)
    (l : List α) (hs : l.Pairwise R) (hQ : ∀ a b, R a b → Q b = true → Q a = true) :
    l.takeWhile Q = l.filter Q := by
  induction l with
  | nil => rfl
  | cons a l ih =>
    rw [List.pairwise_cons] at hs
    cases ha : Q a with
    | true =>
      rw [List.takeWhile_cons_of_pos ha, ih hs.2, List.filter_cons_of_pos ha]
    | false =>
      rw [List.takeWhile_cons_of_neg (by simp [ha]), List.filter_cons_of_neg (by simp [ha])]
      symm
      rw [List.filter_eq_nil_iff]
      intro b hb hb2
      rw [hQ a b (hs.1 b hb) hb2] at ha; cases ha

theorem Offset.lt_trans (a b c : Offset) (h1 : a.lt b = true) (h2 : b.lt c = true) :
    a.lt c = true := by
  simp only [Offset.lt, Bool.or_eq_true, Bool.and_eq_true, decide_eq_true_eq, UUID] at *
  omega

theorem Offset.window_iff (k offset : Offset) (e : Nat) :
    ((!k.lt offset) && k.lt ⟨offset.ElementId, e⟩) = true ↔
      (k.ElementId = offset.ElementId ∧ offset.Displacement ≤ k.Displacement ∧
        k.Displacement < e) := by
  simp only [Offset.lt, Bool.and_eq_true, Bool.not_eq_true', Bool.or_eq_false_iff,
    Bool.and_eq_false_iff, Bool.or_eq_true, decide_eq_true_eq, decide_eq_false_iff_not, UUID]
  omega

theorem comments_window_eq_filter (comments : List (Offset × String)) (offset : Offset)
    (e : Nat) (hs : comments.Pairwise fun a b => a.1.lt b.1 = true) :
    (comments.dropWhile fun c => c.1.lt offset).takeWhile
        (fun c => c.1.lt ⟨offset.ElementId, e⟩) =
      comments.filter fun c =>
        decide (c.1.ElementId = offset.ElementId ∧ offset.Displacement ≤ c.1.Displacement ∧
          c.1.Displacement < e) := by
  rw [dropWhile_eq_filter_of_sorted (fun a b : Offset × String => a.1.lt b.1 = true) _ _ hs
    (fun a b hab hb => Offset.lt_trans _ _ _ hab hb)]
  rw [takeWhile_eq_filter_of_sorted (fun a b : Offset × String => a.1.lt b.1 = true) _ _
    (hs.filter _) (fun a b hab hb => Offset.lt_trans _ _ _ hab hb)]
  rw [List.filter_filter]
  apply List.filter_congr
  intro c _
  rw [Bool.and_comm]
  rw [Bool.eq_iff_iff, Offset.window_iff]
  simp

/-- Claim C26, counterexample. In debug mode, with a comment keyed at
`(1, 2^64 - 1)`, the call `printComments (1, 2^64 - 1) 2` writes nothing, although the
key has the element id of the offset and its displacement lies in
`[2^64 - 1, 2^64 - 1 + 2)`: the end of the window is computed in 64-bit arithmetic and
wraps to 1. -/
theorem printComments_wrap_counterexample :
    topCommentPrinter.debug = true ∧
    topCommentPrinter.module.comments = some [(⟨1, 2 ^ 64 - 1⟩, "top")] ∧
    (2 ^ 64 - 1 ≤ 2 ^ 64 - 1 ∧ 2 ^ 64 - 1 < 2 ^ 64 - 1 + 2) ∧
    topCommentPrinter.printComments ⟨1, 2 ^ 64 - 1⟩ 2 = "" := by
  decide

/-- Claim C26, amended. Outside debug mode, and without a comment table, `printComments
offset range` writes nothing. In debug mode, over a comment table in key order, it writes
exactly the comments whose key has the element id of `offset` and a displacement in
`[offset.Displacement, (offset.Displacement + range) mod 2^64)`, in the order of the
table, which is increasing displacement; each one is prefixed with `+<d>:`, `d` the
displacement minus `offset.Displacement`, iff `d > 0`. No comment of another element is
written. The window is the interval `[offset.Displacement, offset.Displacement + range)`
whenever the sum fits 64 bits. -/
theorem printComments_spec (p : PrettyPrinterBase) (offset : Offset) (range : Nat) :
    (p.debug = false → p.printComments offset range = "") ∧
    (p.module.comments = none → p.printComments offset range = "") ∧
    (p.debug = true → ∀ comments, p.module.comments = some comments →
      (comments.Pairwise fun a b => a.1.lt b.1 = true) →
      p.printComments offset range =
        String.join ((comments.filter fun c =>
            decide (c.1.ElementId = offset.ElementId ∧
              offset.Displacement ≤ c.1.Displacement ∧
              c.1.Displacement < wrap64 (offset.Displacement + range))).map fun c =>
          p.backend.syn.Comment ++
            (if 0 < c.1.Displacement - offset.Displacement then
               "+" ++ dec (c.1.Displacement - offset.Displacement) ++ ":"
             else "") ++ " " ++ c.2 ++ "\n") ∧
      (comments.filter fun c =>
          decide (c.1.ElementId = offset.ElementId ∧
            offset.Displacement ≤ c.1.Displacement ∧
            c.1.Displacement < wrap64 (offset.Displacement + range))).Pairwise
        fun a b => a.1.Displacement < b.1.Displacement) ∧
    (p.debug = true → offset.Displacement + range < 2 ^ 64 →
      ∀ comments, p.module.comments = some comments →
      (comments.Pairwise fun a b => a.1.lt b.1 = true) →
      p.printComments offset range =
        String.join ((comments.filter fun c =>
            decide (c.1.ElementId = offset.ElementId ∧
              offset.Displacement ≤ c.1.Displacement ∧
              c.1.Displacement < offset.Displacement + range)).map fun c =>
          p.backend.syn.Comment ++
            (if 0 < c.1.Displacement - offset.Displacement then
               "+" ++ dec (c.1.Displacement - offset.Displacement) ++ ":"
             else "") ++ " " ++ c.2 ++ "\n")) := by
  have h3 : p.debug = true → ∀ comments, p.module.comments = some comments →
      (comments.Pairwise fun a b => a.1.lt b.1 = true) →
      p.printComments offset range =
        String.join ((comments.filter fun c =>
            decide (c.1.ElementId = offset.ElementId ∧
              offset.Displacement ≤ c.1.Displacement ∧
              c.1.Displacement < wrap64 (offset.Displacement + range))).map fun c =>
          p.backend.syn.Comment ++
            (if 0 < c.1.Displacement - offset.Displacement then
               "+" ++ dec (c.1.Displacement - offset.Displacement) ++ ":"
             else "") ++ " " ++ c.2 ++ "\n") ∧
      (comments.filter fun c =>
          decide (c.1.ElementId = offset.ElementId ∧
            offset.Displacement ≤ c.1.Displacement ∧
            c.1.Displacement < wrap64 (offset.Displacement + range))).Pairwise
        fun a b => a.1.Displacement < b.1.Displacement := ?_
  refine ⟨?_, ?_, h3, ?_⟩
  · intro hd
    simp [PrettyPrinterBase.printComments, hd]
  · intro hn
    simp [PrettyPrinterBase.printComments, hn]
  · intro hd hfit comments hc hs
    have hw : wrap64 (offset.Displacement + range) = offset.Displacement + range :=
      Nat.mod_eq_of_lt hfit
    have := (h3 hd comments hc hs).1
    rw [hw] at this
    exact this
  · intro hd comments hc hs
    constructor
    · simp only [PrettyPrinterBase.printComments, hd, hc, Bool.not_true, Bool.false_eq_true,
        if_false, comments_window_eq_filter comments offset _ hs]
      congr 1
      apply List.map_congr_left
      intro c _
      simp only [gt_iff_lt, Nat.sub_pos_iff_lt]
    · apply List.Pairwise.imp_of_mem _ (hs.filter _)
      intro a b ha hb hab
      have ha2 := (List.mem_filter.1 ha).2
      have hb2 := (List.mem_filter.1 hb).2
      simp only [decide_eq_true_eq] at ha2 hb2
      obtain ⟨ha3, _, _⟩ := ha2
      obtain ⟨hb3, _, _⟩ := hb2
      simp only [Offset.lt, Bool.or_eq_true, Bool.and_eq_true, decide_eq_true_eq,
        ha3, hb3, lt_irrefl, false_or, true_and] at hab
      exact hab

theorem printComments_spec_witness :
    debugPrinter.printComments ⟨1, 1⟩ 4 = "#+1: middle\n#+3: past the end\n" ∧
    debugPrinter.printComments ⟨1, 0⟩ 4 = "# entry\n#+2: middle\n" ∧
    topCommentPrinter.printComments ⟨1, 2 ^ 64 - 1⟩ 2 = "" ∧
    operandPrinter.printComments ⟨1, 1⟩ 4 = "" :=
  ⟨(((printComments_spec debugPrinter ⟨1, 1⟩ 4).2.2.1 rfl _ rfl (by decide)).1).trans
      (by decide),
   ((printComments_spec debugPrinter ⟨1, 0⟩ 4).2.2.2 rfl (by decide) _ rfl
      (by decide)).trans (by decide),
   (((printComments_spec topCommentPrinter ⟨1, 2 ^ 64 - 1⟩ 2).2.2.1 rfl _ rfl
      (by decide)).1).trans (by decide),
   (printComments_spec operandPrinter ⟨1, 1⟩ 4).1 rfl⟩

/-! ## C27: the offsets at which call-frame directives are looked up -/

theorem operandPrinter_skipEA (x : Addr) :
    operandPrinter.skipEA x = operandPrinter.isInSkippedSection x := by
  rw [skipEA_of_nil _ _ rfl]; rfl

theorem printInstructions_offsets (p : PrettyPrinterBase) (uuid : UUID) (base : Nat)
    (insns : List cs_insn) (d : Nat) (hc : ContiguousFrom insns (base + d))
    (hb : d + (insns.map cs_insn.size).sum < 2 ^ 64) :
    p.printInstructions insns ⟨uuid, d⟩ =
      concatOpt ((insns.map fun i =>
          (p.printInstruction i ⟨uuid, i.address - base⟩).map fun t => t ++ "\n") ++
        [p.printCFIDirectives ⟨uuid, d + (insns.map cs_insn.size).sum⟩]) := by
  induction insns generalizing d with
  | nil =>
    simp only [PrettyPrinterBase.printInstructions, List.map_nil, List.sum_nil, Nat.add_zero,
      List.nil_append, concatOpt]
    cases p.printCFIDirectives ⟨uuid, d⟩ <;> simp
  | cons i rest ih =>
    obtain ⟨hi, hrest⟩ := hc
    simp only [List.map_cons, List.sum_cons] at hb
    have hw : wrap64 (d + i.size) = d + i.size := by
      unfold wrap64; exact Nat.mod_eq_of_lt (by omega)
    have hoff : i.address - base = d := by omega
    have ih2 := ih (d + i.size) (by rw [← Nat.add_assoc]; exact hrest) (by omega)
    simp only [PrettyPrinterBase.printInstructions, hw, ih2, List.map_cons, List.sum_cons,
      List.cons_append, concatOpt, hoff, Nat.add_assoc]
    cases p.printInstruction i ⟨uuid, d⟩ <;> simp

/-- Claim C27, counterexample. The block of `operandModule` is not skipped and has four
bytes; with the bytes `90 90 06 90` the decoder stops at the third one, and `printBlock`
looks up the final call-frame directives at displacement 2: the directive
`.cfi_endproc` keyed at `(block id, block size)` is not printed. -/
theorem printBlock_cfi_counterexample :
    operandPrinter.skipEA 0x10 = false ∧
    operandPrinter.printCFIDirectives ⟨1, 4⟩ = some ".cfi_endproc \n" ∧
    operandPrinter.printBlock ⟨1, 0x10, 4, [0x90, 0x90, 0x06, 0x90]⟩ =
      some "\n.cfi_startproc \n            nop\n            nop\n" := by
  refine ⟨by rw [operandPrinter_skipEA]; decide, by decide, ?_⟩
  simp only [PrettyPrinterBase.printBlock, operandPrinter_skipEA]
  decide

/-- Claim C27, amended. For a block that is not skipped and whose decoded instructions
lie back to back from the address of the block, `printBlock` prints each instruction
with the running offset `(block id, instruction address - block address)`, at which
`printInstruction` looks up the call-frame directives of the instruction, and after the
last instruction it prints the call-frame directives keyed at the block id and the
total size of the decoded instructions; this is `(block id, block size)` when the
decoded instructions cover the block. -/
theorem printBlock_cfi_offsets (p : PrettyPrinterBase) (x : Block)
    (hskip : p.skipEA x.address = false)
    (hcontig : ContiguousFrom (p.backend.cs_disasm x.bytes x.address) x.address)
    (hsum : ((p.backend.cs_disasm x.bytes x.address).map cs_insn.size).sum < 2 ^ 64) :
    p.printBlock x =
      (concatOpt (((p.backend.cs_disasm x.bytes x.address).map fun i =>
          (p.printInstruction i ⟨x.uuid, i.address - x.address⟩).map fun t => t ++ "\n") ++
        [p.printCFIDirectives
          ⟨x.uuid, ((p.backend.cs_disasm x.bytes x.address).map cs_insn.size).sum⟩])).map
        (fun r => p.backend.printFunctionHeader x.address ++ "\n" ++ r) ∧
    (((p.backend.cs_disasm x.bytes x.address).map cs_insn.size).sum = x.size →
      p.printBlock x =
        (concatOpt (((p.backend.cs_disasm x.bytes x.address).map fun i =>
            (p.printInstruction i ⟨x.uuid, i.address - x.address⟩).map fun t => t ++ "\n") ++
          [p.printCFIDirectives ⟨x.uuid, x.size⟩])).map
          (fun r => p.backend.printFunctionHeader x.address ++ "\n" ++ r)) := by
  have h := printInstructions_offsets p x.uuid x.address
    (p.backend.cs_disasm x.bytes x.address) 0 hcontig (by omega)
  rw [Nat.zero_add] at h
  constructor
  · simp only [PrettyPrinterBase.printBlock, hskip, Bool.false_eq_true, if_false, h]
  · intro hcover
    rw [hcover] at h
    simp only [PrettyPrinterBase.printBlock, hskip, Bool.false_eq_true, if_false, h]

theorem printBlock_cfi_offsets_witness :
    operandPrinter.printBlock ⟨1, 0x10, 4, [0x90, 0x90, 0x90, 0x90]⟩ =
      some ("\n.cfi_startproc \n            nop\n            nop\n            nop\n" ++
        "            nop\n.cfi_endproc \n") :=
  ((printBlock_cfi_offsets operandPrinter ⟨1, 0x10, 4, [0x90, 0x90, 0x90, 0x90]⟩
    (by rw [operandPrinter_skipEA]; decide) (by decide) (by decide)).2 (by decide)).trans
    (by decide)

/-! ## C29: the elements handed over do not overlap -/

/-- The body calls and the cursor values of one visit. -/
theorem visitElement_handed (p : PrettyPrinterBase) (e : Element) (last : Addr)
    (calls : List Call) (last1 : Addr) (h : p.visitElement e last = some (calls, last1)) :
    (e.address < last ∧ last1 = last ∧ calls.filterMap Call.handed = [] ∧
      calls.filterMap Call.cursor = []) ∨
    (¬ e.address < last ∧ last1 = wrap64 (e.address + e.size) ∧
      calls.filterMap Call.handed = [e] ∧ calls.filterMap Call.cursor = [last]) := by
  rcases visitElement_cases p e last calls last1 h with ⟨hlt, hl, hc⟩ | ⟨hlt, hl, body, hc⟩
  · left
    refine ⟨hlt, hl, ?_, ?_⟩ <;> rw [hc] <;> rfl
  · right
    refine ⟨hlt, hl, ?_, ?_⟩
    · rw [hc]
      cases e <;> split <;> rfl
    · rw [hc]
      cases e <;> split <;> rfl

/-- Along a walk over elements that do not reach the end of the address space, in
whatever order: each element handed over starts at or after the end of every element
handed over before it and at or after the initial cursor, and the cursor never
decreases. -/
theorem visitAll_handed (p : PrettyPrinterBase) (es : List Element) :
    ∀ (last : Addr) (vs : List Visit) (last1 : Addr),
      p.visitAll es last = some (vs, last1) →
      (∀ e ∈ es, e.address + e.size < 2 ^ 64) →
      (handedElements vs).Pairwise (fun a b => a.address + a.size ≤ b.address) ∧
      (∀ e ∈ handedElements vs, last ≤ e.address ∧ e.address + e.size ≤ last1) ∧
      ((allCalls vs).filterMap Call.cursor).Pairwise (fun a b => a ≤ b) ∧
      (∀ c ∈ (allCalls vs).filterMap Call.cursor, last ≤ c ∧ c ≤ last1) ∧
      last ≤ last1 := by
  induction es with
  | nil =>
    intro last vs last1 h _
    simp only [PrettyPrinterBase.visitAll, Option.some.injEq, Prod.mk.injEq] at h
    obtain ⟨h1, h2⟩ := h
    subst h1; subst h2
    simp [handedElements, allCalls]
  | cons e es ih =>
    intro last vs last1 h hsz
    cases hv : p.visitElement e last with
    | none => simp [PrettyPrinterBase.visitAll, hv] at h
    | some r =>
      obtain ⟨calls, l1⟩ := r
      cases hr : p.visitAll es l1 with
      | none => simp [PrettyPrinterBase.visitAll, hv, hr] at h
      | some r2 =>
        obtain ⟨vs2, l2⟩ := r2
        simp only [PrettyPrinterBase.visitAll, hv, hr, Option.map_some', Option.some.injEq,
          Prod.mk.injEq] at h
        obtain ⟨hvs, hl2⟩ := h
        subst hvs; subst hl2
        obtain ⟨ihp, ihh, ihc, ihcb, ihl⟩ := ih l1 vs2 l2 hr
          (fun x hx => hsz x (List.mem_cons_of_mem _ hx))
        have hnw := hsz e (List.mem_cons_self _ _)
        rw [handedElements_cons, allCalls_cons, List.filterMap_append]
        rcases visitElement_handed p e last calls l1 hv with
          ⟨_, hl1, hh, hcur⟩ | ⟨hnlt, hl1, hh, hcur⟩
        · subst hl1
          rw [hh, hcur, List.nil_append, List.nil_append]
          exact ⟨ihp, ihh, ihc, ihcb, ihl⟩
        · have hl1' : l1 = e.address + e.size := by
            rw [hl1]; exact Nat.mod_eq_of_lt hnw
          have hle : last ≤ e.address := Nat.le_of_not_lt hnlt
          rw [hh, hcur]
          simp only [List.singleton_append, List.pairwise_cons, List.mem_cons, forall_eq_or_imp]
          simp only [Addr] at *
          refine ⟨⟨?_, ihp⟩, ⟨⟨hle, by omega⟩, ?_⟩, ⟨?_, ihc⟩, ⟨⟨le_refl _, by omega⟩, ?_⟩,
            by omega⟩
          · intro x hx
            have := (ihh x hx).1
            omega
          · intro x hx
            have := ihh x hx
            omega
          · intro c hc
            have := (ihcb c hc).1
            omega
          · intro c hc
            have := ihcb c hc
            omega

/-- Claim C29. For every sequence of blocks and every sequence of data objects, in
whatever order and overlapping or not, none of which reaches the end of the 64-bit
address space: each element whose body is handed to `printBlock` or `printDataObject`
starts at or after `address + size` of every element handed over before it, so the
elements handed over are pairwise disjoint; and the values of the cursor, from the
initial one over those passed to the calls to the final one, never decrease. -/
theorem handed_elements_never_overlap (p : PrettyPrinterBase) (blocks : List Block)
    (data : List DataObject) (last : Addr) (vs : List Visit) (last1 : Addr)
    (hb : ∀ b ∈ blocks, b.address + b.size < 2 ^ 64)
    (hd : ∀ d ∈ data, d.address + d.size < 2 ^ 64)
    (h : p.traverse blocks data last = some (vs, last1)) :
    (handedElements vs).Pairwise (fun a b => a.address + a.size ≤ b.address) ∧
    (handedElements vs).Pairwise RangesDisjoint ∧
    (last :: ((allCalls vs).filterMap Call.cursor ++ [last1])).Pairwise
      (fun a b => a ≤ b) := by
  rw [traverse_eq_visitAll] at h
  have hsz : ∀ e ∈ mergeOrder blocks data, e.address + e.size < 2 ^ 64 := by
    intro e he
    have he2 := (mergeOrder_perm blocks data).mem_iff.1 he
    rcases List.mem_append.1 he2 with hm | hm
    · obtain ⟨b, hbm, rfl⟩ := List.mem_map.1 hm
      exact hb b hbm
    · obtain ⟨d, hdm, rfl⟩ := List.mem_map.1 hm
      exact hd d hdm
  obtain ⟨hp, _, hc, hcb, hl⟩ := visitAll_handed p (mergeOrder blocks data) last vs last1 h hsz
  refine ⟨hp, hp.imp fun hab => Or.inl hab, ?_⟩
  rw [List.pairwise_cons, List.pairwise_append]
  refine ⟨?_, hc, List.pairwise_singleton _ _, ?_⟩
  · intro c hcm
    rcases List.mem_append.1 hcm with hcm | hcm
    · exact (hcb c hcm).1
    · rw [List.mem_singleton.1 hcm]; exact hl
  · intro c hcm d hdm
    rw [List.mem_singleton.1 hdm]
    exact (hcb c hcm).2

theorem handed_elements_never_overlap_witness :
    ∃ vs last1,
      (examplePrinter emptyRangeModule).traverse
        [⟨1, 0x10, 0x10, []⟩, ⟨3, 0x14, 4, []⟩]
        [⟨9, 0x20, 8, []⟩, ⟨8, 0x18, 4, []⟩] 0 = some (vs, last1) ∧
      (handedElements vs).Pairwise (fun a b => a.address + a.size ≤ b.address) ∧
      (handedElements vs).Pairwise RangesDisjoint ∧
      (0 :: ((allCalls vs).filterMap Call.cursor ++ [last1])).Pairwise
        (fun a b => a ≤ b) := by
  have hb : ∀ b : Block, ((examplePrinter emptyRangeModule).printBlock b).isSome = true := by
    intro b
    rw [examplePrinter_printBlock]
    split <;> rfl
  have hd1 := examplePrinter_printDataObject_zero emptyRangeModule ⟨9, 0x20, 8, []⟩
    textSection (by decide) (by decide) (by decide) rfl
  have hd2 := examplePrinter_printDataObject_zero emptyRangeModule ⟨8, 0x18, 4, []⟩
    textSection (by decide) (by decide) (by decide) rfl
  obtain ⟨vs, last1, hv⟩ := visitAll_isSome (examplePrinter emptyRangeModule)
    (mergeOrder [⟨1, 0x10, 0x10, []⟩, ⟨3, 0x14, 4, []⟩]
      [⟨9, 0x20, 8, []⟩, ⟨8, 0x18, 4, []⟩]) 0
    (by
      intro e he
      have he2 := (mergeOrder_perm _ _).mem_iff.1 he
      simp only [List.map_cons, List.map_nil, List.cons_append, List.nil_append,
        List.mem_cons, List.mem_singleton, List.not_mem_nil, or_false] at he2
      rcases he2 with rfl | rfl | rfl | rfl
      · exact hb _
      · exact hb _
      · show ((examplePrinter emptyRangeModule).printDataObject _).isSome = true
        rw [hd1]; rfl
      · show ((examplePrinter emptyRangeModule).printDataObject _).isSome = true
        rw [hd2]; rfl)
  rw [← traverse_eq_visitAll] at hv
  exact ⟨vs, last1, hv, handed_elements_never_overlap _ _ _ 0 vs last1
    (by decide) (by decide) hv⟩

/-! ## C33 and C32: the renaming of reserved words -/

theorem AvoidRegNameConflicts_eq (x : String) :
    AvoidRegNameConflicts x = if x ∈ reservedWords then x ++ "_renamed" else x := rfl

theorem renamed_not_reserved : ∀ w ∈ reservedWords, w ++ "_renamed" ∉ reservedWords := by
  decide

theorem string_append_right_cancel (a b s : String) (h : a ++ s = b ++ s) : a = b := by
  apply String.ext
  have := congrArg String.data h
  simpa [String.data_append] using this

/-- Claim C33. For every name `x`, `AvoidRegNameConflicts x` is not one of the reserved
words of the list, and renaming twice is renaming once. -/
theorem AvoidRegNameConflicts_idempotent (x : String) :
    AvoidRegNameConflicts x ∉ reservedWords ∧
    AvoidRegNameConflicts (AvoidRegNameConflicts x) = AvoidRegNameConflicts x := by
  have h1 : AvoidRegNameConflicts x ∉ reservedWords := by
    rw [AvoidRegNameConflicts_eq]
    by_cases hx : x ∈ reservedWords
    · rw [if_pos hx]; exact renamed_not_reserved x hx
    · rw [if_neg hx]; exact hx
  refine ⟨h1, ?_⟩
  rw [AvoidRegNameConflicts_eq (AvoidRegNameConflicts x), if_neg h1]

/-- Claim C32, counterexample. The distinct names `mod` and `mod_renamed` are both
rendered as `mod_renamed`. -/
theorem AvoidRegNameConflicts_collision :
    "mod" ≠ "mod_renamed" ∧
    AvoidRegNameConflicts "mod" = "mod_renamed" ∧
    AvoidRegNameConflicts "mod_renamed" = "mod_renamed" := by
  decide

/-- Claim C32, amended. Two distinct names are rendered to the same printed name exactly
when one of them is a reserved word and the other is that word followed by `_renamed`;
in particular the renaming is injective on the names that are not a reserved word
followed by `_renamed`. -/
theorem AvoidRegNameConflicts_injective_up_to_suffix (x y : String) (hne : x ≠ y) :
    (AvoidRegNameConflicts x = AvoidRegNameConflicts y ↔
      (x ∈ reservedWords ∧ y = x ++ "_renamed") ∨
      (y ∈ reservedWords ∧ x = y ++ "_renamed")) ∧
    ((∀ w ∈ reservedWords, x ≠ w ++ "_renamed") →
      (∀ w ∈ reservedWords, y ≠ w ++ "_renamed") →
      AvoidRegNameConflicts x ≠ AvoidRegNameConflicts y) := by
  have hiff : AvoidRegNameConflicts x = AvoidRegNameConflicts y ↔
      (x ∈ reservedWords ∧ y = x ++ "_renamed") ∨
      (y ∈ reservedWords ∧ x = y ++ "_renamed") := by
    rw [AvoidRegNameConflicts_eq x, AvoidRegNameConflicts_eq y]
    by_cases hx : x ∈ reservedWords <;> by_cases hy : y ∈ reservedWords
    · rw [if_pos hx, if_pos hy]
      constructor
      · intro h; exact absurd (string_append_right_cancel _ _ _ h) hne
      · rintro (⟨_, h⟩ | ⟨_, h⟩)
        · exact absurd (h ▸ hy) (renamed_not_reserved x hx)
        · exact absurd (h ▸ hx) (renamed_not_reserved y hy)
    · rw [if_pos hx, if_neg hy]
      constructor
      · intro h; exact Or.inl ⟨hx, h.symm⟩
      · rintro (⟨_, h⟩ | ⟨h, _⟩)
        · exact h.symm
        · exact absurd h hy
    · rw [if_neg hx, if_pos hy]
      constructor
      · intro h; exact Or.inr ⟨hy, h⟩
      · rintro (⟨h, _⟩ | ⟨_, h⟩)
        · exact absurd h hx
        · exact h
    · rw [if_neg hx, if_neg hy]
      constructor
      · intro h; exact absurd h hne
      · rintro (⟨h, _⟩ | ⟨h, _⟩)
        · exact absurd h hx
        · exact absurd h hy
  refine ⟨hiff, fun hxs hys h => ?_⟩
  rcases hiff.1 h with ⟨hx, hy⟩ | ⟨hy, hx⟩
  · exact hys x hx hy
  · exact hxs y hy hx

theorem AvoidRegNameConflicts_injective_up_to_suffix_witness :
    AvoidRegNameConflicts "mod" ≠ AvoidRegNameConflicts "div" ∧
    AvoidRegNameConflicts "mod" ≠ AvoidRegNameConflicts "main" ∧
    AvoidRegNameConflicts "Si" = AvoidRegNameConflicts "Si_renamed" :=
  ⟨(AvoidRegNameConflicts_injective_up_to_suffix "mod" "div" (by decide)).2
      (by decide) (by decide),
   (AvoidRegNameConflicts_injective_up_to_suffix "mod" "main" (by decide)).2
      (by decide) (by decide),
   (AvoidRegNameConflicts_injective_up_to_suffix "Si" "Si_renamed" (by decide)).1.2
      (Or.inl (by decide))⟩

/-! ## C31: the escaping of `printString` can be decoded -/

theorem char_ofNat_toNat (n : Nat) (h : n < 256) : (Char.ofNat n).toNat = n := by
  have hv : n.isValidChar := Or.inl (by omega)
  simp only [Char.ofNat, hv, dite_true, Char.ofNatAux, Char.toNat]
  rfl

theorem char_ofNat_injective (a b : Nat) (ha : a < 256) (hb : b < 256)
    (h : Char.ofNat a = Char.ofNat b) : a = b := by
  rw [← char_ofNat_toNat a ha, ← char_ofNat_toNat b hb, h]

/-- The two shapes of an escaped character: a backslash and a letter that stands for the
character, or the character itself, which is then no backslash, double quote, newline or
tab. -/
theorem escapeSpec_cases (c : Char) :
    (∃ l, (escapeSpec c).data = [Char.ofNat 92, l] ∧ unescapeLetter l = c ∧
      l ≠ Char.ofNat 10 ∧ l ≠ Char.ofNat 9) ∨
    ((escapeSpec c).data = [c] ∧ c ≠ Char.ofNat 92 ∧ c ≠ Char.ofNat 34 ∧
      c ≠ Char.ofNat 10 ∧ c ≠ Char.ofNat 9) := by
  by_cases h1 : c = Char.ofNat 92
  · subst h1; exact Or.inl ⟨Char.ofNat 92, by decide⟩
  by_cases h2 : c = Char.ofNat 34
  · subst h2; exact Or.inl ⟨Char.ofNat 34, by decide⟩
  by_cases h3 : c = Char.ofNat 10
  · subst h3; exact Or.inl ⟨'n', by decide⟩
  by_cases h4 : c = Char.ofNat 9
  · subst h4; exact Or.inl ⟨'t', by decide⟩
  by_cases h5 : c = Char.ofNat 11
  · subst h5; exact Or.inl ⟨'v', by decide⟩
  by_cases h6 : c = Char.ofNat 8
  · subst h6; exact Or.inl ⟨'b', by decide⟩
  by_cases h7 : c = Char.ofNat 13
  · subst h7; exact Or.inl ⟨'r', by decide⟩
  by_cases h8 : c = Char.ofNat 7
  · subst h8; exact Or.inl ⟨'a', by decide⟩
  by_cases h9 : c = Char.ofNat 39
  · subst h9; exact Or.inl ⟨Char.ofNat 39, by decide⟩
  refine Or.inr ⟨?_, h1, h2, h3, h4⟩
  simp only [escapeSpec, h1, h2, h3, h4, h5, h6, h7, h8, h9, if_false]
  rfl

theorem printStringBytes_data_cons (b : Nat) (bs : List Nat) (hb : b % 256 ≠ 0) :
    (printStringBytes (b :: bs)).data =
      (escapeSpec (Char.ofNat (b % 256))).data ++ (printStringBytes bs).data := by
  simp only [printStringBytes, hb, ne_eq, not_false_eq_true, if_true, String.data_append,
    cleanByte_eq_escapeSpec]

theorem printStringBytes_data_cons_zero (b : Nat) (bs : List Nat) (hb : b % 256 = 0) :
    (printStringBytes (b :: bs)).data = (printStringBytes bs).data := by
  simp only [printStringBytes, hb, ne_eq, not_true_eq_false, if_false, String.data_append]
  rfl

theorem noUnescapedQuote_escape (c : Char) (rest : List Char)
    (h : noUnescapedQuote rest = true) :
    noUnescapedQuote ((escapeSpec c).data ++ rest) = true := by
  rcases escapeSpec_cases c with ⟨l, hd, _, _, _⟩ | ⟨hd, hbs, hq, _, _⟩
  · rw [hd]
    show noUnescapedQuote (Char.ofNat 92 :: l :: rest) = true
    simp only [noUnescapedQuote, if_true, h]
  · rw [hd]
    cases rest with
    | nil => simp [noUnescapedQuote, hbs, hq]
    | cons d rest => simp [noUnescapedQuote, hbs, hq, h]

theorem printStringBytes_wellEscaped (bytes : List Nat) :
    noUnescapedQuote (printStringBytes bytes).data = true ∧
    Char.ofNat 10 ∉ (printStringBytes bytes).data ∧
    Char.ofNat 9 ∉ (printStringBytes bytes).data := by
  induction bytes with
  | nil => exact ⟨rfl, by simp [printStringBytes], by simp [printStringBytes]⟩
  | cons b bs ih =>
    by_cases hb : b % 256 = 0
    · rw [printStringBytes_data_cons_zero b bs hb]; exact ih
    · rw [printStringBytes_data_cons b bs hb]
      refine ⟨noUnescapedQuote_escape _ _ ih.1, ?_, ?_⟩
      · rcases escapeSpec_cases (Char.ofNat (b % 256)) with
          ⟨l, hd, _, hn, _⟩ | ⟨hd, _, _, hn, _⟩
        · rw [hd]
          simp only [List.cons_append, List.nil_append, List.mem_cons, not_or]
          exact ⟨by decide, fun h => hn h.symm, ih.2.1⟩
        · rw [hd]
          simp only [List.cons_append, List.nil_append, List.mem_cons, not_or]
          exact ⟨fun h => hn h.symm, ih.2.1⟩
      · rcases escapeSpec_cases (Char.ofNat (b % 256)) with
          ⟨l, hd, _, _, ht⟩ | ⟨hd, _, _, _, ht⟩
        · rw [hd]
          simp only [List.cons_append, List.nil_append, List.mem_cons, not_or]
          exact ⟨by decide, fun h => ht h.symm, ih.2.2⟩
        · rw [hd]
          simp only [List.cons_append, List.nil_append, List.mem_cons, not_or]
          exact ⟨fun h => ht h.symm, ih.2.2⟩

/-- The escapes form a prefix code: the escape of a character at the head of a text
determines the character and the rest of the text. -/
theorem escapeSpec_prefix_free (c d : Char) (r s : List Char)
    (h : (escapeSpec c).data ++ r = (escapeSpec d).data ++ s) : c = d ∧ r = s := by
  rcases escapeSpec_cases c with ⟨l1, hc, hu1, _, _⟩ | ⟨hc, hbs1, _, _, _⟩ <;>
    rcases escapeSpec_cases d with ⟨l2, hd, hu2, _, _⟩ | ⟨hd, hbs2, _, _, _⟩ <;>
    rw [hc, hd] at h <;>
    simp only [List.cons_append, List.nil_append, List.cons.injEq, true_and] at h
  · obtain ⟨hl, hrs⟩ := h
    exact ⟨by rw [← hu1, ← hu2, hl], hrs⟩
  · exact absurd h.1.symm hbs2
  · exact absurd h.1 hbs1
  · exact h

theorem printStringBytes_injective (xs : List Nat) :
    ∀ ys : List Nat, (∀ b ∈ xs, 0 < b ∧ b < 256) → (∀ b ∈ ys, 0 < b ∧ b < 256) →
      (printStringBytes xs).data = (printStringBytes ys).data → xs = ys := by
  induction xs with
  | nil =>
    intro ys _ hy h
    cases ys with
    | nil => rfl
    | cons d ys =>
      have hd := hy d (List.mem_cons_self _ _)
      rw [printStringBytes_data_cons d ys (by omega)] at h
      rcases escapeSpec_cases (Char.ofNat (d % 256)) with ⟨l, he, _⟩ | ⟨he, _⟩ <;>
        rw [he] at h <;> cases h
  | cons c xs ih =>
    intro ys hx hy h
    have hc := hx c (List.mem_cons_self _ _)
    cases ys with
    | nil =>
      rw [printStringBytes_data_cons c xs (by omega)] at h
      rcases escapeSpec_cases (Char.ofNat (c % 256)) with ⟨l, he, _⟩ | ⟨he, _⟩ <;>
        rw [he] at h <;> cases h
    | cons d ys =>
      have hd := hy d (List.mem_cons_self _ _)
      rw [printStringBytes_data_cons c xs (by omega),
        printStringBytes_data_cons d ys (by omega)] at h
      obtain ⟨hcd, hrest⟩ := escapeSpec_prefix_free _ _ _ _ h
      have hcd2 := char_ofNat_injective _ _ (Nat.mod_lt _ (by norm_num))
        (Nat.mod_lt _ (by norm_num)) hcd
      have hcd3 : c = d := by omega
      rw [hcd3, ih ys (fun b hb => hx b (List.mem_cons_of_mem _ hb))
        (fun b hb => hy b (List.mem_cons_of_mem _ hb)) hrest]

/-- Claim C31. The escaping of `printString` is uniquely decodable: two data objects
whose byte sequences hold no zero byte and differ are printed as different `.string`
texts. For every data object the text between the outer quotes holds no newline and no
tab character, and every double quote in it is taken by a backslash before it. -/
theorem printString_uniquely_decodable (x y : DataObject) :
    ((∀ b ∈ x.bytes, 0 < b ∧ b < 256) → (∀ b ∈ y.bytes, 0 < b ∧ b < 256) →
      x.bytes ≠ y.bytes → printString x ≠ printString y) ∧
    printString x = ".string \"" ++ printStringBytes x.bytes ++ "\"" ∧
    noUnescapedQuote (printStringBytes x.bytes).data = true ∧
    Char.ofNat 10 ∉ (printStringBytes x.bytes).data ∧
    Char.ofNat 9 ∉ (printStringBytes x.bytes).data := by
  refine ⟨?_, rfl, printStringBytes_wellEscaped x.bytes⟩
  intro hx hy hne heq
  apply hne
  apply printStringBytes_injective x.bytes y.bytes hx hy
  have h := congrArg String.data heq
  simp only [printString, String.data_append, List.append_cancel_right_eq,
    List.append_cancel_left_eq] at h
  exact h

theorem printString_uniquely_decodable_witness :
    printString ⟨1, 0x30, 2, [0x5c, 0x22]⟩ ≠ printString ⟨1, 0x30, 2, [0x22, 0x5c]⟩ ∧
    printString ⟨1, 0x30, 2, [0x5c, 0x6e]⟩ ≠ printString ⟨1, 0x30, 1, [0x0a]⟩ :=
  ⟨(printString_uniquely_decodable ⟨1, 0x30, 2, [0x5c, 0x22]⟩ ⟨1, 0x30, 2, [0x22, 0x5c]⟩).1
      (by decide) (by decide) (by decide),
   (printString_uniquely_decodable ⟨1, 0x30, 2, [0x5c, 0x6e]⟩ ⟨1, 0x30, 1, [0x0a]⟩).1
      (by decide) (by decide) (by decide)⟩
end gtirb_pprint
